import Mathlib

/-!
# Rosetta-Texting: login handshake and client registry

A shallow embedding of the login handlers of `src/TCP_server.c`
(`check_pubkey_exists`, `process_msg_00`, `process_msg_01`) and of
`src/client/Network_Code/TCP_client.h` (`construct_msg_00`, `process_msg_00`).

Conventions of the embedding

* a byte buffer is a `List Nat`; a read past the end of a buffer yields `0`
  (every buffer of the handlers is `calloc`ed) and a write past the end is dropped;
* `u32`/`u64` variables are `Nat`s, reduced `% 2 ^ w` where the C arithmetic can wrap;
* the big-integer, hash, cipher and signature routines come from `cryptolib.h`, which
  is not among the sources: they are the fields of `CryptoLib`, a parameter of every handler;
* `send` appends the transmitted bytes to the `sent` trace of the state; its return
  value is an input of the handler.
-/

set_option autoImplicit false

namespace Rosetta

/-! ## Byte buffers -/

abbrev Bytes := List Nat

/-- Buffer of `n` zero bytes, as `calloc(1, n)` returns it. -/
def zeros (n : Nat) : Bytes := List.replicate n 0

/-- Byte `buf[i]`. -/
def rd (buf : Bytes) (i : Nat) : Nat := buf.getD i 0

/-- The `n` bytes `buf[off .. off + n)`. -/
def slice (buf : Bytes) (off n : Nat) : Bytes :=
  (List.range n).map fun i => rd buf (off + i)

/-- Result of `memcpy(dst + off, src, src.length)`: the buffer `dst` afterwards. -/
def memcpy (dst : Bytes) (off : Nat) (src : Bytes) : Bytes :=
  (List.range dst.length).map fun i =>
    if off ≤ i ∧ i < off + src.length then rd src (i - off) else rd dst i

/-- The `n` little-endian bytes of `v` (a store of an integer on the little-endian host). -/
def le_bytes (n v : Nat) : Bytes :=
  (List.range n).map fun i => v / 256 ^ i % 256

/-- Little-endian value of a byte string. -/
def le_toNat : Bytes → Nat
  | [] => 0
  | b :: bs => b + 256 * le_toNat bs

/-- Buffer after `explicit_bzero(buf, n)` / `memset(buf, 0, n)`. -/
def explicit_bzero (buf : Bytes) (n : Nat) : Bytes := memcpy buf 0 (zeros n)

/-- Transmitted bytes of `send(fd, buf, len, 0)`. -/
def send_bytes (buf : Bytes) (len : Nat) : Bytes := buf.take len

/-! ## Constants -/

def PRIVKEY_BYTES : Nat := 40
def PUBKEY_LEN : Nat := 384
def MAX_CLIENTS : Nat := 64
def MAX_PEND_MSGS : Nat := 1024
def MAX_MSG_LEN : Nat := 1024
def MAX_BIGINT_SIZ : Nat := 12800
def MAGIC_LEN : Nat := 8
def TEMP_BUF_SIZ : Nat := 16384
def MAGIC_00 : Nat := 0xAD0084FF0CC25B0E
def MAGIC_01 : Nat := 0xE7D09F1FEFEA708B
def MAGIC_02 : Nat := 0x146AAE4D100DAEEA

/-- Macro `SIGNATURE_LEN`, `(2 * sizeof(bigint)) + (2 * PRIVKEY_BYTES)`, for a given
`sizeof(bigint)`. -/
def SIGNATURE_LEN (sizeof_bigint : Nat) : Nat := 2 * sizeof_bigint + 2 * PRIVKEY_BYTES

/-- Macro `BITMASK_BIT_AT(X)`, `1ULL << (63ULL - X)`; the server writes it out in full.
The C expression is defined for `X ≤ 63` only. -/
def BITMASK_BIT_AT (x : Nat) : Nat := 1 <<< (63 - x)

/-! ## Big integers and the crypto library -/

/-- Modelled from the spec: `struct bigint` of cryptolib.h (absent from the sources), with
the four fields the handlers assign; `bits` stands for the heap buffer behind the pointer. -/
structure bigint where
  bits : Bytes
  bits_size : Nat
  used_bits : Nat
  free_bits : Nat

/-- Magnitude of a big integer: its `bits` buffer read as little-endian octets. -/
def bigint.toNat (a : bigint) : Nat := le_toNat a.bits

/-- Modelled from the spec: `bigint_create(b, size, value)` of cryptolib.h (absent from the
sources) initialises `b` to the integer `value` with a buffer of `size`. -/
def bigint_create (size value : Nat) : bigint :=
  { bits := le_bytes size value, bits_size := size, used_bits := Nat.size value,
    free_bits := size - Nat.size value }

/-- Modelled from the spec: `bigint_compare2(a, b)` of cryptolib.h (absent from the sources)
returns 1 when `a > b`, 2 when `a = b` and 3 when `a < b`. -/
def bigint_compare2 (a b : bigint) : Nat :=
  if b.toNat < a.toNat then 1 else if a.toNat = b.toNat then 2 else 3

/-- Routines of cryptolib.h / coreutil.h and the platform facts the handlers depend on. -/
structure CryptoLib where
  /-- Value of `sizeof(bigint)`. -/
  sizeof_bigint : Nat
  /-- The `sizeof(bigint)` bytes a `struct bigint` occupies in memory. -/
  struct_image : bigint → Bytes
  /-- The big integer read through a `bigint*` that points at the given bytes. -/
  load_bigint : Bytes → bigint
  /-- Call `get_used_bits(buf, len)`. -/
  get_used_bits : Bytes → Nat → Nat
  /-- Call `Get_Mont_Form(src, &dst, M)`: the value left in `dst`. -/
  Get_Mont_Form : bigint → bigint → bigint
  /-- Call `check_pubkey_form(Am, M, Q)`. -/
  check_pubkey_form : bigint → bigint → bigint → Nat
  /-- Call `gen_pub_key(len, file, bits)`, on the private key saved to the file. -/
  gen_pub_key : Nat → bigint → Nat → bigint
  /-- Call `MONT_POW_modM(base, exp, M, &res)`: the value left in `res`. -/
  MONT_POW_modM : bigint → bigint → bigint → bigint
  /-- Call `Signature_GENERATE(M, Q, Gm, data, data_len, out, &priv, priv_len)`: the bytes
  written at `out`. -/
  Signature_GENERATE : bigint → bigint → bigint → Bytes → Nat → bigint → Nat → Bytes
  /-- Call `Signature_VALIDATE(Gm, &pub_mont, M, Q, s, e, data, data_len)`. -/
  Signature_VALIDATE :
    bigint → bigint → bigint → bigint → bigint → bigint → Bytes → Nat → Nat
  /-- Call `BLAKE2B_INIT(in, in_len, key_len, out_len, out)`: the bytes written at `out`. -/
  BLAKE2B_INIT : Bytes → Nat → Nat → Nat → Bytes
  /-- Call `CHACHA20(text, len, nonce, nonce_words, key, key_words, out)`: the bytes written
  at `out`. -/
  CHACHA20 : Bytes → Nat → Bytes → Nat → Bytes → Nat → Bytes

/-! ## Server state (TCP_server.c) -/

namespace Server

/-- Record `struct connected_client`. -/
structure connected_client where
  room_ix : Nat
  num_pending_msgs : Nat
  pending_msgs : List Bytes
  client_pubkey : Bytes
  pubkey_siz_bytes : Nat

/-- Globals of TCP_server.c that the login handlers read or write, and the trace of `send`
calls. -/
structure State where
  server_control_bitmask : Nat
  clients_status_bitmask : Nat
  next_free_user_ix : Nat
  clients : List connected_client
  temp_handshake_buf : Bytes
  M : bigint
  Q : bigint
  Gm : bigint
  server_privkey_bigint : bigint
  sent : List Bytes

/-- Zero-initialised `struct connected_client` (static storage). -/
def connected_client.empty : connected_client :=
  { room_ix := 0, num_pending_msgs := 0, pending_msgs := [], client_pubkey := [],
    pubkey_siz_bytes := 0 }

/-- Server state after `self_init`: the globals at their initialisers, the scratch region
`calloc`ed, the group constants and the private key as loaded from the files. -/
def init (M Q Gm priv : bigint) : State :=
  { server_control_bitmask := 0, clients_status_bitmask := 0, next_free_user_ix := 0,
    clients := List.replicate MAX_CLIENTS connected_client.empty,
    temp_handshake_buf := zeros TEMP_BUF_SIZ,
    M := M, Q := Q, Gm := Gm, server_privkey_bigint := priv, sent := [] }

/-- Entry `clients[i]`. -/
def client_at (s : State) (i : Nat) : connected_client :=
  s.clients.getD i connected_client.empty

/-- Test `clients_status_bitmask & (1ULL << (63ULL - i))` of slot `i`. -/
def occupied (mask i : Nat) : Bool := mask &&& BITMASK_BIT_AT i != 0

/-- Function `check_pubkey_exists(pubkey_buf, pubkey_siz)`. -/
def check_pubkey_exists (s : State) (pubkey_buf : Bytes) (pubkey_siz : Nat) : Nat :=
  if pubkey_siz < 300 then 2
  else if (List.range MAX_CLIENTS).any fun i =>
      occupied s.clients_status_bitmask i
      && ((client_at s i).pubkey_siz_bytes == pubkey_siz)
      && (slice pubkey_buf 0 pubkey_siz == slice (client_at s i).client_pubkey 0 pubkey_siz)
    then 1
  else 0

/-- The loop `while(next_free_user_ix < MAX_CLIENTS){ if(!(mask & bit)) break; ++ix; }`,
run for at most `fuel` iterations from index `n`. -/
def scan_free (mask : Nat) : Nat → Nat → Nat
  | 0, n => n
  | fuel + 1, n =>
    if n < MAX_CLIENTS then
      if occupied mask n then scan_free mask fuel (n + 1) else n
    else n

/-- The 8-byte authenticator that `process_msg_01` recomputes from the key stored in the
scratch region and the 384 ciphertext bytes of the packet (steps 3 to 9 of the HMAC
construction as the handler spells them out). -/
def HMAC_output (L : CryptoLib) (temp_handshake_buf msg_buf : Bytes) : Bytes :=
  let B := 64
  let Lh := 128
  let opad := List.replicate B 0x5c
  let ipad := List.replicate B 0x36
  let K0 := memcpy (zeros B) 32 (slice temp_handshake_buf (4 * L.sizeof_bigint) 32)
  let K0_XOR_ipad := (List.range B).map fun i => rd K0 i ^^^ rd ipad i
  let K0_XOR_ipad_TEXT :=
    memcpy (memcpy (zeros (B + PUBKEY_LEN)) 0 K0_XOR_ipad) B
      (slice msg_buf (2 * MAGIC_LEN) PUBKEY_LEN)
  let BLAKE2B_output :=
    memcpy (zeros Lh) 0 (L.BLAKE2B_INIT K0_XOR_ipad_TEXT (B + PUBKEY_LEN) 0 Lh)
  let K0_XOR_opad := (List.range B).map fun i => rd K0 i ^^^ rd opad i
  let last_BLAKE2B_input :=
    memcpy (memcpy (zeros (B + Lh)) 0 K0_XOR_opad) B (slice BLAKE2B_output 0 Lh)
  let BLAKE2B_output2 :=
    memcpy BLAKE2B_output 0 (L.BLAKE2B_INIT last_BLAKE2B_input (B + Lh) 0 Lh)
  memcpy (zeros 8) 0 (slice BLAKE2B_output2 0 8)

/-- The comparison loop of `process_msg_01`: true when some computed byte differs from the
received byte `msg_buf[PUBKEY_LEN + 2*MAGIC_LEN + i]`. -/
def hmac_mismatch (L : CryptoLib) (temp_handshake_buf msg_buf : Bytes) : Bool :=
  (List.range 8).any fun i =>
    rd (HMAC_output L temp_handshake_buf msg_buf) i
      != rd msg_buf (PUBKEY_LEN + 2 * MAGIC_LEN + i)

/-- Buffer `client_pubkey_buf` of `process_msg_01` after the first `CHACHA20` call: the
client's long-term public key as decrypted by the server. -/
def client_pubkey_buf (L : CryptoLib) (temp_handshake_buf msg_buf : Bytes) : Bytes :=
  let sz := L.sizeof_bigint
  memcpy (zeros PUBKEY_LEN) 0
    (L.CHACHA20 (slice msg_buf (2 * MAGIC_LEN) PUBKEY_LEN) PUBKEY_LEN
      (slice temp_handshake_buf (4 * sz + 3 * 32) 12) 3
      (slice temp_handshake_buf (4 * sz) 32) 8)

/-- The statements after `label_cleanup` in `process_msg_01`: the scratch region is cleared
and `server_control_bitmask &= ~(1ULL << 63ULL)` is stored back into the `u32`. -/
def cleanup_01 (s : State) : State :=
  { s with
    temp_handshake_buf := explicit_bzero s.temp_handshake_buf TEMP_BUF_SIZ
    server_control_bitmask :=
      (s.server_control_bitmask &&& (2 ^ 64 - 1 - 1 <<< 63)) % 2 ^ 32 }

/-- The "Rosetta full" reply buffer of `process_msg_01`. -/
def reply_full (L : CryptoLib) (s : State) : Bytes :=
  let sz := L.sizeof_bigint
  let reply_len := 2 * 8 + SIGNATURE_LEN sz
  let reply_buf := zeros reply_len
  let reply_buf := memcpy reply_buf 0 (le_bytes 8 MAGIC_02)
  let reply_buf := memcpy reply_buf 8 (le_bytes 8 (SIGNATURE_LEN sz))
  let reply_buf := memcpy reply_buf 16
    (L.Signature_GENERATE s.M s.Q s.Gm (le_bytes 8 MAGIC_02) 8
      s.server_privkey_bigint PRIVKEY_BYTES)
  send_bytes reply_buf reply_len

/-- The "login OK" reply buffer of `process_msg_01`. The first `CHACHA20` argument is
`&next_free_user_ix` with length 8: the four bytes of the `u32` and the four bytes that
follow it in memory, `after_ix`. -/
def reply_ok (L : CryptoLib) (s : State) (after_ix : Bytes) : Bytes :=
  let sz := L.sizeof_bigint
  let reply_len := 3 * 8 + SIGNATURE_LEN sz
  let reply_buf := zeros reply_len
  let reply_buf := memcpy reply_buf 8
    (slice
      (L.CHACHA20 (le_bytes 4 s.next_free_user_ix ++ slice after_ix 0 4) 8
        (slice s.temp_handshake_buf (4 * sz + 3 * 32) 12) 3
        (slice s.temp_handshake_buf (4 * sz + 1 * 32) 32) 8) 0 8)
  let reply_buf := memcpy reply_buf 0 (le_bytes 8 MAGIC_01)
  let reply_buf := memcpy reply_buf 16 (le_bytes 8 (SIGNATURE_LEN sz))
  let reply_buf := memcpy reply_buf 24
    (L.Signature_GENERATE s.M s.Q s.Gm (le_bytes 8 MAGIC_01) 8
      s.server_privkey_bigint PRIVKEY_BYTES)
  send_bytes reply_buf reply_len

/-- The bookkeeping block of `process_msg_01`: slot `next_free_user_ix` is populated, its
bit is set in `clients_status_bitmask`, and `next_free_user_ix` moves right to the next
clear bit. -/
def allocate (s : State) (pubkey : Bytes) : State :=
  let ix := s.next_free_user_ix
  let slot : connected_client :=
    { room_ix := 0, num_pending_msgs := 0,
      pending_msgs := List.replicate MAX_PEND_MSGS (zeros MAX_MSG_LEN),
      pubkey_siz_bytes := PUBKEY_LEN,
      client_pubkey := memcpy (zeros PUBKEY_LEN) 0 (slice pubkey 0 PUBKEY_LEN) }
  let mask := s.clients_status_bitmask ||| BITMASK_BIT_AT ix
  { s with
    clients := s.clients.set ix slot
    clients_status_bitmask := mask
    next_free_user_ix := scan_free mask MAX_CLIENTS (ix + 1) }

/-- Handler `process_msg_01(msg_buf)`. `after_ix` are the four bytes that follow
`next_free_user_ix` in memory and `send_ret` is what `send` returns. -/
def process_msg_01 (L : CryptoLib) (s : State) (msg_buf after_ix : Bytes)
    (send_ret : Int) : State :=
  if hmac_mismatch L s.temp_handshake_buf msg_buf then cleanup_01 s
  else
    let pubkey := client_pubkey_buf L s.temp_handshake_buf msg_buf
    if s.next_free_user_ix = MAX_CLIENTS then
      cleanup_01 { s with sent := s.sent ++ [reply_full L s] }
    else if check_pubkey_exists s pubkey PUBKEY_LEN > 0 then cleanup_01 s
    else
      let reply := reply_ok L s after_ix
      let s1 := allocate s pubkey
      if send_ret = -1 then cleanup_01 { s1 with sent := s1.sent ++ [reply] }
      else cleanup_01 { s1 with sent := s1.sent ++ [reply] }

/-- The `u32` subtraction `a - b`. -/
def sub_u32 (a b : Nat) : Nat := (a + 2 ^ 32 - b % 2 ^ 32) % 2 ^ 32

/-- The big integer `A_s` that `process_msg_00` builds in the scratch region from the
packet: `memcpy(A_s->bits, msg_buf + 16, *(msg_buf + 8))` copies as many bytes as the single
byte `msg_buf[8]` says, into a zeroed buffer of `MAX_BIGINT_SIZ` bytes. -/
def parse_A_s (L : CryptoLib) (msg_buf : Bytes) : bigint :=
  let n := rd msg_buf 8
  let used := L.get_used_bits (slice msg_buf 16 n) n
  { bits := memcpy (zeros MAX_BIGINT_SIZ) 0 (slice msg_buf 16 n)
    bits_size := MAX_BIGINT_SIZ
    used_bits := used
    free_bits := sub_u32 MAX_BIGINT_SIZ used }

/-- The validity test of `process_msg_00` on the short-term key: true when the handler
takes the `goto label_cleanup` branch. -/
def rejects_A_s (L : CryptoLib) (s : State) (msg_buf : Bytes) : Bool :=
  let A_s := parse_A_s L msg_buf
  let zero := bigint_create MAX_BIGINT_SIZ 0
  let Am := L.Get_Mont_Form A_s s.M
  bigint_compare2 zero A_s != 3
    || bigint_compare2 s.M A_s != 1
    || L.check_pubkey_form Am s.M s.Q == 0

/-- Scratch region once `process_msg_00` has stored `A_s` at offset 0. -/
def scratch_A_s (L : CryptoLib) (s : State) (msg_buf : Bytes) : Bytes :=
  memcpy s.temp_handshake_buf 0
    (slice (L.struct_image (parse_A_s L msg_buf)) 0 L.sizeof_bigint)

/-- Scratch region once `process_msg_00` has stored all of `A_s`, `b_s`, `B_s`, `X_s`,
`KAB_s`, `KBA_s`, `Y_s`, `N_s`; `rnd` are the bytes `gen_priv_key` draws. The pointer `b_s`
is taken to address the scratch region at offset `sizeof(bigint)`. -/
def scratch_keys (L : CryptoLib) (s : State) (msg_buf rnd : Bytes) : Bytes :=
  let sz := L.sizeof_bigint
  let A_s := parse_A_s L msg_buf
  let Am := L.Get_Mont_Form A_s s.M
  let buf := scratch_A_s L s msg_buf
  let buf := memcpy buf sz (slice rnd 0 PRIVKEY_BYTES)
  let b_s := L.load_bigint (slice buf sz sz)
  let B_s := L.gen_pub_key PRIVKEY_BYTES b_s MAX_BIGINT_SIZ
  let buf := memcpy buf (2 * sz) (slice (L.struct_image B_s) 0 sz)
  let X_s := L.MONT_POW_modM Am b_s s.M
  let buf := memcpy buf (3 * sz) (slice (L.struct_image X_s) 0 sz)
  let buf := memcpy buf (4 * sz) (slice X_s.bits 0 32)
  let buf := memcpy buf (4 * sz + 32) (slice X_s.bits 32 32)
  let buf := memcpy buf (4 * sz + 64) (slice X_s.bits 64 32)
  memcpy buf (4 * sz + 96) (slice X_s.bits 96 12)

/-- The reply buffer of `process_msg_00`: magic, `PUBKEY_LEN`, `B_s`, `SIGNATURE_LEN` and the
signature of `Y_s`. -/
def reply_00 (L : CryptoLib) (s : State) (msg_buf rnd : Bytes) : Bytes :=
  let sz := L.sizeof_bigint
  let reply_len := 3 * MAGIC_LEN + SIGNATURE_LEN sz + PUBKEY_LEN
  let buf := memcpy (scratch_A_s L s msg_buf) sz (slice rnd 0 PRIVKEY_BYTES)
  let b_s := L.load_bigint (slice buf sz sz)
  let B_s := L.gen_pub_key PRIVKEY_BYTES b_s MAX_BIGINT_SIZ
  let Y_s := slice (scratch_keys L s msg_buf rnd) (4 * sz + 64) 32
  let signature_buf :=
    memcpy (zeros (SIGNATURE_LEN sz)) 0
      (L.Signature_GENERATE s.M s.Q s.Gm Y_s 32 s.server_privkey_bigint PRIVKEY_BYTES)
  let reply_buf := zeros reply_len
  let reply_buf := memcpy reply_buf 0 (le_bytes 8 MAGIC_00)
  let reply_buf := memcpy reply_buf MAGIC_LEN (le_bytes 8 PUBKEY_LEN)
  let reply_buf := memcpy reply_buf (2 * MAGIC_LEN) (slice B_s.bits 0 PUBKEY_LEN)
  let reply_buf := memcpy reply_buf (2 * MAGIC_LEN + PUBKEY_LEN) (le_bytes 8 (SIGNATURE_LEN sz))
  let reply_buf := memcpy reply_buf (3 * MAGIC_LEN + PUBKEY_LEN) signature_buf
  send_bytes reply_buf reply_len

/-- Handler `process_msg_00(msg_buf)` of the server. `rnd` are the bytes `gen_priv_key`
draws and `send_ret` is what `send` returns. The `u32` global receives
`server_control_bitmask | (1ULL << 63ULL)` truncated to 32 bits. -/
def process_msg_00 (L : CryptoLib) (s : State) (msg_buf rnd : Bytes)
    (send_ret : Int) : State :=
  let s1 := { s with
    server_control_bitmask := (s.server_control_bitmask ||| 1 <<< 63) % 2 ^ 32 }
  if rejects_A_s L s msg_buf then
    { s1 with temp_handshake_buf := scratch_A_s L s msg_buf }
  else
    let s2 := { s1 with
      temp_handshake_buf := scratch_keys L s msg_buf rnd
      sent := s.sent ++ [reply_00 L s msg_buf rnd] }
    if send_ret = -1 then s2 else s2

/-- Server states reachable from the state after `self_init` by calls of the two login
handlers, on any packets, random draws and `send` results. -/
inductive Reachable (L : CryptoLib) (M Q Gm priv : bigint) : State → Prop
  | start : Reachable L M Q Gm priv (init M Q Gm priv)
  | msg_00 (s : State) (msg_buf rnd : Bytes) (send_ret : Int) :
      Reachable L M Q Gm priv s →
      Reachable L M Q Gm priv (process_msg_00 L s msg_buf rnd send_ret)
  | msg_01 (s : State) (msg_buf after_ix : Bytes) (send_ret : Int) :
      Reachable L M Q Gm priv s →
      Reachable L M Q Gm priv (process_msg_01 L s msg_buf after_ix send_ret)

end Server

/-! ## Client state (client/Network_Code/TCP_client.h) -/

namespace Client

def PRIVKEY_LEN : Nat := 40
def SMALL_FIELD_LEN : Nat := 8
def SESSION_KEY_LEN : Nat := 32
def INIT_AUTH_LEN : Nat := 32
def SHORT_NONCE_LEN : Nat := 12
def HMAC_TRUNC_BYTES : Nat := 8
def PACKET_ID_00 : Nat := 0xAD0084FF0CC25B0E
def PACKET_ID_01 : Nat := 0xE7D09F1FEFEA708B

def ONE_TIME_KEY_LEN : Nat := 32
def LONG_NONCE_LEN : Nat := 16
def PACKET_ID_10 : Nat := 0x13C4A44F70842AC1
def PACKET_ID_20 : Nat := 0x9FF4D1E0EAE100A5
def PACKET_ID_21 : Nat := 0x7C8124568ED45F1A
def PACKET_ID_30 : Nat := 0x9FFA7475DDC8B11C
def roommates_arr_siz : Nat := 63

/-- A `struct bigint` in zero-initialised static storage: null `bits` pointer, fields 0. -/
def bigint_zeroed : bigint := { bits := [], bits_size := 0, used_bits := 0, free_bits := 0 }

/-- The `struct roommate`. The three pointers `guest_KBA`, `guest_KAB`, `guest_Nonce` are
represented by the heap buffers they address (`[]` for a null pointer). -/
structure roommate where
  guest_user_id : Bytes
  guest_pubkey : bigint
  guest_pubkey_mont : bigint
  guest_KBA : Bytes
  guest_KAB : Bytes
  guest_Nonce : Bytes
  guest_nonce_counter : Nat

/-- A `struct roommate` with every byte 0, as in static storage or after `memset`. -/
def roommate_zeroed : roommate :=
  { guest_user_id := zeros SMALL_FIELD_LEN, guest_pubkey := bigint_zeroed,
    guest_pubkey_mont := bigint_zeroed, guest_KBA := [], guest_KAB := [], guest_Nonce := [],
    guest_nonce_counter := 0 }

/-- Globals of TCP_client.h that the routines read or write, and the trace of `send` calls.
The pointers `KAB` and `KBA` point into `server_shared_secret.bits` and are represented by
their byte offsets in that buffer. The fields with a default are the globals the login
routines up to the second packet do not touch, with their values in static storage. -/
structure State where
  temp_handshake_memory_region_isLocked : Nat
  handshake_memory_region_state : Nat
  temp_handshake_buf : Bytes
  own_pubkey : bigint
  M : bigint
  Q : bigint
  Gm : bigint
  server_pubkey_mont : bigint
  sent : List Bytes
  own_ix : Nat := 0
  own_user_id : Bytes := zeros SMALL_FIELD_LEN
  server_nonce_counter : Nat := 0
  server_shared_secret : bigint := bigint_zeroed
  nonce_bigint : bigint := bigint_zeroed
  server_pubkey : bigint := bigint_zeroed
  own_privkey : bigint := bigint_zeroed
  KAB : Nat := 0
  KBA : Nat := 0
  roommates : List roommate := List.replicate roommates_arr_siz roommate_zeroed
  next_free_roommate_slot : Nat := 0
  num_roommates : Nat := 0
  roommate_slots_bitmask : Nat := 0
  roommate_key_usage_bitmask : Nat := 0

/-- Function `authenticate_server(signed_ptr, signed_len, sign_offset)`: the two halves of
the signature are rebuilt from the buffer and handed to `Signature_VALIDATE`. -/
def authenticate_server (L : CryptoLib) (s : State) (signed_ptr : Bytes)
    (signed_len sign_offset : Nat) : Nat :=
  let sz := L.sizeof_bigint
  let s_offset := sign_offset
  let e_offset := sign_offset + sz + PRIVKEY_LEN
  let recv_s : bigint :=
    { L.load_bigint (slice signed_ptr s_offset sz) with
      bits := memcpy (zeros MAX_BIGINT_SIZ) 0 (slice signed_ptr (sign_offset + sz) PRIVKEY_LEN) }
  let recv_e : bigint :=
    { L.load_bigint (slice signed_ptr e_offset sz) with
      bits := memcpy (zeros MAX_BIGINT_SIZ) 0
        (slice signed_ptr (sign_offset + 2 * sz + PRIVKEY_LEN) PRIVKEY_LEN) }
  L.Signature_VALIDATE s.Gm s.server_pubkey_mont s.M s.Q recv_s recv_e
    (slice signed_ptr 0 signed_len) signed_len

/-- Function `construct_msg_00()`: the state afterwards and the returned status. `rnd` are
the bytes `gen_priv_key` draws and `send_ret` is what `send` returns. -/
def construct_msg_00 (L : CryptoLib) (s : State) (rnd : Bytes) (send_ret : Int) :
    State × Nat :=
  let sz := L.sizeof_bigint
  let msg_len := SMALL_FIELD_LEN + PUBKEY_LEN
  let msg_buf := zeros msg_len
  let buf := memcpy s.temp_handshake_buf 0 (slice rnd 0 PRIVKEY_LEN)
  let used := L.get_used_bits (slice buf 0 PRIVKEY_LEN) PRIVKEY_LEN
  let temp_privkey : bigint :=
    { bits := memcpy (zeros MAX_BIGINT_SIZ) 0 (slice buf 0 PRIVKEY_LEN)
      bits_size := MAX_BIGINT_SIZ
      used_bits := used
      free_bits := MAX_BIGINT_SIZ - used }
  let buf := memcpy buf 0 (zeros PRIVKEY_LEN)
  let buf := memcpy buf 0 (slice (L.struct_image temp_privkey) 0 sz)
  let A_s := L.gen_pub_key PRIVKEY_LEN temp_privkey MAX_BIGINT_SIZ
  let buf := memcpy buf sz (slice (L.struct_image A_s) 0 sz)
  let msg_buf := memcpy msg_buf 0 (le_bytes 8 PACKET_ID_00)
  let msg_buf := memcpy msg_buf SMALL_FIELD_LEN (slice A_s.bits 0 PUBKEY_LEN)
  let s1 := { s with
    temp_handshake_memory_region_isLocked := 1
    temp_handshake_buf := buf
    handshake_memory_region_state := 1
    sent := s.sent ++ [send_bytes msg_buf msg_len] }
  if send_ret = -1 then (s1, 0) else (s1, 1)

/-- The big integer `B_s` that `process_msg_00` builds from the 384 bytes at
`msg_buf + SMALL_FIELD_LEN`. -/
def parse_B_s (L : CryptoLib) (msg_buf : Bytes) : bigint :=
  let bits := memcpy (zeros MAX_BIGINT_SIZ) 0 (slice msg_buf SMALL_FIELD_LEN PUBKEY_LEN)
  let used := L.get_used_bits (slice bits 0 PUBKEY_LEN) PUBKEY_LEN
  { bits := bits
    bits_size := MAX_BIGINT_SIZ
    used_bits := used
    free_bits := MAX_BIGINT_SIZ - used }

/-- The validity test of the client's `process_msg_00` on the server's short-term key as the
source has it (the `check_pubkey_form` disjunct is commented out there): true when the
routine takes the `goto label_cleanup` branch. -/
def rejects_B_s (L : CryptoLib) (s : State) (msg_buf : Bytes) : Bool :=
  let B_s := parse_B_s L msg_buf
  let zero := bigint_create MAX_BIGINT_SIZ 0
  bigint_compare2 zero B_s != 3 || bigint_compare2 s.M B_s != 1

/-- The shared secret `X_s` of the client's `process_msg_00`, `B_s ^ a_s mod M`, with `a_s`
read through the pointer to the start of the scratch region. -/
def X_s (L : CryptoLib) (s : State) (msg_buf : Bytes) : bigint :=
  let B_s := parse_B_s L msg_buf
  let B_sM := L.Get_Mont_Form B_s s.M
  let a_s := L.load_bigint (slice s.temp_handshake_buf 0 L.sizeof_bigint)
  L.MONT_POW_modM B_sM a_s s.M

/-- The signature check of the client's `process_msg_00`: `auth_buf` is `Y_s` followed by
the received signature. -/
def auth_status (L : CryptoLib) (s : State) (msg_buf : Bytes) : Nat :=
  let sz := L.sizeof_bigint
  let auth_buf := zeros (INIT_AUTH_LEN + SIGNATURE_LEN sz)
  let auth_buf := memcpy auth_buf 0 (slice (X_s L s msg_buf).bits (2 * SESSION_KEY_LEN)
    INIT_AUTH_LEN)
  let auth_buf := memcpy auth_buf INIT_AUTH_LEN
    (slice msg_buf (SMALL_FIELD_LEN + PUBKEY_LEN) (SIGNATURE_LEN sz))
  authenticate_server L s auth_buf INIT_AUTH_LEN INIT_AUTH_LEN

/-- Scratch region after the client's `process_msg_00` has stored `B_s`, `KAB_s`, `KBA_s`,
`Y_s` and `N_s` (before the nonce is incremented). -/
def scratch_keys (L : CryptoLib) (s : State) (msg_buf : Bytes) : Bytes :=
  let sz := L.sizeof_bigint
  let X := X_s L s msg_buf
  let buf := memcpy s.temp_handshake_buf (2 * sz)
    (slice (L.struct_image (parse_B_s L msg_buf)) 0 sz)
  let buf := memcpy buf (3 * sz) (slice X.bits 0 SESSION_KEY_LEN)
  let buf := memcpy buf (3 * sz + SESSION_KEY_LEN) (slice X.bits SESSION_KEY_LEN SESSION_KEY_LEN)
  let buf := memcpy buf (3 * sz + 2 * SESSION_KEY_LEN)
    (slice X.bits (2 * SESSION_KEY_LEN) INIT_AUTH_LEN)
  memcpy buf (3 * sz + 2 * SESSION_KEY_LEN + INIT_AUTH_LEN)
    (slice X.bits (2 * SESSION_KEY_LEN + INIT_AUTH_LEN) SHORT_NONCE_LEN)

/-- The MAGIC_01 packet the client's `process_msg_00` builds: packet id, the long-term
public key encrypted under `KAB_s` and `N_s`, and the 8-byte authenticator. -/
def reply_01 (L : CryptoLib) (s : State) (msg_buf : Bytes) : Bytes :=
  let sz := L.sizeof_bigint
  let B := 64
  let Lh := 128
  let scratch := scratch_keys L s msg_buf
  let reply_len := SMALL_FIELD_LEN + PUBKEY_LEN + HMAC_TRUNC_BYTES
  let HMAC_reply_offset := SMALL_FIELD_LEN + PUBKEY_LEN
  let reply_buf := memcpy (zeros reply_len) 0 (le_bytes 8 PACKET_ID_01)
  let handshake_buf_nonce_offset := 3 * sz + 2 * SESSION_KEY_LEN + INIT_AUTH_LEN
  let handshake_buf_key_offset := 3 * sz
  let reply_buf := memcpy reply_buf SMALL_FIELD_LEN
    (slice
      (L.CHACHA20 (slice s.own_pubkey.bits 0 PUBKEY_LEN) PUBKEY_LEN
        (slice scratch handshake_buf_nonce_offset SHORT_NONCE_LEN) (SHORT_NONCE_LEN / 4)
        (slice scratch handshake_buf_key_offset SESSION_KEY_LEN) (SESSION_KEY_LEN / 4))
      0 PUBKEY_LEN)
  let opad := List.replicate B 0x5c
  let ipad := List.replicate B 0x36
  let K0 := memcpy (zeros B) (B - SESSION_KEY_LEN) (slice scratch (3 * sz) SESSION_KEY_LEN)
  let K0_XOR_ipad := (List.range B).map fun i => rd K0 i ^^^ rd ipad i
  let K0_XOR_ipad_TEXT :=
    memcpy (memcpy (zeros (B + PUBKEY_LEN)) 0 K0_XOR_ipad) B
      (slice reply_buf SMALL_FIELD_LEN PUBKEY_LEN)
  let BLAKE2B_output :=
    memcpy (zeros Lh) 0 (L.BLAKE2B_INIT K0_XOR_ipad_TEXT (B + PUBKEY_LEN) 0 Lh)
  let K0_XOR_opad := (List.range B).map fun i => rd K0 i ^^^ rd opad i
  let last_BLAKE2B_input :=
    memcpy (memcpy (zeros (B + Lh)) 0 K0_XOR_opad) B (slice BLAKE2B_output 0 Lh)
  let BLAKE2B_output2 :=
    memcpy BLAKE2B_output 0 (L.BLAKE2B_INIT last_BLAKE2B_input (B + Lh) 0 Lh)
  let reply_buf := memcpy reply_buf HMAC_reply_offset (slice BLAKE2B_output2 0 HMAC_TRUNC_BYTES)
  send_bytes reply_buf reply_len

/-- Scratch region when the client's `process_msg_00` returns after building its reply: the
keys are stored and the `u64` at the nonce offset has been incremented. -/
def scratch_final (L : CryptoLib) (s : State) (msg_buf : Bytes) : Bytes :=
  let off := 3 * L.sizeof_bigint + 2 * SESSION_KEY_LEN + INIT_AUTH_LEN
  let scratch := scratch_keys L s msg_buf
  memcpy scratch off (le_bytes 8 ((le_toNat (slice scratch off 8) + 1) % 2 ^ 64))

/-- Routine `process_msg_00(msg_buf)` of the client: the state afterwards and the returned
status. `send_ret` is what `send` returns. -/
def process_msg_00 (L : CryptoLib) (s : State) (msg_buf : Bytes) (send_ret : Int) :
    State × Nat :=
  if rejects_B_s L s msg_buf then (s, 0)
  else if auth_status L s msg_buf ≠ 1 then (s, 0)
  else
    let s1 := { s with
      handshake_memory_region_state := 2
      temp_handshake_buf := scratch_final L s msg_buf
      sent := s.sent ++ [reply_01 L s msg_buf] }
    if send_ret = -1 then (s1, 0) else (s1, 1)

end Client

/-! ## A small library instance and concrete packets, for evaluating the handlers -/

/-- Big integer whose magnitude is the single octet `v`. -/
def small (v : Nat) : bigint :=
  { bits := [v], bits_size := MAX_BIGINT_SIZ, used_bits := 8, free_bits := MAX_BIGINT_SIZ - 8 }

/-- A library instance: a 24-byte `struct bigint` (pointer, three `u32` fields, padding), the
identity as Montgomery map and as cipher, a constant hash, the subgroup test
`A ^ ((M - 1) / Q) mod M = 1`, and a signature check that accepts. -/
def sampleLib : CryptoLib :=
  { sizeof_bigint := 24
    struct_image := fun b =>
      le_bytes 8 0x1000 ++ le_bytes 4 b.bits_size ++ le_bytes 4 b.used_bits
        ++ le_bytes 4 b.free_bits ++ zeros 4
    load_bigint := fun img =>
      { bits := img, bits_size := MAX_BIGINT_SIZ, used_bits := 0, free_bits := MAX_BIGINT_SIZ }
    get_used_bits := fun _ len => 8 * len
    Get_Mont_Form := fun a _ => a
    check_pubkey_form := fun Am M Q =>
      if Am.toNat ^ ((M.toNat - 1) / Q.toNat) % M.toNat = 1 then 1 else 0
    gen_pub_key := fun _ _ _ => small 4
    MONT_POW_modM := fun b _ _ => b
    Signature_GENERATE := fun _ _ _ _ _ _ _ => List.replicate 128 1
    Signature_VALIDATE := fun _ _ _ _ _ _ _ _ => 1
    BLAKE2B_INIT := fun _ _ _ out_len => zeros out_len
    CHACHA20 := fun text _ _ _ _ _ => text }

namespace Server

/-- The leftmost-empty rule: `next_free_user_ix` is at most `MAX_CLIENTS`, every slot left
of it is occupied, and it is itself a free slot unless it is `MAX_CLIENTS`. -/
def LeftmostEmpty (mask ix : Nat) : Prop :=
  ix ≤ MAX_CLIENTS ∧ (∀ i, i < ix → occupied mask i = true) ∧
    (ix < MAX_CLIENTS → occupied mask ix = false)

/-- Server just after `self_init`, with `M = 7`, `Q = 3`. -/
def sampleInit : State := init (small 7) (small 3) (small 2) (small 5)

/-- A 17-byte MAGIC_00 packet: the magic, `pubkey_len = 1`, and the one-octet key `a`. -/
def packet_00 (a : Nat) : Bytes :=
  [0x0E, 0x5B, 0xC2, 0x0C, 0xFF, 0x84, 0x00, 0xAD, 1, 0, 0, 0, 0, 0, 0, 0, a]

/-- A 408-byte MAGIC_01 packet: the magic, `pubkey_len = 384`, a 384-byte ciphertext whose
first byte is `a` and whose other bytes are 0, and an all-zero authenticator. -/
def packet_01 (a : Nat) : Bytes :=
  memcpy (zeros 408) 0
    [0x8B, 0x70, 0xEA, 0xEF, 0x1F, 0x9F, 0xD0, 0xE7, 0x80, 0x01, 0, 0, 0, 0, 0, 0, a]

/-- A registry with all 64 slots occupied, slot `i` holding the key of value `i + 1`. -/
def sampleFull : State :=
  { sampleInit with
    clients_status_bitmask := 2 ^ 64 - 1
    next_free_user_ix := 64
    clients := (List.range MAX_CLIENTS).map fun i =>
      { room_ix := 0, num_pending_msgs := 0, pending_msgs := [],
        client_pubkey := le_bytes PUBKEY_LEN (i + 1), pubkey_siz_bytes := PUBKEY_LEN } }

/-- Registry after one successful login on `sampleInit`: slot 0 holds the key of value 1. -/
def sampleOne : State := process_msg_01 sampleLib sampleInit (packet_01 1) [] 0

/-- Server with a login in flight: `sampleInit` after a MAGIC_00 packet carrying the valid
key 6 has been processed (with the random draw `[1]`). -/
def sampleInFlight : State := process_msg_00 sampleLib sampleInit (packet_00 6) [1] 0

end Server

namespace Client

/-- Client before a login: scratch region zeroed, `M = 7`, `Q = 3`. -/
def sampleInit : State :=
  { temp_handshake_memory_region_isLocked := 0, handshake_memory_region_state := 0,
    temp_handshake_buf := zeros TEMP_BUF_SIZ, own_pubkey := small 6, M := small 7,
    Q := small 3, Gm := small 2, server_pubkey_mont := small 4, sent := [] }

/-- Client after `construct_msg_00` has sent the first login packet. -/
def sampleSent : State := (construct_msg_00 sampleLib sampleInit [9] 0).1

/-- A reply to MAGIC_00 as the client reads it: the magic, then the one-octet key `b` at
offset `SMALL_FIELD_LEN`, all further bytes zero. -/
def reply_00 (b : Nat) : Bytes :=
  [0x0E, 0x5B, 0xC2, 0x0C, 0xFF, 0x84, 0x00, 0xAD, b]

end Client

/-! ## The login handshake, continued: shared-secret slices and the authenticator -/

namespace Server

/-- The shared secret `X_s` of the server's `process_msg_00`, `A_s ^ b_s mod M`: the value
`MONT_POW_modM(Am, b_s, M, X_s)` leaves in the scratch region's fourth `bigint`. -/
def X_s (L : CryptoLib) (s : State) (msg_buf rnd : Bytes) : bigint :=
  let sz := L.sizeof_bigint
  let A_s := parse_A_s L msg_buf
  let Am := L.Get_Mont_Form A_s s.M
  let buf := memcpy (scratch_A_s L s msg_buf) sz (slice rnd 0 PRIVKEY_BYTES)
  let b_s := L.load_bigint (slice buf sz sz)
  L.MONT_POW_modM Am b_s s.M

/-- The packet `packet_01 1` with the first authenticator byte changed from 0 to 1. -/
def packet_01_bad : Bytes := memcpy (packet_01 1) 400 [1]

end Server

namespace Client

/-- The reply buffer of the client's `process_msg_00` once the packet id and the encrypted
long-term public key `A_x` are in place, before the authenticator is computed. -/
def reply_A_x (L : CryptoLib) (s : State) (msg_buf : Bytes) : Bytes :=
  let sz := L.sizeof_bigint
  let scratch := scratch_keys L s msg_buf
  let reply_len := SMALL_FIELD_LEN + PUBKEY_LEN + HMAC_TRUNC_BYTES
  let reply_buf := memcpy (zeros reply_len) 0 (le_bytes 8 PACKET_ID_01)
  let handshake_buf_nonce_offset := 3 * sz + 2 * SESSION_KEY_LEN + INIT_AUTH_LEN
  let handshake_buf_key_offset := 3 * sz
  memcpy reply_buf SMALL_FIELD_LEN
    (slice
      (L.CHACHA20 (slice s.own_pubkey.bits 0 PUBKEY_LEN) PUBKEY_LEN
        (slice scratch handshake_buf_nonce_offset SHORT_NONCE_LEN) (SHORT_NONCE_LEN / 4)
        (slice scratch handshake_buf_key_offset SESSION_KEY_LEN) (SESSION_KEY_LEN / 4))
      0 PUBKEY_LEN)

/-- The `HMAC_TRUNC_BYTES` authenticator bytes the client's `process_msg_00` computes from the
key stored in the scratch region and the 384 ciphertext bytes at `reply_buf + SMALL_FIELD_LEN`
(steps 3 to 9 of the HMAC construction as the routine spells them out). -/
def HMAC_output (L : CryptoLib) (temp_handshake_buf reply_buf : Bytes) : Bytes :=
  let B := 64
  let Lh := 128
  let opad := List.replicate B 0x5c
  let ipad := List.replicate B 0x36
  let K0 := memcpy (zeros B) (B - SESSION_KEY_LEN)
    (slice temp_handshake_buf (3 * L.sizeof_bigint) SESSION_KEY_LEN)
  let K0_XOR_ipad := (List.range B).map fun i => rd K0 i ^^^ rd ipad i
  let K0_XOR_ipad_TEXT :=
    memcpy (memcpy (zeros (B + PUBKEY_LEN)) 0 K0_XOR_ipad) B
      (slice reply_buf SMALL_FIELD_LEN PUBKEY_LEN)
  let BLAKE2B_output :=
    memcpy (zeros Lh) 0 (L.BLAKE2B_INIT K0_XOR_ipad_TEXT (B + PUBKEY_LEN) 0 Lh)
  let K0_XOR_opad := (List.range B).map fun i => rd K0 i ^^^ rd opad i
  let last_BLAKE2B_input :=
    memcpy (memcpy (zeros (B + Lh)) 0 K0_XOR_opad) B (slice BLAKE2B_output 0 Lh)
  let BLAKE2B_output2 :=
    memcpy BLAKE2B_output 0 (L.BLAKE2B_INIT last_BLAKE2B_input (B + Lh) 0 Lh)
  slice BLAKE2B_output2 0 HMAC_TRUNC_BYTES

end Client

namespace Server

/-- A 408-byte MAGIC_01 packet in the layout the server reads: the magic, `pubkey_len = 384`,
then at offset 16 the 384 ciphertext bytes and at offset 400 the 8 authenticator bytes that
the client-built packet `reply` carries at offsets 8 and 392. -/
def packet_01_of (reply : Bytes) : Bytes :=
  memcpy (memcpy (memcpy (memcpy (zeros 408) 0 (le_bytes 8 MAGIC_01)) 8 (le_bytes 8 PUBKEY_LEN))
    16 (slice reply 8 384)) 400 (slice reply 392 8)

end Server

/-! ## The server's dispatcher -/

namespace Server

/-- The read `*((u64*)(buf + off))` on the little-endian host. -/
def read_u64 (buf : Bytes) (off : Nat) : Nat := le_toNat (slice buf off 8) % 2 ^ 64

/-- Function `process_new_message()`. `received` are the bytes `recv` delivers (`none` when it
returns -1), at most `MAX_MSG_LEN` of which land in the `calloc`ed buffer; `rnd`, `after_ix`
and `send_ret` are the inputs of the handlers. The `switch` has no `break`: after
`process_msg_00` control runs into the MAGIC_01 case and its length test. -/
def process_new_message (L : CryptoLib) (s : State) (received : Option Bytes)
    (rnd after_ix : Bytes) (send_ret : Int) : State :=
  match received with
  | none => s
  | some data =>
    let bytes_read := (data.take MAX_MSG_LEN).length
    let client_msg_buf := memcpy (zeros MAX_MSG_LEN) 0 (data.take MAX_MSG_LEN)
    if bytes_read < 8 then s
    else
      let transmission_type := read_u64 client_msg_buf 0
      if transmission_type = MAGIC_00 then
        let expected_siz := (16 + read_u64 client_msg_buf 8) % 2 ^ 64
        if bytes_read ≠ expected_siz then s
        else
          let s1 := process_msg_00 L s client_msg_buf rnd send_ret
          let expected_siz := (16 + read_u64 client_msg_buf 8 + 8) % 2 ^ 64
          if bytes_read ≠ expected_siz then s1
          else process_msg_01 L s1 client_msg_buf after_ix send_ret
      else if transmission_type = MAGIC_01 then
        let expected_siz := (16 + read_u64 client_msg_buf 8 + 8) % 2 ^ 64
        if bytes_read ≠ expected_siz then s
        else process_msg_01 L s client_msg_buf after_ix send_ret
      else s

end Server

namespace Client

/-- The MAGIC_00 packet `construct_msg_00` builds: the packet id followed directly by the 384
bytes of the short-term public key. -/
def msg_00 (L : CryptoLib) (s : State) (rnd : Bytes) : Bytes :=
  let msg_len := SMALL_FIELD_LEN + PUBKEY_LEN
  let buf := memcpy s.temp_handshake_buf 0 (slice rnd 0 PRIVKEY_LEN)
  let used := L.get_used_bits (slice buf 0 PRIVKEY_LEN) PRIVKEY_LEN
  let temp_privkey : bigint :=
    { bits := memcpy (zeros MAX_BIGINT_SIZ) 0 (slice buf 0 PRIVKEY_LEN)
      bits_size := MAX_BIGINT_SIZ
      used_bits := used
      free_bits := MAX_BIGINT_SIZ - used }
  let A_s := L.gen_pub_key PRIVKEY_LEN temp_privkey MAX_BIGINT_SIZ
  let msg_buf := memcpy (zeros msg_len) 0 (le_bytes 8 PACKET_ID_00)
  let msg_buf := memcpy msg_buf SMALL_FIELD_LEN (slice A_s.bits 0 PUBKEY_LEN)
  send_bytes msg_buf msg_len

end Client

/-! ## Client: session keys with the server, the MAGIC_01 reply, room requests -/

/-- Modelled from the spec: `bigint_add_fast(a, b, res)` of cryptolib.h (absent from the
sources) leaves the sum `a + b` in `res`, in the buffer `res` already owns. -/
def bigint_add_fast (a b res : bigint) : bigint :=
  let v := a.toNat + b.toNat
  { res with bits := le_bytes res.bits.length v, used_bits := Nat.size v,
             free_bits := res.bits_size - Nat.size v }

/-- Modelled from the spec: `bigint_equate2(dst, src)` of cryptolib.h (absent from the
sources) makes `dst` equal in value to `src`, in the buffer `dst` already owns. -/
def bigint_equate2 (dst src : bigint) : bigint :=
  { dst with bits := le_bytes dst.bits.length src.toNat, used_bits := src.used_bits,
             free_bits := dst.bits_size - src.used_bits }

namespace Client

/-- The pair of statements `bigint_add_fast(&n, &one, &aux1); bigint_equate2(&n, &aux1);`
with `one` and `aux1` created by `bigint_create(.., MAX_BIGINT_SIZ, 1)` and `(.., 0)`: the
value of `n` afterwards. -/
def nonce_incr (n : bigint) : bigint :=
  bigint_equate2 n (bigint_add_fast n (bigint_create MAX_BIGINT_SIZ 1)
    (bigint_create MAX_BIGINT_SIZ 0))

/-- The loop `for(i = 0; i < counter; ++i){ bigint_add_fast(..); bigint_equate2(..); }`. -/
def nonce_loop : Nat → bigint → bigint
  | 0, n => n
  | k + 1, n => nonce_loop k (nonce_incr n)

/-- The 32 bytes the cipher reads through the pointer `KAB`. -/
def KAB_bytes (s : State) : Bytes := slice s.server_shared_secret.bits s.KAB SESSION_KEY_LEN

/-- The 32 bytes the cipher reads through the pointer `KBA`. -/
def KBA_bytes (s : State) : Bytes := slice s.server_shared_secret.bits s.KBA SESSION_KEY_LEN

/-- The part of `self_init()` that follows the loading of the own key pair, of `M` and of
`server_pubkey`: the shared secret with the server, the two session-key pointers and the
base nonce. -/
def self_init_session_keys (L : CryptoLib) (s : State) : State :=
  let server_pubkey_mont := L.Get_Mont_Form s.server_pubkey s.M
  let server_shared_secret := L.MONT_POW_modM server_pubkey_mont s.own_privkey s.M
  let a_lt_b := bigint_compare2 s.own_pubkey s.server_pubkey = 3
  let KAB := if a_lt_b then SESSION_KEY_LEN else 0
  let KBA := if a_lt_b then 0 else SESSION_KEY_LEN
  let bits := memcpy (zeros (MAX_BIGINT_SIZ / 8)) 0
    (slice server_shared_secret.bits (2 * SESSION_KEY_LEN) LONG_NONCE_LEN)
  let used := L.get_used_bits (slice bits 0 LONG_NONCE_LEN) LONG_NONCE_LEN
  { s with
    server_pubkey_mont := server_pubkey_mont
    server_shared_secret := server_shared_secret
    KAB := KAB
    KBA := KBA
    nonce_bigint :=
      { bits := bits, bits_size := MAX_BIGINT_SIZ, used_bits := used,
        free_bits := MAX_BIGINT_SIZ - used } }

/-- Function `release_handshake_memory_region()`. -/
def release_handshake_memory_region (s : State) : State :=
  { s with
    temp_handshake_buf := explicit_bzero s.temp_handshake_buf TEMP_BUF_SIZ
    temp_handshake_memory_region_isLocked := 0
    handshake_memory_region_state := 0 }

/-- Routine `process_msg_01(msg)` of the client: the state afterwards and the returned
status. The eight bytes the cipher writes at `&own_ix` are read back as a `u64`. -/
def process_msg_01 (L : CryptoLib) (s : State) (msg : Bytes) : State × Nat :=
  let sz := L.sizeof_bigint
  let status := authenticate_server L s msg SMALL_FIELD_LEN (2 * SMALL_FIELD_LEN)
  if status ≠ 1 then (release_handshake_memory_region s, 0)
  else
    let nonce_offset := 3 * sz + 2 * SESSION_KEY_LEN + INIT_AUTH_LEN
    let key_offset := 3 * sz + 1 * SESSION_KEY_LEN
    let out := L.CHACHA20 (slice msg SMALL_FIELD_LEN SMALL_FIELD_LEN) SMALL_FIELD_LEN
      (slice s.temp_handshake_buf nonce_offset SHORT_NONCE_LEN) (SHORT_NONCE_LEN / 4)
      (slice s.temp_handshake_buf key_offset SESSION_KEY_LEN) (SESSION_KEY_LEN / 4)
    (release_handshake_memory_region { s with own_ix := le_toNat (slice out 0 8) % 2 ^ 64 }, 1)

/-- The packet `construct_msg_10` and `construct_msg_20` build, for the packet id `id`
stored at its start: `K` is the one-time key read from the random source. -/
def room_request (L : CryptoLib) (s : State) (id : Nat)
    (requested_userid requested_roomid K : Bytes) : Bytes :=
  let sz := L.sizeof_bigint
  let sendbuf_roomID_offset := 2 * SMALL_FIELD_LEN + ONE_TIME_KEY_LEN
  let signed_len := 4 * SMALL_FIELD_LEN + ONE_TIME_KEY_LEN
  let send_len := 4 * SMALL_FIELD_LEN + ONE_TIME_KEY_LEN + SIGNATURE_LEN sz
  let send_K := memcpy (zeros ONE_TIME_KEY_LEN) 0 (slice K 0 ONE_TIME_KEY_LEN)
  let send_buf := zeros send_len
  let nonce1 := nonce_loop s.server_nonce_counter s.nonce_bigint
  let send_buf := memcpy send_buf (2 * SMALL_FIELD_LEN)
    (slice
      (L.CHACHA20 send_K ONE_TIME_KEY_LEN (slice nonce1.bits 0 LONG_NONCE_LEN)
        (LONG_NONCE_LEN / 4) (KAB_bytes s) (SESSION_KEY_LEN / 4))
      0 ONE_TIME_KEY_LEN)
  let nonce2 := nonce_incr nonce1
  let roomID_userID := memcpy (zeros (2 * SMALL_FIELD_LEN)) 0
    (slice requested_roomid 0 SMALL_FIELD_LEN)
  let roomID_userID := memcpy roomID_userID SMALL_FIELD_LEN
    (slice requested_userid 0 SMALL_FIELD_LEN)
  let send_buf := memcpy send_buf sendbuf_roomID_offset
    (slice
      (L.CHACHA20 roomID_userID (2 * SMALL_FIELD_LEN) (slice nonce2.bits 0 LONG_NONCE_LEN)
        (LONG_NONCE_LEN / 4) (KAB_bytes s) (SESSION_KEY_LEN / 4))
      0 (2 * SMALL_FIELD_LEN))
  let send_buf := memcpy send_buf 0 (le_bytes 8 id)
  let send_buf := memcpy send_buf SMALL_FIELD_LEN (le_bytes 8 s.own_ix)
  let send_buf := memcpy send_buf signed_len
    (L.Signature_GENERATE s.M s.Q s.Gm (slice send_buf 0 signed_len) signed_len
      s.own_privkey PRIVKEY_LEN)
  send_bytes send_buf send_len

/-- The state `construct_msg_10` and `construct_msg_20` leave once the random source has
been read: the global `nonce_bigint` has gone through the loop and one more increment, the
counter is two higher, and the packet has been handed to `send`. -/
def room_request_state (s : State) (packet : Bytes) : State :=
  { s with
    nonce_bigint := nonce_incr (nonce_loop s.server_nonce_counter s.nonce_bigint)
    server_nonce_counter := (s.server_nonce_counter + 2) % 2 ^ 64
    sent := s.sent ++ [packet] }

/-- Function `construct_msg_10(requested_userid, requested_roomid)`: the state afterwards
and the returned status. `urandom` are the 32 bytes read from `/dev/urandom` (`none` when
the file cannot be opened or read) and `send_ret` is what `send` returns. -/
def construct_msg_10 (L : CryptoLib) (s : State) (requested_userid requested_roomid : Bytes)
    (urandom : Option Bytes) (send_ret : Int) : State × Nat :=
  match urandom with
  | none => (s, 0)
  | some K =>
    let s1 := room_request_state s
      (room_request L s PACKET_ID_10 requested_userid requested_roomid K)
    if send_ret = -1 then (s1, 0) else (s1, 1)

/-- Function `construct_msg_20(requested_userid, requested_roomid)`: the state afterwards
and the returned status, with the inputs of `construct_msg_10`. The body stores
`PACKET_ID_10` at the start of the packet, as `construct_msg_10` does. -/
def construct_msg_20 (L : CryptoLib) (s : State) (requested_userid requested_roomid : Bytes)
    (urandom : Option Bytes) (send_ret : Int) : State × Nat :=
  match urandom with
  | none => (s, 0)
  | some K =>
    let s1 := room_request_state s
      (room_request L s PACKET_ID_10 requested_userid requested_roomid K)
    if send_ret = -1 then (s1, 0) else (s1, 1)

end Client

/-- The library `sampleLib` with a cipher that depends on nonce and key: every text byte is
XORed with the sum (mod 256) of the first nonce byte and the first key byte. -/
def toyLib : CryptoLib :=
  { sampleLib with
    CHACHA20 := fun text _ nonce _ key _ =>
      text.map fun x => x ^^^ ((rd nonce 0 + rd key 0) % 256) }


namespace Server

/-- Server of `sampleInit` after a valid MAGIC_00 packet, run with `toyLib`: login in
flight, registry empty. -/
def toyInFlight : State := process_msg_00 toyLib sampleInit (packet_00 6) [1] 0

end Server

namespace Client

/-- Client of `sampleInit` after `construct_msg_00`, run with `toyLib`. -/
def toySent : State := (construct_msg_00 toyLib sampleInit [9] 0).1

end Client


/-- A shared secret whose buffer has first byte 11, byte 32 equal to 22, byte 64 equal to 7
and zeros elsewhere, so that the two session keys and the base nonce are told apart. -/
def sampleSecret : bigint :=
  { bits := memcpy (memcpy (memcpy (zeros 1600) 0 [11]) 32 [22]) 64 [7],
    bits_size := MAX_BIGINT_SIZ, used_bits := 515, free_bits := MAX_BIGINT_SIZ - 515 }

namespace Client

/-- Client after `self_init` with `toyLib`: server public key `sampleSecret` (which the toy
exponentiation returns as shared secret), own public key 6, `own_ix = 5`, nonce counter 0. -/
def sampleKeyed : State :=
  self_init_session_keys toyLib
    { sampleInit with server_pubkey := sampleSecret, own_privkey := small 3, own_ix := 5 }

/-- Client `sampleKeyed` after one `construct_msg_10` with one-time key `K = 5`. -/
def sampleAfter10 : State :=
  (construct_msg_10 toyLib sampleKeyed (zeros 8) (zeros 8) (some (le_bytes 32 5)) 0).1

end Client


/-! ## Packets for the dispatcher's length test and the key length of MAGIC_00 -/

namespace Server

/-- A 16-byte packet: the magic of MAGIC_01 followed by the length field `2^64 - 8`. -/
def packet_01_short : Bytes := le_bytes 8 MAGIC_01 ++ le_bytes 8 (2 ^ 64 - 8)

/-- A 400-byte MAGIC_00 packet with `pubkey_len = 384` whose key has byte 0 equal to 6 and
byte 200 equal to 1: the key of value `6 + 256 ^ 200`. -/
def packet_00_long : Bytes :=
  memcpy (memcpy (memcpy (memcpy (zeros 400) 0 (le_bytes 8 MAGIC_00)) 8 (le_bytes 8 384))
    16 [6]) 216 [1]

end Server

/-! ## Client: the room-closed notification -/

namespace Client

/-- Routine `process_msg_51(payload)`: the state afterwards and the returned status. -/
def process_msg_51 (L : CryptoLib) (s : State) (payload : Bytes) : State × Nat :=
  let status := authenticate_server L s payload SMALL_FIELD_LEN SMALL_FIELD_LEN
  if status ≠ 1 then (s, 0)
  else
    ({ s with
        roommates := List.replicate roommates_arr_siz roommate_zeroed
        roommate_slots_bitmask := 0
        roommate_key_usage_bitmask := 0
        num_roommates := 0
        next_free_roommate_slot := 0 }, 1)

/-- A client in a room with one roommate in slot 0: user id `B`, counter 4 and 32-byte key
buffers. -/
def sampleInRoom : State :=
  { sampleInit with
    roommates := (List.replicate roommates_arr_siz roommate_zeroed).set 0
      { roommate_zeroed with
        guest_user_id := [66, 0, 0, 0, 0, 0, 0, 0], guest_KBA := le_bytes 32 11,
        guest_KAB := le_bytes 32 22, guest_Nonce := le_bytes 16 7, guest_nonce_counter := 4 }
    roommate_slots_bitmask := 2 ^ 63
    roommate_key_usage_bitmask := 2 ^ 63
    num_roommates := 1
    next_free_roommate_slot := 1 }

end Client


/-- The library `sampleLib` with a signature check that rejects. -/
def rejectLib : CryptoLib :=
  { sampleLib with Signature_VALIDATE := fun _ _ _ _ _ _ _ _ => 0 }


/-! ## Client: roommates (join reply, join notification) -/

/-- The read `*((u64*)(buf + off))` on the little-endian host. -/
def u64_at (buf : Bytes) (off : Nat) : Nat := le_toNat (slice buf off 8) % 2 ^ 64

/-- The `u64` subtraction `a - b`. -/
def sub_u64 (a b : Nat) : Nat := (a % 2 ^ 64 + 2 ^ 64 - b % 2 ^ 64) % 2 ^ 64

namespace Client

def MAX_TXT_LEN : Nat := 1024

/-- Entry `roommates[i]`. -/
def roommate_at (s : State) (i : Nat) : roommate := s.roommates.getD i roommate_zeroed

/-- Test `mask & BITMASK_BIT_AT(i)`. -/
def bit_set (mask i : Nat) : Bool := mask &&& BITMASK_BIT_AT i != 0

/-- Test `strncmp(a + i, b + i, n) == 0`: the strings agree up to the first NUL or over all
`n` bytes. -/
def strncmp_eq (a b : Bytes) : Nat → Nat → Bool
  | 0, _ => true
  | n + 1, i =>
    if rd a i ≠ rd b i then false
    else if rd a i = 0 then true
    else strncmp_eq a b n (i + 1)

/-- The big integer `this_pubkey` that `process_msg_20` and `process_msg_21` build in a
guest descriptor from the decrypted guest information `info` (user id, then `PUBKEY_LEN` key
bytes). -/
def this_pubkey (L : CryptoLib) (info : Bytes) : bigint :=
  let bits := memcpy (zeros (MAX_BIGINT_SIZ / 8)) 0 (slice info SMALL_FIELD_LEN PUBKEY_LEN)
  let used := L.get_used_bits (slice bits 0 PUBKEY_LEN) PUBKEY_LEN
  { bits := bits, bits_size := MAX_BIGINT_SIZ, used_bits := used,
    free_bits := MAX_BIGINT_SIZ - used }

/-- The shared secret `temp_shared_secret` with the guest described by `info`:
`MONT_POW_modM(guest_pubkey_mont, own_privkey, M)`. -/
def temp_shared_secret (L : CryptoLib) (s : State) (info : Bytes) : bigint :=
  L.MONT_POW_modM (L.Get_Mont_Form (this_pubkey L info) s.M) s.own_privkey s.M

/-- The guest descriptor that `process_msg_20` and `process_msg_21` fill from the decrypted
guest information `info`. `KBA`, `KAB` and `Nonce` are the buffers behind the three pointers
of the descriptor at the time of the `memcpy`s. -/
def guest_descriptor (L : CryptoLib) (s : State) (info KBA KAB Nonce : Bytes) : roommate :=
  { guest_user_id := slice info 0 SMALL_FIELD_LEN
    guest_pubkey := this_pubkey L info
    guest_pubkey_mont := L.Get_Mont_Form (this_pubkey L info) s.M
    guest_KBA := memcpy KBA 0 (slice (temp_shared_secret L s info).bits 0 SESSION_KEY_LEN)
    guest_KAB := memcpy KAB 0
      (slice (temp_shared_secret L s info).bits SESSION_KEY_LEN SESSION_KEY_LEN)
    guest_Nonce := memcpy Nonce 0
      (slice (temp_shared_secret L s info).bits (2 * SESSION_KEY_LEN) LONG_NONCE_LEN)
    guest_nonce_counter := 0 }

/-- The descriptor loop of `process_msg_20`, with `k` passes left from index `i`; `AD` is
the decrypted associated data. The result is `none` when a pass has no defined behaviour in
C: the shift count of `BITMASK_BIT_AT(next_free_roommate_slot)` is out of range, or the pass
writes `roommates[i]` with `i` past the last entry. -/
def fill_guests (L : CryptoLib) (AD : Bytes) : Nat → Nat → State → Option State
  | 0, _, s => some s
  | k + 1, i, s =>
    if 63 < s.next_free_roommate_slot ∨ roommates_arr_siz ≤ i then none
    else
      let guest_info_slot_siz := SMALL_FIELD_LEN + PUBKEY_LEN
      let g := guest_descriptor L s (slice AD (i * guest_info_slot_siz) guest_info_slot_siz)
        (zeros SESSION_KEY_LEN) (zeros SESSION_KEY_LEN) (zeros LONG_NONCE_LEN)
      fill_guests L AD k (i + 1)
        { s with
          roommate_slots_bitmask :=
            s.roommate_slots_bitmask ||| BITMASK_BIT_AT s.next_free_roommate_slot
          roommates := s.roommates.set i g }

/-- The one-time key `recv_K` that `process_msg_20` and `process_msg_21` decrypt from
`msg + SMALL_FIELD_LEN` under the session key `KBA` and the nonce reached by the loop. -/
def recv_K (L : CryptoLib) (s : State) (msg : Bytes) : Bytes :=
  let nonce1 := nonce_loop s.server_nonce_counter s.nonce_bigint
  memcpy (zeros ONE_TIME_KEY_LEN) 0
    (slice
      (L.CHACHA20 (slice msg SMALL_FIELD_LEN ONE_TIME_KEY_LEN) ONE_TIME_KEY_LEN
        (slice nonce1.bits 0 LONG_NONCE_LEN) (LONG_NONCE_LEN / 4) (KBA_bytes s)
        (SESSION_KEY_LEN / 4))
      0 ONE_TIME_KEY_LEN)

/-- The buffer of `len` bytes that `process_msg_20` and `process_msg_21` decrypt from
`msg + off` under `recv_K` and the next nonce (three words of it). -/
def decrypted_AD (L : CryptoLib) (s : State) (msg : Bytes) (off len : Nat) : Bytes :=
  let nonce2 := nonce_incr (nonce_loop s.server_nonce_counter s.nonce_bigint)
  memcpy (zeros len) 0
    (slice
      (L.CHACHA20 (slice msg off len) len (slice nonce2.bits 0 SHORT_NONCE_LEN)
        (SHORT_NONCE_LEN / 4) (recv_K L s msg) (ONE_TIME_KEY_LEN / 4))
      0 len)

/-- Routine `process_msg_20(msg, msg_len)`: the state afterwards and the returned status, or
`none` when the descriptor loop has no defined behaviour. -/
def process_msg_20 (L : CryptoLib) (s : State) (msg : Bytes) (msg_len : Nat) :
    Option (State × Nat) :=
  let sz := L.sizeof_bigint
  let num_current_guests := u64_at msg (SMALL_FIELD_LEN + ONE_TIME_KEY_LEN)
  let guest_info_slot_siz := SMALL_FIELD_LEN + PUBKEY_LEN
  let recv_type20_AD_offset := 2 * SMALL_FIELD_LEN + ONE_TIME_KEY_LEN
  let recv_type20_AD_len_expected :=
    sub_u64 msg_len (2 * SMALL_FIELD_LEN + SIGNATURE_LEN sz + ONE_TIME_KEY_LEN)
  let recv_type20_AD_len := num_current_guests * guest_info_slot_siz % 2 ^ 64
  if recv_type20_AD_len ≠ recv_type20_AD_len_expected then some (s, 0)
  else
    let recv_type20_signed_len :=
      (2 * SMALL_FIELD_LEN + ONE_TIME_KEY_LEN + recv_type20_AD_len) % 2 ^ 64
    if authenticate_server L s msg recv_type20_signed_len recv_type20_signed_len ≠ 1 then
      some (s, 0)
    else
      let buf_decrypted_AD := decrypted_AD L s msg recv_type20_AD_offset recv_type20_AD_len
      let s1 := { s with
        nonce_bigint := nonce_incr (nonce_loop s.server_nonce_counter s.nonce_bigint)
        server_nonce_counter := (s.server_nonce_counter + 2) % 2 ^ 64
        roommates := List.replicate roommates_arr_siz roommate_zeroed
        roommate_slots_bitmask := 0
        num_roommates := num_current_guests
        next_free_roommate_slot := num_current_guests }
      (fill_guests L buf_decrypted_AD num_current_guests 0 s1).map fun s2 => (s2, 1)

/-- Routine `process_msg_21(msg)`: the state afterwards and the returned status. The
routine copies the two keys and the nonce through the pointers it finds in
`roommates[next_free_roommate_slot]` without allocating them. The result is `none` when the
C code has no defined behaviour: the slot index is past the table, or one of the three
pointers is null (the empty buffer), as it is in every slot zeroed by `memset`. -/
def process_msg_21 (L : CryptoLib) (s : State) (msg : Bytes) : Option (State × Nat) :=
  let new_guest_info_offset := ONE_TIME_KEY_LEN + SMALL_FIELD_LEN
  let new_guest_info_len := SMALL_FIELD_LEN + PUBKEY_LEN
  let signed_len := 2 * SMALL_FIELD_LEN + ONE_TIME_KEY_LEN + PUBKEY_LEN
  if authenticate_server L s msg signed_len signed_len ≠ 1 then some (s, 0)
  else
    let buf_decrypted_guest_info :=
      decrypted_AD L s msg new_guest_info_offset new_guest_info_len
    let guest_ix := s.next_free_roommate_slot
    let old := roommate_at s guest_ix
    if 63 < guest_ix ∨ roommates_arr_siz ≤ guest_ix then none
    else if old.guest_KBA = [] ∨ old.guest_KAB = [] ∨ old.guest_Nonce = [] then none
    else
      let g := guest_descriptor L s buf_decrypted_guest_info old.guest_KBA old.guest_KAB
        old.guest_Nonce
      some ({ s with
        nonce_bigint := nonce_incr (nonce_loop s.server_nonce_counter s.nonce_bigint)
        server_nonce_counter := (s.server_nonce_counter + 2) % 2 ^ 64
        roommate_slots_bitmask := s.roommate_slots_bitmask ||| BITMASK_BIT_AT guest_ix
        roommate_key_usage_bitmask := s.roommate_key_usage_bitmask ||| BITMASK_BIT_AT guest_ix
        roommates := s.roommates.set guest_ix g }, 1)

/-- The session key `construct_msg_30` (lines 1876-1882) and `process_msg_30` (lines
2169-2175) select for the roommate in slot `i`: `guest_KAB` when bit `i` of
`roommate_key_usage_bitmask` is set, `guest_KBA` otherwise; 32 bytes are read from it. -/
def chacha_key (s : State) (i : Nat) : Bytes :=
  if bit_set s.roommate_key_usage_bitmask i then
    slice (roommate_at s i).guest_KAB 0 SESSION_KEY_LEN
  else slice (roommate_at s i).guest_KBA 0 SESSION_KEY_LEN

end Client


namespace Client

/-- A join reply of 25264 bytes announcing `N = 64` guests (all other bytes 0). -/
def join_reply_64 : Bytes := memcpy (zeros 25264) 40 (le_bytes 8 64)

/-- A join reply of 568 bytes whose guest count field holds `2^61 + 1`. -/
def join_reply_wrap : Bytes := memcpy (zeros 568) 40 (le_bytes 8 (2 ^ 61 + 1))

/-- A join reply of 568 bytes announcing one guest: user id `A` (byte 65) with public key 5
(the associated data as the identity cipher of `sampleLib` leaves it). -/
def join_reply_one : Bytes :=
  memcpy (memcpy (memcpy (zeros 568) 40 (le_bytes 8 1)) 48 [65]) 56 [5]

end Client


/-- The library `sampleLib` with a modular exponentiation: `MONT_POW_modM(b, e, M)` leaves
`b ^ e mod M` in a 1600-byte buffer (the Montgomery map stays the identity). -/
def dhLib : CryptoLib :=
  { sampleLib with
    MONT_POW_modM := fun b e M =>
      { bits := le_bytes (MAX_BIGINT_SIZ / 8) (b.toNat ^ e.toNat % M.toNat),
        bits_size := MAX_BIGINT_SIZ, used_bits := 8, free_bits := MAX_BIGINT_SIZ - 8 } }

namespace Client

/-- A client `J` with private key 2 and public key `3 ^ 2 mod 7 = 2`, in no room. -/
def sampleJ : State := { sampleInit with own_privkey := small 2, own_pubkey := small 2 }

/-- A client `A` with private key 5 and public key `3 ^ 5 mod 7 = 5`, alone in its room:
every roommate slot is zeroed, `next_free_roommate_slot = 0`. -/
def sampleA : State := { sampleInit with own_privkey := small 5, own_pubkey := small 5 }

/-- The client `sampleA` with key and nonce buffers of 32, 32 and 16 bytes behind the three
pointers of slot 0. -/
def sampleA_allocated : State :=
  { sampleA with
    roommates := (List.replicate roommates_arr_siz roommate_zeroed).set 0
      { roommate_zeroed with
        guest_KBA := zeros 32, guest_KAB := zeros 32, guest_Nonce := zeros 16 } }

/-- A 560-byte join notification for the new guest `J` (byte 74) with public key 2 (the
guest information as the identity cipher leaves it). -/
def join_notification_J : Bytes := memcpy (memcpy (zeros 560) 40 [74]) 48 [2]

end Client


/-! ## Client: text messages between roommates -/

namespace Client

/-- The local `guest_nonce_bigint` that `construct_msg_30` and `process_msg_30` build from
the 16 bytes behind `guest_Nonce`, in a zeroed buffer of `MAX_BIGINT_SIZ / 8` bytes. -/
def guest_nonce_bigint (L : CryptoLib) (r : roommate) : bigint :=
  let bits := memcpy (zeros (MAX_BIGINT_SIZ / 8)) 0 (slice r.guest_Nonce 0 LONG_NONCE_LEN)
  let used := L.get_used_bits (slice bits 0 LONG_NONCE_LEN) LONG_NONCE_LEN
  { bits := bits, bits_size := MAX_BIGINT_SIZ, used_bits := used,
    free_bits := MAX_BIGINT_SIZ - used }

/-- The loop `for(j < guest_nonce_counter){ bigint_add_fast(&guest_nonce_bigint, &one,
&aux1); }` of `construct_msg_30`: every pass stores the sum in `aux1` and
`guest_nonce_bigint` is not assigned. The pair `(guest_nonce_bigint, aux1)` afterwards. -/
def add_only_loop : Nat → bigint → bigint → bigint × bigint
  | 0, n, aux1 => (n, aux1)
  | k + 1, n, aux1 =>
    add_only_loop k n (bigint_add_fast n (bigint_create MAX_BIGINT_SIZ 1) aux1)

/-- The nonce `construct_msg_30` hands to the cipher for the roommate `r`: the loop above,
then `bigint_add_fast(&guest_nonce_bigint, &one, &aux1); bigint_equate2(&guest_nonce_bigint,
&aux1);`. The buffer `aux1` is taken as `bigint_create` left it; every call overwrites it. -/
def msg_30_nonce (L : CryptoLib) (r : roommate) : bigint :=
  let p := add_only_loop r.guest_nonce_counter (guest_nonce_bigint L r)
    (bigint_create MAX_BIGINT_SIZ 0)
  bigint_equate2 p.1 (bigint_add_fast p.1 (bigint_create MAX_BIGINT_SIZ 1) p.2)

/-- The buffer behind the pointer `chacha_key` that `construct_msg_30` (lines 1876-1882) and
`process_msg_30` (lines 2169-2175) select for slot `i`; `[]` stands for a null pointer. -/
def key_buffer (s : State) (i : Nat) : Bytes :=
  if bit_set s.roommate_key_usage_bitmask i then (roommate_at s i).guest_KAB
  else (roommate_at s i).guest_KBA

/-- Slot `i` has a null `guest_Nonce` or a null selected key pointer: the reads
`memcpy(guest_nonce_bigint.bits, roommates[i].guest_Nonce, LONG_NONCE_LEN)` and
`CHACHA20(.., chacha_key, ..)` of `construct_msg_30` and `process_msg_30` then have no
defined behaviour. -/
def reads_null (s : State) (i : Nat) : Bool :=
  (roommate_at s i).guest_Nonce.isEmpty || (key_buffer s i).isEmpty

/-- One pass of the associated-data loop of `construct_msg_30` for slot `i`, on the pair
`(associated_data, AD_write_offset)`: the guest's user id, a gap of `ONE_TIME_KEY_LEN` bytes
that is skipped, and the text encrypted under the selected session key. The result is `none`
when the slot is marked occupied and the pass has no defined behaviour: it writes past the
end of the buffer `associated_data`, or it reads through a null pointer. -/
def AD_step (L : CryptoLib) (s : State) (text_msg : Bytes) (text_msg_len : Nat)
    (ad : Bytes × Nat) (i : Nat) : Option (Bytes × Nat) :=
  if bit_set s.roommate_slots_bitmask i then
    if ad.1.length < ad.2 + SMALL_FIELD_LEN then none
    else if reads_null s i then none
    else if 0 < text_msg_len
        ∧ ad.1.length < ad.2 + SMALL_FIELD_LEN + ONE_TIME_KEY_LEN + text_msg_len then none
    else
      let associated_data :=
        memcpy ad.1 ad.2 (slice (roommate_at s i).guest_user_id 0 SMALL_FIELD_LEN)
      let AD_write_offset := ad.2 + SMALL_FIELD_LEN + ONE_TIME_KEY_LEN
      let associated_data := memcpy associated_data AD_write_offset
        (slice
          (L.CHACHA20 (slice text_msg 0 text_msg_len) text_msg_len
            (slice (msg_30_nonce L (roommate_at s i)).bits 0 SHORT_NONCE_LEN)
            (SHORT_NONCE_LEN / 4) (chacha_key s i) (ONE_TIME_KEY_LEN / 4))
          0 text_msg_len)
      some (associated_data, AD_write_offset + text_msg_len)
  else some ad

/-- The number of slots among `0 .. i - 1` that `roommate_slots_bitmask` marks occupied. -/
def occupied_below (s : State) (i : Nat) : Nat :=
  ((List.range i).filter fun j => bit_set s.roommate_slots_bitmask j).length

/-- The loop `for(u64 i = 0; i <= MAX_CLIENTS - 2; ++i)` of `construct_msg_30` with `k`
passes left from slot `i`. -/
def AD_loop (L : CryptoLib) (s : State) (text_msg : Bytes) (text_msg_len : Nat) :
    Nat → Nat → Bytes × Nat → Option (Bytes × Nat)
  | 0, _, ad => some ad
  | k + 1, i, ad =>
    (AD_step L s text_msg text_msg_len ad i).bind fun ad1 =>
      AD_loop L s text_msg text_msg_len k (i + 1) ad1

/-- The local buffer `associated_data` of `construct_msg_30` after the loop over the slots
`0 .. MAX_CLIENTS - 2`, or `none` when a pass of the loop has no defined behaviour. -/
def associated_data (L : CryptoLib) (s : State) (text_msg : Bytes) (text_msg_len : Nat) :
    Option Bytes :=
  (AD_loop L s text_msg text_msg_len (MAX_CLIENTS - 1) 0
    (zeros (s.num_roommates * (SMALL_FIELD_LEN + ONE_TIME_KEY_LEN + text_msg_len) % 2 ^ 64),
      0)).map Prod.fst

/-- The packet `construct_msg_30` hands to `send`: packet id, `own_ix`, the text length, `L`
bytes that stay as `calloc` left them (the buffer `associated_data` is never copied into
`payload`), and the signature of the bytes before it. -/
def msg_30 (L : CryptoLib) (s : State) (text_msg_len : Nat) : Bytes :=
  let sz := L.sizeof_bigint
  let L_len := s.num_roommates * (SMALL_FIELD_LEN + ONE_TIME_KEY_LEN + text_msg_len) % 2 ^ 64
  let payload_len := (L_len + 3 * SMALL_FIELD_LEN + SIGNATURE_LEN sz) % 2 ^ 64
  let signed_len := sub_u64 payload_len (SIGNATURE_LEN sz)
  let payload := memcpy (zeros payload_len) 0 (le_bytes 8 PACKET_ID_30)
  let payload := memcpy payload SMALL_FIELD_LEN (le_bytes 8 s.own_ix)
  let payload := memcpy payload (2 * SMALL_FIELD_LEN) (le_bytes 8 text_msg_len)
  let payload := memcpy payload signed_len
    (L.Signature_GENERATE s.M s.Q s.Gm (slice payload 0 signed_len) signed_len
      s.own_privkey PRIVKEY_LEN)
  send_bytes payload payload_len

/-- Function `construct_msg_30(text_msg, text_msg_len)`: the state afterwards and the
returned status, or `none` when a pass of the loop over the slots has no defined behaviour
(a write past the `L` bytes of `associated_data`, or a read through a null pointer of a slot
marked occupied). `urandom` are the 32 bytes read from `/dev/urandom` (`none` when the
file cannot be opened or read) and `send_ret` is what `send` returns. The buffer
`associated_data` the loop fills is freed without having been copied into the packet; each
pass for an occupied slot increments the slot's counter twice. -/
def construct_msg_30 (L : CryptoLib) (s : State) (text_msg : Bytes) (text_msg_len : Nat)
    (urandom : Option Bytes) (send_ret : Int) : Option (State × Nat) :=
  if urandom = none then some (s, 0)
  else
    (associated_data L s text_msg text_msg_len).map fun _ =>
      let s1 := { s with
        roommates := (List.range roommates_arr_siz).map fun i =>
          if bit_set s.roommate_slots_bitmask i then
            { roommate_at s i with
              guest_nonce_counter := ((roommate_at s i).guest_nonce_counter + 2) % 2 ^ 64 }
          else roommate_at s i
        sent := s.sent ++ [msg_30 L s text_msg_len] }
      if send_ret = -1 then (s1, 0) else (s1, 1)

/-- The sender search of `process_msg_30`, `for(i = 0; i <= num_roommates - 2; ++i)`, with
`k` passes left from index `i`: the slot found (`some none` when the loop ends without a
match), or `none` when a pass has no defined behaviour in C (shift count of
`BITMASK_BIT_AT(i)` out of range, or a read of `roommates[i]` past the last entry). -/
def find_sender (s : State) (payload : Bytes) : Nat → Nat → Option (Option Nat)
  | 0, _ => some none
  | k + 1, i =>
    if 63 < i then none
    else if bit_set s.roommate_slots_bitmask i then
      if roommates_arr_siz ≤ i then none
      else if strncmp_eq (roommate_at s i).guest_user_id
          (slice payload SMALL_FIELD_LEN SMALL_FIELD_LEN) SMALL_FIELD_LEN 0 then some (some i)
      else find_sender s payload k (i + 1)
    else find_sender s payload k (i + 1)

/-- The search of `process_msg_30` for the slot of the associated data that carries
`own_user_id`, with `k` passes left from slot `i`. -/
def find_own_slot (s : State) (payload : Bytes) (AD_slot_len : Nat) : Nat → Nat → Option Nat
  | 0, _ => none
  | k + 1, i =>
    if strncmp_eq (slice payload (3 * SMALL_FIELD_LEN + i * AD_slot_len) SMALL_FIELD_LEN)
        s.own_user_id SMALL_FIELD_LEN 0 then some i
    else find_own_slot s payload AD_slot_len k (i + 1)

/-- The check of the sending client's signature in `process_msg_30`: the two halves are
rebuilt from `payload + sign1_offset` and the data pointer given to `Signature_VALIDATE` is
`payload + sign1_offset`, with length `sign1_offset`. (The two `bits` pointers the routine
stores inside that region are left as received.) -/
def sender_signature_status (L : CryptoLib) (s : State) (payload : Bytes)
    (sender_ix sign1_offset : Nat) : Nat :=
  let sz := L.sizeof_bigint
  let s_offset := sign1_offset
  let e_offset := sign1_offset + sz + PRIVKEY_LEN
  let recv_s : bigint :=
    { L.load_bigint (slice payload s_offset sz) with
      bits := memcpy (zeros MAX_BIGINT_SIZ) 0 (slice payload (sign1_offset + sz) PRIVKEY_LEN) }
  let recv_e : bigint :=
    { L.load_bigint (slice payload e_offset sz) with
      bits := memcpy (zeros MAX_BIGINT_SIZ) 0
        (slice payload (sign1_offset + 2 * sz + PRIVKEY_LEN) PRIVKEY_LEN) }
  L.Signature_VALIDATE s.Gm (roommate_at s sender_ix).guest_pubkey_mont s.M s.Q recv_s recv_e
    (slice payload sign1_offset sign1_offset) sign1_offset

/-- The last part of `process_msg_30`, once the sender slot and our slot of the associated
data are known: the one-time key and the text are decrypted and the sender's counter is
incremented twice. The result is the state, the status and `decrypted_msg`, or `none` when
the sender slot has a null `guest_Nonce` or a null selected key pointer, which the routine
reads through before the increments. -/
def msg_30_decrypt (L : CryptoLib) (s : State) (payload : Bytes)
    (sender_ix our_AD_slot : Nat) : Option (State × Nat × Bytes) :=
  let text_len := u64_at payload (2 * SMALL_FIELD_LEN)
  let AD_slot_len := SMALL_FIELD_LEN + ONE_TIME_KEY_LEN + text_len
  let r := roommate_at s sender_ix
  if reads_null s sender_ix then none
  else
    let nonce1 := nonce_loop r.guest_nonce_counter (guest_nonce_bigint L r)
    let our_K := 3 * SMALL_FIELD_LEN + our_AD_slot * AD_slot_len + SMALL_FIELD_LEN
    let our_msg := our_K + ONE_TIME_KEY_LEN
    let decrypted_key := memcpy (zeros ONE_TIME_KEY_LEN) 0
      (slice
        (L.CHACHA20 (slice payload our_K ONE_TIME_KEY_LEN) ONE_TIME_KEY_LEN
          (slice nonce1.bits 0 LONG_NONCE_LEN) (LONG_NONCE_LEN / 4) (chacha_key s sender_ix)
          (SESSION_KEY_LEN / 4))
        0 ONE_TIME_KEY_LEN)
    let nonce2 := nonce_incr nonce1
    let decrypted_msg := memcpy (zeros text_len) 0
      (slice
        (L.CHACHA20 (slice payload our_msg text_len) text_len
          (slice nonce2.bits 0 SHORT_NONCE_LEN) (SHORT_NONCE_LEN / 4) decrypted_key
          (ONE_TIME_KEY_LEN / 4))
        0 text_len)
    some ({ s with
        roommates := s.roommates.set sender_ix
          { r with guest_nonce_counter := (r.guest_nonce_counter + 2) % 2 ^ 64 } },
      1, decrypted_msg)

/-- The part of `process_msg_30` that follows the sender search, for the sender slot
`sender_ix`: the two signature checks, the search for our slot and the test
`our_AD_slot == MAX_CLIENTS + 1`, which takes a match in slot 65 for no match. -/
def msg_30_checks (L : CryptoLib) (s : State) (payload : Bytes) (sender_ix : Nat) :
    Option (State × Nat × Bytes) :=
  let sz := L.sizeof_bigint
  let text_len := u64_at payload (2 * SMALL_FIELD_LEN)
  let AD_slot_len := SMALL_FIELD_LEN + ONE_TIME_KEY_LEN + text_len
  let AD_len := s.num_roommates * AD_slot_len % 2 ^ 64
  let sign2_offset := (3 * SMALL_FIELD_LEN + SIGNATURE_LEN sz + AD_len) % 2 ^ 64
  let sign1_offset := sub_u64 sign2_offset (SIGNATURE_LEN sz)
  if authenticate_server L s payload sign2_offset sign2_offset ≠ 1 then some (s, 0, [])
  else if sender_signature_status L s payload sender_ix sign1_offset ≠ 1 then some (s, 0, [])
  else
    (find_own_slot s payload AD_slot_len s.num_roommates 0).elim (some (s, 0, []))
      fun our_AD_slot =>
        if our_AD_slot = MAX_CLIENTS + 1 then some (s, 0, [])
        else msg_30_decrypt L s payload sender_ix our_AD_slot

/-- Routine `process_msg_30(payload, ..)`: the state afterwards, the returned status and
the decrypted text (empty on the paths that return 0), or `none` when the sender search or
the decryption has no defined behaviour. The test `sender_ix == MAX_CLIENTS + 1` takes a
sender found in slot 65 for no sender. -/
def process_msg_30 (L : CryptoLib) (s : State) (payload : Bytes) :
    Option (State × Nat × Bytes) :=
  let text_len := u64_at payload (2 * SMALL_FIELD_LEN)
  if text_len < 1 ∨ MAX_TXT_LEN < text_len then some (s, 0, [])
  else
    (find_sender s payload (sub_u64 s.num_roommates 2 + 1) 0).bind fun sender =>
      sender.elim (some (s, 0, []))
        fun sender_ix =>
          if sender_ix = MAX_CLIENTS + 1 then some (s, 0, [])
          else msg_30_checks L s payload sender_ix

end Client


namespace Client

/-- A client with user id `A` and `own_ix = 65` in a room with one roommate in slot 0: user
id `B`, session key 22 selected, base nonce 7 and counter 0. -/
def sampleSender : State :=
  { sampleInit with
    own_ix := 65
    own_user_id := [65, 0, 0, 0, 0, 0, 0, 0]
    roommates := (List.replicate roommates_arr_siz roommate_zeroed).set 0
      { roommate_zeroed with
        guest_user_id := [66, 0, 0, 0, 0, 0, 0, 0], guest_KBA := le_bytes 32 11,
        guest_KAB := le_bytes 32 22, guest_Nonce := le_bytes 16 7, guest_nonce_counter := 0 }
    roommate_slots_bitmask := 2 ^ 63
    roommate_key_usage_bitmask := 2 ^ 63
    num_roommates := 1
    next_free_roommate_slot := 1 }

/-- The roommate of `sampleSender`: user id `B`, the sender in slot 0 under user id `A`, the
same session key 22 selected, base nonce 7 and counter 0. -/
def sampleReceiver : State :=
  { sampleInit with
    own_ix := 66
    own_user_id := [66, 0, 0, 0, 0, 0, 0, 0]
    roommates := (List.replicate roommates_arr_siz roommate_zeroed).set 0
      { roommate_zeroed with
        guest_user_id := [65, 0, 0, 0, 0, 0, 0, 0], guest_KBA := le_bytes 32 22,
        guest_KAB := le_bytes 32 11, guest_Nonce := le_bytes 16 7, guest_nonce_counter := 0 }
    roommate_slots_bitmask := 2 ^ 63
    roommate_key_usage_bitmask := 0
    num_roommates := 1
    next_free_roommate_slot := 1 }

/-- The packet `sampleSender` sends for a two-byte text, followed by a server signature of
128 zero bytes. -/
def forwarded_30 : Bytes := msg_30 sampleLib sampleSender 2 ++ zeros 128

/-- A MAGIC_30 packet of 322 bytes for `sampleInRoom`: sender id `B`, text length 2, one
slot of associated data with an empty user id, and the text `hi` at offset 64. -/
def sample_30 : Bytes :=
  memcpy (memcpy (memcpy (memcpy (zeros 322) 0 (le_bytes 8 PACKET_ID_30)) 8 [66]) 16 [2])
    64 [104, 105]

end Client


/-- The library `sampleLib` with a signature check that accepts exactly the data whose first
byte is 0x1C, the low byte of `PACKET_ID_30`. -/
def magicLib : CryptoLib :=
  { sampleLib with
    Signature_VALIDATE := fun _ _ _ _ _ _ data _ => if rd data 0 = 28 then 1 else 0 }

/-! ## Client: registration and the save file -/

namespace Client

def PASSWORD_BUF_SIZ : Nat := 16
def ARGON_STRING_LEN : Nat := 8
def ARGON_HASH_LEN : Nat := 64

/-- The files of the client by path: `none` for a path that cannot be opened for reading. -/
def FileSystem : Type := String → Option Bytes

/-- The file system after `fopen(path, "w")`, one `fwrite` of `data` and `fclose`. -/
def write_file (fs : FileSystem) (path : String) (data : Bytes) : FileSystem :=
  fun p => if p = path then some data else fs p

/-- The file system after `rm path`. -/
def remove_file (fs : FileSystem) (path : String) : FileSystem :=
  fun p => if p = path then none else fs p

/-- A call `fread(buf, 1, n, file)` at read position `pos`: the `n` bytes read, or `none`
when fewer than `n` bytes are left in the file. -/
def fread (file : Bytes) (pos n : Nat) : Option Bytes :=
  if pos + n ≤ file.length then some (slice file pos n) else none

/-- The 16-byte password buffer after the zero-extension both `reg` and `self_init` apply
(`password_len` at most 15; the byte at `password_len` is left to the caller). -/
def zero_extend_password (password : Bytes) (password_len : Nat) : Bytes :=
  if password_len ≠ PASSWORD_BUF_SIZ - 1 then
    memcpy (slice password 0 PASSWORD_BUF_SIZ) (password_len + 1)
      (zeros (PASSWORD_BUF_SIZ - (password_len + 1)))
  else slice password 0 PASSWORD_BUF_SIZ

/-- The key `V` as `reg` (lines 2702-2762) and `self_init` (lines 250-296) derive it: the
leftmost 32 bytes of the Argon2 tag of the zero-extended password under
`Salt = string ‖ BLAKE2B{64}(public key)`. The parameter `argon2 P S` stands for the call
`Argon2_MAIN` (absent from the sources) with the fixed parameters both routines set. -/
def derive_V (L : CryptoLib) (argon2 : Bytes → Bytes → Bytes) (password : Bytes)
    (password_len : Nat) (salt_string pubkey : Bytes) : Bytes :=
  let b2b_pubkey_output := slice (L.BLAKE2B_INIT (slice pubkey 0 PUBKEY_LEN) PUBKEY_LEN 0 64) 0 64
  let Salt := memcpy
    (memcpy (zeros (ARGON_STRING_LEN + 64)) 0 (slice salt_string 0 ARGON_STRING_LEN))
    ARGON_STRING_LEN b2b_pubkey_output
  let argon2_output_tag :=
    slice (argon2 (zero_extend_password password password_len) Salt) 0 ARGON_HASH_LEN
  slice argon2_output_tag 0 32

/-- The buffer `user_save_buf` that `reg` writes: nonce, encrypted private key, public key,
salt string. -/
def user_save_buf (chacha_nonce_buf encrypted_privkey_buf pubkey_bits argon2_salt_string :
    Bytes) : Bytes :=
  let buf := zeros (8 + PUBKEY_LEN + PRIVKEY_LEN + LONG_NONCE_LEN)
  let buf := memcpy buf 0 (slice chacha_nonce_buf 0 LONG_NONCE_LEN)
  let buf := memcpy buf LONG_NONCE_LEN (slice encrypted_privkey_buf 0 PRIVKEY_LEN)
  let buf := memcpy buf (LONG_NONCE_LEN + PRIVKEY_LEN) (slice pubkey_bits 0 PUBKEY_LEN)
  memcpy buf (LONG_NONCE_LEN + PRIVKEY_LEN + PUBKEY_LEN) (slice argon2_salt_string 0 8)

/-- Function `reg(password, password_len)`: the file system afterwards and the returned
status. `rnd` are the bytes `gen_priv_key` draws, `salt_rnd` and `nonce_rnd` the two reads
from `/dev/urandom` (`none` when the open or the read fails) and `open_ok` tells whether
`fopen("../bin/user_save.dat", "w")` succeeds. The file `temp_privkey_DAT` is written and
removed on every path. -/
def reg (L : CryptoLib) (argon2 : Bytes → Bytes → Bytes) (fs : FileSystem) (password : Bytes)
    (password_len : Nat) (rnd : Bytes) (salt_rnd nonce_rnd : Option Bytes) (open_ok : Bool) :
    FileSystem × Nat :=
  let privkey_buf := slice rnd 0 PRIVKEY_LEN
  let used := L.get_used_bits privkey_buf PRIVKEY_LEN
  let temp_privkey : bigint :=
    { bits := memcpy (zeros MAX_BIGINT_SIZ) 0 privkey_buf, bits_size := MAX_BIGINT_SIZ,
      used_bits := used, free_bits := MAX_BIGINT_SIZ - used }
  let A_longterm := L.gen_pub_key PRIVKEY_LEN temp_privkey MAX_BIGINT_SIZ
  match salt_rnd with
  | none => (remove_file fs "temp_privkey_DAT", 0)
  | some argon2_salt_string =>
    let V := derive_V L argon2 password password_len argon2_salt_string A_longterm.bits
    match nonce_rnd with
    | none => (remove_file fs "temp_privkey_DAT", 0)
    | some chacha_nonce_buf =>
      let encrypted_privkey_buf :=
        slice
          (L.CHACHA20 (slice temp_privkey.bits 0 PRIVKEY_LEN) PRIVKEY_LEN
            (slice chacha_nonce_buf 0 LONG_NONCE_LEN) (LONG_NONCE_LEN / 4) V (32 / 4))
          0 PRIVKEY_LEN
      if open_ok = false then (remove_file fs "temp_privkey_DAT", 0)
      else
        (remove_file
          (write_file fs "../bin/user_save.dat"
            (user_save_buf chacha_nonce_buf encrypted_privkey_buf A_longterm.bits
              argon2_salt_string))
          "temp_privkey_DAT", 1)

/-- The first part of `self_init(password, password_len)`, up to the initialisation of
`own_privkey` and `own_pubkey`: the pair `(own_privkey, own_pubkey)`, or `none` on the paths
that end with `status = 0` (the save file cannot be opened, or a read comes short). -/
def self_init_own_keys (L : CryptoLib) (argon2 : Bytes → Bytes → Bytes) (fs : FileSystem)
    (password : Bytes) (password_len : Nat) : Option (bigint × bigint) :=
  (fs "../bin/saved.dat").bind fun savefile =>
  (fread savefile 0 LONG_NONCE_LEN).bind fun saved_nonce =>
  (fread savefile LONG_NONCE_LEN PRIVKEY_LEN).bind fun saved_privkey =>
  (fread savefile (LONG_NONCE_LEN + PRIVKEY_LEN) PUBKEY_LEN).bind fun saved_pubkey =>
  (fread savefile (LONG_NONCE_LEN + PRIVKEY_LEN + PUBKEY_LEN) ARGON_STRING_LEN).bind
    fun saved_string =>
      let V := derive_V L argon2 password password_len saved_string saved_pubkey
      let decrypted_privkey_buf :=
        slice (L.CHACHA20 saved_privkey PRIVKEY_LEN saved_nonce (LONG_NONCE_LEN / 4) V (32 / 4))
          0 PRIVKEY_LEN
      let used_priv := L.get_used_bits decrypted_privkey_buf PRIVKEY_LEN
      let own_privkey : bigint :=
        { bigint_create MAX_BIGINT_SIZ 0 with
          bits := memcpy (bigint_create MAX_BIGINT_SIZ 0).bits 0 decrypted_privkey_buf
          used_bits := used_priv, free_bits := MAX_BIGINT_SIZ - used_priv }
      let used_pub := L.get_used_bits saved_pubkey PUBKEY_LEN
      let own_pubkey : bigint :=
        { bigint_create MAX_BIGINT_SIZ 0 with
          bits := memcpy (bigint_create MAX_BIGINT_SIZ 0).bits 0 saved_pubkey
          used_bits := used_pub, free_bits := MAX_BIGINT_SIZ - used_pub }
      some (own_privkey, own_pubkey)

/-- A file system with no file. -/
def no_files : FileSystem := fun _ => none

end Client

set_option maxRecDepth 100000

/-! ## Basic facts about buffers -/

theorem length_zeros (n : Nat) : (zeros n).length = n := by simp [zeros]

theorem length_slice (buf : Bytes) (off n : Nat) : (slice buf off n).length = n := by
  simp [slice]

theorem length_memcpy (dst : Bytes) (off : Nat) (src : Bytes) :
    (memcpy dst off src).length = dst.length := by
  simp [memcpy]

theorem length_le_bytes (n v : Nat) : (le_bytes n v).length = n := by simp [le_bytes]

theorem rd_of_length_le {buf : Bytes} {i : Nat} (h : buf.length ≤ i) : rd buf i = 0 := by
  simp [rd, List.getElem?_eq_none h]

theorem rd_map_range (f : Nat → Nat) (n i : Nat) :
    rd ((List.range n).map f) i = if i < n then f i else 0 := by
  unfold rd
  by_cases h : i < n
  · simp [h, List.getElem?_range h]
  · simp [h, List.getElem?_eq_none (show ((List.range n).map f).length ≤ i by simp; omega)]

theorem rd_zeros (n i : Nat) : rd (zeros n) i = 0 := by
  unfold rd zeros
  by_cases h : i < n
  · simp [h]
  · simp [List.getElem?_eq_none (show (List.replicate n 0).length ≤ i by simp; omega)]

theorem rd_slice (buf : Bytes) (off n i : Nat) :
    rd (slice buf off n) i = if i < n then rd buf (off + i) else 0 := by
  simp [slice, rd_map_range]

theorem rd_memcpy (dst : Bytes) (off : Nat) (src : Bytes) (i : Nat) :
    rd (memcpy dst off src) i =
      if i < dst.length then
        if off ≤ i ∧ i < off + src.length then rd src (i - off) else rd dst i
      else 0 := by
  simp [memcpy, rd_map_range]

theorem rd_le_bytes (n v i : Nat) :
    rd (le_bytes n v) i = if i < n then v / 256 ^ i % 256 else 0 := by
  simp [le_bytes, rd_map_range]

theorem bytes_ext {a b : Bytes} (hl : a.length = b.length)
    (h : ∀ i, i < a.length → rd a i = rd b i) : a = b := by
  apply List.ext_getElem hl
  intro i h1 h2
  have := h i h1
  simpa [rd, List.getElem?_eq_getElem h1, List.getElem?_eq_getElem h2] using this

theorem le_toNat_zero_of_rd (bs : Bytes) (h : ∀ i, rd bs i = 0) : le_toNat bs = 0 := by
  induction bs with
  | nil => rfl
  | cons b t ih =>
    have h0 : b = 0 := by simpa [rd] using h 0
    have ht : ∀ i, rd t i = 0 := fun i => by simpa [rd] using h (i + 1)
    simp [le_toNat, h0, ih ht]

theorem le_toNat_of_rd (bs : Bytes) (v : Nat) (h0 : rd bs 0 = v)
    (h : ∀ i, 0 < i → rd bs i = 0) : le_toNat bs = v := by
  cases bs with
  | nil => simpa [rd, le_toNat] using h0
  | cons b t =>
    have hb : b = v := by simpa [rd] using h0
    have ht : ∀ i, rd t i = 0 := fun i => by simpa [rd] using h (i + 1) (Nat.succ_pos i)
    simp [le_toNat, hb, le_toNat_zero_of_rd t ht]

/-! ## Bit masks -/

theorem and_two_pow_eq_zero_iff (m k : Nat) : m &&& 2 ^ k = 0 ↔ m.testBit k = false := by
  constructor
  · intro h
    have := congrArg (fun x => x.testBit k) h
    simpa [Nat.testBit_two_pow_self] using this
  · intro h
    apply Nat.eq_of_testBit_eq
    intro j
    simp only [Nat.testBit_and, Nat.zero_testBit, Nat.testBit_two_pow]
    by_cases hj : k = j
    · subst hj; simp [h]
    · simp [hj]

namespace Server

/-! ### The leftmost-empty rule of the client registry (C1) -/

theorem occupied_eq_testBit (mask i : Nat) : occupied mask i = mask.testBit (63 - i) := by
  unfold occupied BITMASK_BIT_AT
  rw [Nat.one_shiftLeft]
  cases hb : mask.testBit (63 - i)
  · simp [(and_two_pow_eq_zero_iff mask (63 - i)).2 hb]
  · have : mask &&& 2 ^ (63 - i) ≠ 0 := fun h => by
      rw [and_two_pow_eq_zero_iff] at h; simp [hb] at h
    simp [this]

theorem occupied_or (mask ix i : Nat) (hix : ix ≤ 63) (hi : i ≤ 63) :
    occupied (mask ||| BITMASK_BIT_AT ix) i = (occupied mask i || decide (i = ix)) := by
  rw [occupied_eq_testBit, occupied_eq_testBit]
  unfold BITMASK_BIT_AT
  rw [Nat.one_shiftLeft, Nat.testBit_or, Nat.testBit_two_pow]
  congr 1
  apply decide_eq_decide.2
  omega

theorem scan_free_spec (mask : Nat) :
    ∀ fuel n, n ≤ MAX_CLIENTS → MAX_CLIENTS - n ≤ fuel →
      n ≤ scan_free mask fuel n ∧ scan_free mask fuel n ≤ MAX_CLIENTS ∧
      (∀ i, n ≤ i → i < scan_free mask fuel n → occupied mask i = true) ∧
      (scan_free mask fuel n < MAX_CLIENTS → occupied mask (scan_free mask fuel n) = false) := by
  intro fuel
  induction fuel with
  | zero =>
    intro n hn hf
    have hr : scan_free mask 0 n = n := rfl
    rw [hr]
    exact ⟨le_refl _, hn, fun i h1 h2 => absurd h2 (by omega), fun h => absurd h (by omega)⟩
  | succ fuel ih =>
    intro n hn hf
    by_cases hlt : n < MAX_CLIENTS
    · cases hocc : occupied mask n
      · have hr : scan_free mask (fuel + 1) n = n := by simp [scan_free, hlt, hocc]
        rw [hr]
        exact ⟨le_refl _, hn, fun i h1 h2 => absurd h2 (by omega), fun _ => hocc⟩
      · have hrec := ih (n + 1) (by omega) (by omega)
        have hr : scan_free mask (fuel + 1) n = scan_free mask fuel (n + 1) := by
          simp [scan_free, hlt, hocc]
        rw [hr]
        refine ⟨by omega, hrec.2.1, fun i h1 h2 => ?_, hrec.2.2.2⟩
        by_cases hin : i = n
        · subst hin; exact hocc
        · exact hrec.2.2.1 i (by omega) h2
    · have hr : scan_free mask (fuel + 1) n = n := by simp [scan_free, hlt]
      rw [hr]
      exact ⟨le_refl _, hn, fun i h1 h2 => absurd h2 (by omega), fun h => absurd h (by omega)⟩

theorem allocate_leftmostEmpty (s : State) (pubkey : Bytes)
    (h : LeftmostEmpty s.clients_status_bitmask s.next_free_user_ix)
    (hfull : s.next_free_user_ix ≠ MAX_CLIENTS) :
    LeftmostEmpty (allocate s pubkey).clients_status_bitmask
      (allocate s pubkey).next_free_user_ix := by
  obtain ⟨hle, hleft, _⟩ := h
  have h64 : MAX_CLIENTS = 64 := rfl
  have hlt : s.next_free_user_ix < MAX_CLIENTS := by omega
  have h63 : s.next_free_user_ix ≤ 63 := by omega
  have hspec := scan_free_spec (s.clients_status_bitmask ||| BITMASK_BIT_AT s.next_free_user_ix)
    MAX_CLIENTS (s.next_free_user_ix + 1) (by omega) (by omega)
  simp only [allocate]
  refine ⟨hspec.2.1, fun i hi => ?_, hspec.2.2.2⟩
  by_cases hcase : i < s.next_free_user_ix
  · rw [occupied_or _ _ _ h63 (by omega), hleft i hcase]; rfl
  · by_cases heq : i = s.next_free_user_ix
    · rw [occupied_or _ _ _ h63 (by omega)]; simp [heq]
    · exact hspec.2.2.1 i (by omega) hi

theorem process_msg_00_registry (L : CryptoLib) (s : State) (msg_buf rnd : Bytes)
    (send_ret : Int) :
    (process_msg_00 L s msg_buf rnd send_ret).clients_status_bitmask = s.clients_status_bitmask
    ∧ (process_msg_00 L s msg_buf rnd send_ret).next_free_user_ix = s.next_free_user_ix
    ∧ (process_msg_00 L s msg_buf rnd send_ret).clients = s.clients := by
  by_cases h : rejects_A_s L s msg_buf = true
  · simp [process_msg_00, h]
  · simp [process_msg_00, h]

/-- What `process_msg_01` does to the registry: nothing when the authenticator differs, the
registry is full or the key is registered, and the bookkeeping block otherwise. -/
theorem process_msg_01_registry (L : CryptoLib) (s : State) (msg_buf after_ix : Bytes)
    (send_ret : Int) :
    let t := process_msg_01 L s msg_buf after_ix send_ret
    let a := allocate s (client_pubkey_buf L s.temp_handshake_buf msg_buf)
    (t.clients_status_bitmask, t.next_free_user_ix, t.clients) =
      if hmac_mismatch L s.temp_handshake_buf msg_buf = true
          ∨ s.next_free_user_ix = MAX_CLIENTS
          ∨ check_pubkey_exists s (client_pubkey_buf L s.temp_handshake_buf msg_buf)
              PUBKEY_LEN > 0
      then (s.clients_status_bitmask, s.next_free_user_ix, s.clients)
      else (a.clients_status_bitmask, a.next_free_user_ix, a.clients) := by
  intro t a
  show ((process_msg_01 L s msg_buf after_ix send_ret).clients_status_bitmask,
    (process_msg_01 L s msg_buf after_ix send_ret).next_free_user_ix,
    (process_msg_01 L s msg_buf after_ix send_ret).clients) = _
  by_cases h1 : hmac_mismatch L s.temp_handshake_buf msg_buf = true
  · simp [process_msg_01, h1, cleanup_01]
  · by_cases h2 : s.next_free_user_ix = MAX_CLIENTS
    · simp [process_msg_01, h1, h2, cleanup_01]
    · by_cases h3 : check_pubkey_exists s (client_pubkey_buf L s.temp_handshake_buf msg_buf)
          PUBKEY_LEN > 0
      · simp [process_msg_01, h1, h2, h3, cleanup_01]
      · have hc : ¬ (hmac_mismatch L s.temp_handshake_buf msg_buf = true
            ∨ s.next_free_user_ix = MAX_CLIENTS
            ∨ check_pubkey_exists s (client_pubkey_buf L s.temp_handshake_buf msg_buf)
                PUBKEY_LEN > 0) := by
          rintro (h | h | h)
          · exact h1 h
          · exact h2 h
          · exact h3 h
        rw [if_neg hc]
        by_cases h4 : send_ret = -1
        · simp [process_msg_01, h1, h2, h3, h4, cleanup_01, a]
        · simp [process_msg_01, h1, h2, h3, h4, cleanup_01, a]

theorem reachable_leftmostEmpty (L : CryptoLib) (M Q Gm priv : bigint) (s : State)
    (h : Reachable L M Q Gm priv s) :
    LeftmostEmpty s.clients_status_bitmask s.next_free_user_ix := by
  induction h with
  | start =>
    refine ⟨Nat.zero_le _, fun i hi => absurd hi (Nat.not_lt_zero i), fun _ => ?_⟩
    rw [occupied_eq_testBit]
    exact Nat.zero_testBit _
  | msg_00 s msg_buf rnd send_ret _ ih =>
    obtain ⟨h1, h2, _⟩ := process_msg_00_registry L s msg_buf rnd send_ret
    rw [h1, h2]; exact ih
  | msg_01 s msg_buf after_ix send_ret _ ih =>
    have hreg := process_msg_01_registry L s msg_buf after_ix send_ret
    simp only at hreg
    split at hreg
    · have e1 := congrArg Prod.fst hreg
      have e2 := congrArg (fun p => p.2.1) hreg
      simp only at e1 e2
      rw [e1, e2]; exact ih
    · rename_i hc
      have e1 := congrArg Prod.fst hreg
      have e2 := congrArg (fun p => p.2.1) hreg
      simp only at e1 e2
      rw [e1, e2]
      exact allocate_leftmostEmpty s _ ih (fun hf => hc (Or.inr (Or.inl hf)))

/-- C1. In every server state reachable from the state after `self_init` by calls of the
login handlers, `next_free_user_ix` is the smallest index whose occupancy bit (bit `63 - i`
of `clients_status_bitmask`) is clear: it is at most `MAX_CLIENTS`, every smaller index has
its bit set, and unless it equals `MAX_CLIENTS` its own bit is clear. -/
theorem next_free_user_ix_leftmost_empty (L : CryptoLib) (M Q Gm priv : bigint) (s : State)
    (h : Reachable L M Q Gm priv s) :
    s.next_free_user_ix ≤ MAX_CLIENTS
    ∧ (∀ i, i < s.next_free_user_ix → s.clients_status_bitmask.testBit (63 - i) = true)
    ∧ (s.next_free_user_ix < MAX_CLIENTS →
        s.clients_status_bitmask.testBit (63 - s.next_free_user_ix) = false) := by
  obtain ⟨h1, h2, h3⟩ := reachable_leftmostEmpty L M Q Gm priv s h
  refine ⟨h1, fun i hi => ?_, fun hlt => ?_⟩
  · rw [← occupied_eq_testBit]; exact h2 i hi
  · rw [← occupied_eq_testBit]; exact h3 hlt

/-- Instance of C1 at `sampleOne`, the state reached by one `process_msg_01` call. -/
theorem next_free_user_ix_leftmost_empty_witness :
    Reachable sampleLib (small 7) (small 3) (small 2) (small 5) sampleOne
    ∧ sampleOne.next_free_user_ix ≤ MAX_CLIENTS
    ∧ (∀ i, i < sampleOne.next_free_user_ix →
        sampleOne.clients_status_bitmask.testBit (63 - i) = true)
    ∧ (sampleOne.next_free_user_ix < MAX_CLIENTS →
        sampleOne.clients_status_bitmask.testBit (63 - sampleOne.next_free_user_ix)
          = false) :=
  ⟨Reachable.msg_01 _ _ _ _ Reachable.start,
    next_free_user_ix_leftmost_empty sampleLib (small 7) (small 3) (small 2) (small 5) _
      (Reachable.msg_01 _ _ _ _ Reachable.start)⟩

/-! ### Login on a full registry (C2) -/

theorem rd_take (buf : Bytes) (n i : Nat) :
    rd (buf.take n) i = if i < n then rd buf i else 0 := by
  unfold rd
  by_cases h : i < n
  · simp [h, List.getElem?_take_of_lt h]
  · simp [h, List.getElem?_eq_none (show (buf.take n).length ≤ i by simp; omega)]

theorem slice_eq_le_bytes (buf : Bytes) (off v : Nat)
    (h : ∀ i, i < 8 → rd buf (off + i) = v / 256 ^ i % 256) :
    slice buf off 8 = le_bytes 8 v := by
  unfold slice le_bytes
  apply List.map_congr_left
  intro i hi
  exact h i (List.mem_range.1 hi)

theorem length_reply_full (L : CryptoLib) (s : State) :
    (reply_full L s).length = 16 + SIGNATURE_LEN L.sizeof_bigint := by
  simp [reply_full, send_bytes, length_memcpy, length_zeros]

theorem rd_reply_full_magic (L : CryptoLib) (s : State) (i : Nat) (hi : i < 8) :
    rd (reply_full L s) i = MAGIC_02 / 256 ^ i % 256 := by
  have h1 : i < 2 * 8 + SIGNATURE_LEN L.sizeof_bigint := by omega
  have h2 : ¬ (16 ≤ i) := by omega
  have h3 : ¬ (8 ≤ i) := by omega
  simp [reply_full, send_bytes, rd_take, rd_memcpy, length_memcpy, length_zeros,
    length_le_bytes, rd_le_bytes, h1, h2, h3, hi]

theorem rd_reply_full_len (L : CryptoLib) (s : State) (i : Nat) (hi : i < 8) :
    rd (reply_full L s) (8 + i) = SIGNATURE_LEN L.sizeof_bigint / 256 ^ i % 256 := by
  have h1 : 8 + i < 2 * 8 + SIGNATURE_LEN L.sizeof_bigint := by omega
  have h2 : ¬ (16 ≤ 8 + i) := by omega
  simp [reply_full, send_bytes, rd_take, rd_memcpy, length_memcpy, length_zeros,
    length_le_bytes, rd_le_bytes, h1, h2, hi]

/-- C2. When the authenticator matches and `next_free_user_ix == MAX_CLIENTS`,
`process_msg_01` sends exactly one reply (whether or not the decrypted key is registered):
it has `16 + SIGNATURE_LEN` bytes, the first 8 are MAGIC_02, the next 8 are `SIGNATURE_LEN`;
`clients_status_bitmask`, `next_free_user_ix` and every `clients[]` slot are unchanged. -/
theorem process_msg_01_registry_full (L : CryptoLib) (s : State) (msg_buf after_ix : Bytes)
    (send_ret : Int)
    (hmac : hmac_mismatch L s.temp_handshake_buf msg_buf = false)
    (hfull : s.next_free_user_ix = MAX_CLIENTS) :
    (process_msg_01 L s msg_buf after_ix send_ret).sent = s.sent ++ [reply_full L s]
    ∧ (reply_full L s).length = 16 + SIGNATURE_LEN L.sizeof_bigint
    ∧ slice (reply_full L s) 0 8 = le_bytes 8 MAGIC_02
    ∧ slice (reply_full L s) 8 8 = le_bytes 8 (SIGNATURE_LEN L.sizeof_bigint)
    ∧ (process_msg_01 L s msg_buf after_ix send_ret).clients_status_bitmask
        = s.clients_status_bitmask
    ∧ (process_msg_01 L s msg_buf after_ix send_ret).next_free_user_ix = s.next_free_user_ix
    ∧ (process_msg_01 L s msg_buf after_ix send_ret).clients = s.clients := by
  refine ⟨?_, length_reply_full L s, ?_, ?_, ?_, ?_, ?_⟩
  · simp [process_msg_01, hmac, hfull, cleanup_01]
  · exact slice_eq_le_bytes _ _ _ (fun i hi => by
      rw [Nat.zero_add]; exact rd_reply_full_magic L s i hi)
  · exact slice_eq_le_bytes _ _ _ (fun i hi => rd_reply_full_len L s i hi)
  · simp [process_msg_01, hmac, hfull, cleanup_01]
  · simp [process_msg_01, hmac, hfull, cleanup_01]
  · simp [process_msg_01, hmac, hfull, cleanup_01]

/-- Instance of C2: a login on the fully occupied registry `sampleFull`. -/
theorem process_msg_01_registry_full_witness :
    hmac_mismatch sampleLib sampleFull.temp_handshake_buf (packet_01 1) = false
    ∧ sampleFull.next_free_user_ix = MAX_CLIENTS
    ∧ (process_msg_01 sampleLib sampleFull (packet_01 1) [] 0).sent
        = sampleFull.sent ++ [reply_full sampleLib sampleFull]
    ∧ (reply_full sampleLib sampleFull).length = 16 + SIGNATURE_LEN sampleLib.sizeof_bigint
    ∧ slice (reply_full sampleLib sampleFull) 0 8 = le_bytes 8 MAGIC_02
    ∧ slice (reply_full sampleLib sampleFull) 8 8
        = le_bytes 8 (SIGNATURE_LEN sampleLib.sizeof_bigint)
    ∧ (process_msg_01 sampleLib sampleFull (packet_01 1) [] 0).clients_status_bitmask
        = sampleFull.clients_status_bitmask
    ∧ (process_msg_01 sampleLib sampleFull (packet_01 1) [] 0).next_free_user_ix
        = sampleFull.next_free_user_ix
    ∧ (process_msg_01 sampleLib sampleFull (packet_01 1) [] 0).clients = sampleFull.clients :=
  ⟨by decide, rfl,
    process_msg_01_registry_full sampleLib sampleFull (packet_01 1) [] 0 (by decide) rfl⟩

/-! ### Login with a registered key (C3) -/

theorem check_pubkey_exists_pos (s : State) (key : Bytes)
    (hdup : ∃ i, i < MAX_CLIENTS ∧ s.clients_status_bitmask.testBit (63 - i) = true
      ∧ (client_at s i).pubkey_siz_bytes = PUBKEY_LEN
      ∧ slice (client_at s i).client_pubkey 0 PUBKEY_LEN = slice key 0 PUBKEY_LEN) :
    check_pubkey_exists s key PUBKEY_LEN > 0 := by
  obtain ⟨i, hi, hbit, hsiz, hkey⟩ := hdup
  have hany : ((List.range MAX_CLIENTS).any fun i =>
      occupied s.clients_status_bitmask i
      && ((client_at s i).pubkey_siz_bytes == PUBKEY_LEN)
      && (slice key 0 PUBKEY_LEN == slice (client_at s i).client_pubkey 0 PUBKEY_LEN))
      = true := by
    rw [List.any_eq_true]
    refine ⟨i, List.mem_range.2 hi, ?_⟩
    rw [occupied_eq_testBit, hbit, hsiz, hkey]
    simp
  have h300 : ¬ (PUBKEY_LEN < 300) := by decide
  unfold check_pubkey_exists
  rw [if_neg h300, if_pos hany]
  exact Nat.one_pos

/-- C3, as the code has it. When `next_free_user_ix != MAX_CLIENTS` and the decrypted
long-term public key equals, over its `PUBKEY_LEN` bytes, the key stored in some occupied
client slot, `process_msg_01` sends no reply and leaves `clients_status_bitmask`,
`next_free_user_ix` and `clients[]` unchanged. -/
theorem process_msg_01_duplicate_dropped (L : CryptoLib) (s : State)
    (msg_buf after_ix : Bytes) (send_ret : Int)
    (hnotfull : s.next_free_user_ix ≠ MAX_CLIENTS)
    (hdup : ∃ i, i < MAX_CLIENTS ∧ s.clients_status_bitmask.testBit (63 - i) = true
      ∧ (client_at s i).pubkey_siz_bytes = PUBKEY_LEN
      ∧ slice (client_at s i).client_pubkey 0 PUBKEY_LEN
          = slice (client_pubkey_buf L s.temp_handshake_buf msg_buf) 0 PUBKEY_LEN) :
    (process_msg_01 L s msg_buf after_ix send_ret).sent = s.sent
    ∧ (process_msg_01 L s msg_buf after_ix send_ret).clients_status_bitmask
        = s.clients_status_bitmask
    ∧ (process_msg_01 L s msg_buf after_ix send_ret).next_free_user_ix = s.next_free_user_ix
    ∧ (process_msg_01 L s msg_buf after_ix send_ret).clients = s.clients := by
  have hpos := check_pubkey_exists_pos s _ hdup
  by_cases hm : hmac_mismatch L s.temp_handshake_buf msg_buf = true
  · simp [process_msg_01, hm, cleanup_01]
  · simp [process_msg_01, hm, hnotfull, hpos, cleanup_01]

theorem slice_eq_of_rd (a b : Bytes) (n : Nat) (h : ∀ i, i < n → rd a i = rd b i) :
    slice a 0 n = slice b 0 n := by
  unfold slice
  apply List.map_congr_left
  intro i hi
  rw [Nat.zero_add]
  exact h i (List.mem_range.1 hi)

theorem rd_packet_01 (a i : Nat) (hi : 16 ≤ i) :
    rd (packet_01 a) i = if i = 16 then a else 0 := by
  by_cases h16 : i = 16
  · subst h16
    simp [packet_01, rd_memcpy, length_zeros]
    rfl
  · have h : ¬ (i < 17) := by omega
    simp [packet_01, rd_memcpy, rd_zeros, h, h16]

theorem rd_sample_key (buf : Bytes) (a i : Nat) :
    rd (client_pubkey_buf sampleLib buf (packet_01 a)) i = if i = 0 then a else 0 := by
  simp only [client_pubkey_buf, sampleLib, rd_memcpy, rd_slice, rd_zeros, length_zeros,
    length_slice]
  by_cases h : i < PUBKEY_LEN
  · have h0 : 0 ≤ i ∧ i < 0 + PUBKEY_LEN := ⟨Nat.zero_le _, by omega⟩
    rw [if_pos h, if_pos h0, if_pos (by omega : i - 0 < PUBKEY_LEN),
      rd_packet_01 _ _ (by unfold MAGIC_LEN; omega)]
    have : (2 * MAGIC_LEN + (i - 0) = 16) ↔ i = 0 := by unfold MAGIC_LEN; omega
    simp only [this]
  · rw [if_neg h]
    have : ¬ (i = 0) := by unfold PUBKEY_LEN at h; omega
    rw [if_neg this]

theorem rd_le_bytes_one (n i : Nat) (hn : 0 < n) :
    rd (le_bytes n 1) i = if i = 0 then 1 else 0 := by
  rw [rd_le_bytes]
  by_cases h0 : i = 0
  · subst h0; simp [hn]
  · have h1 : 1 / 256 ^ i = 0 :=
      Nat.div_eq_of_lt (Nat.one_lt_pow h0 (by decide))
    simp [h0, h1]

/-- C3 fails as stated on a full registry: on `sampleFull` (64 slots, 64 different keys) a
login whose decrypted key is the key of slot 0 is answered with the MAGIC_02 reply, because
the full test precedes the duplicate test. -/
theorem duplicate_login_on_full_registry_answered :
    hmac_mismatch sampleLib sampleFull.temp_handshake_buf (packet_01 1) = false
    ∧ (0 < MAX_CLIENTS ∧ sampleFull.clients_status_bitmask.testBit (63 - 0) = true
        ∧ (client_at sampleFull 0).pubkey_siz_bytes = PUBKEY_LEN
        ∧ slice (client_at sampleFull 0).client_pubkey 0 PUBKEY_LEN
            = slice (client_pubkey_buf sampleLib sampleFull.temp_handshake_buf (packet_01 1))
                0 PUBKEY_LEN)
    ∧ (process_msg_01 sampleLib sampleFull (packet_01 1) [] 0).sent
        = sampleFull.sent ++ [reply_full sampleLib sampleFull]
    ∧ (process_msg_01 sampleLib sampleFull (packet_01 1) [] 0).sent ≠ sampleFull.sent := by
  have hm : hmac_mismatch sampleLib sampleFull.temp_handshake_buf (packet_01 1) = false := by
    decide
  have hfull : sampleFull.next_free_user_ix = MAX_CLIENTS := rfl
  have hsent : (process_msg_01 sampleLib sampleFull (packet_01 1) [] 0).sent
      = sampleFull.sent ++ [reply_full sampleLib sampleFull] := by
    simp [process_msg_01, cleanup_01, hm, hfull]
  refine ⟨hm, ⟨by decide, by decide, by decide, ?_⟩, hsent, ?_⟩
  · show slice (le_bytes PUBKEY_LEN (0 + 1)) 0 PUBKEY_LEN = _
    exact slice_eq_of_rd _ _ _ (fun i _ => by
      rw [rd_le_bytes_one _ _ (by decide), rd_sample_key])
  · rw [hsent]
    intro h
    have := congrArg List.length h
    simp at this

/-- Instance of the amended C3: on `sampleOne`, where one client is logged in, a second
login with the key of slot 0. -/
theorem process_msg_01_duplicate_dropped_witness :
    sampleOne.next_free_user_ix ≠ MAX_CLIENTS
    ∧ (0 < MAX_CLIENTS ∧ sampleOne.clients_status_bitmask.testBit (63 - 0) = true
        ∧ (client_at sampleOne 0).pubkey_siz_bytes = PUBKEY_LEN
        ∧ slice (client_at sampleOne 0).client_pubkey 0 PUBKEY_LEN
            = slice (client_pubkey_buf sampleLib sampleOne.temp_handshake_buf (packet_01 1))
                0 PUBKEY_LEN)
    ∧ (process_msg_01 sampleLib sampleOne (packet_01 1) [] 0).sent = sampleOne.sent
    ∧ (process_msg_01 sampleLib sampleOne (packet_01 1) [] 0).clients_status_bitmask
        = sampleOne.clients_status_bitmask
    ∧ (process_msg_01 sampleLib sampleOne (packet_01 1) [] 0).next_free_user_ix
        = sampleOne.next_free_user_ix
    ∧ (process_msg_01 sampleLib sampleOne (packet_01 1) [] 0).clients = sampleOne.clients := by
  have hkey : slice (client_at sampleOne 0).client_pubkey 0 PUBKEY_LEN
      = slice (client_pubkey_buf sampleLib sampleOne.temp_handshake_buf (packet_01 1))
          0 PUBKEY_LEN := by
    show slice (memcpy (zeros PUBKEY_LEN) 0
      (slice (client_pubkey_buf sampleLib sampleInit.temp_handshake_buf (packet_01 1))
        0 PUBKEY_LEN)) 0 PUBKEY_LEN = _
    exact slice_eq_of_rd _ _ _ (fun i _ => by
      by_cases h0 : i = 0
      · subst h0
        simp [rd_memcpy, rd_slice, rd_sample_key, length_zeros, length_slice, PUBKEY_LEN]
      · simp [rd_memcpy, rd_slice, rd_sample_key, rd_zeros, h0])
  exact ⟨by decide, ⟨by decide, by decide, by decide, hkey⟩,
    process_msg_01_duplicate_dropped sampleLib sampleOne (packet_01 1) [] 0 (by decide)
      ⟨0, by decide, by decide, by decide, hkey⟩⟩

/-! ### The handshake lock and the scratch region (C5, C6) and key validation (C7) -/

theorem or_bit63_mod (x : Nat) : (x ||| 1 <<< 63) % 2 ^ 32 = x % 2 ^ 32 := by
  apply Nat.eq_of_testBit_eq
  intro j
  rw [Nat.testBit_mod_two_pow, Nat.testBit_mod_two_pow, Nat.testBit_or, Nat.one_shiftLeft,
    Nat.testBit_two_pow]
  by_cases hj : j < 32
  · have : ¬ (63 = j) := by omega
    simp [hj, this]
  · simp [hj]

theorem and_bit63_eq_zero (x : Nat) (h : x < 2 ^ 32) : x &&& 1 <<< 63 = 0 := by
  rw [Nat.one_shiftLeft, and_two_pow_eq_zero_iff]
  exact Nat.testBit_lt_two_pow (Nat.lt_of_lt_of_le h (Nat.pow_le_pow_right (by decide) (by decide)))

theorem toNat_zero : (bigint_create MAX_BIGINT_SIZ 0).toNat = 0 := by
  unfold bigint.toNat bigint_create
  exact le_toNat_zero_of_rd _ (fun i => by simp [rd_le_bytes])

theorem rejects_A_s_iff (L : CryptoLib) (s : State) (msg_buf : Bytes) :
    rejects_A_s L s msg_buf = true ↔
      ((parse_A_s L msg_buf).toNat = 0 ∨ s.M.toNat ≤ (parse_A_s L msg_buf).toNat
        ∨ L.check_pubkey_form (L.Get_Mont_Form (parse_A_s L msg_buf) s.M) s.M s.Q = 0) := by
  unfold rejects_A_s bigint_compare2
  simp only [toNat_zero, Bool.or_eq_true, bne_iff_ne, beq_iff_eq, ne_eq]
  constructor
  · rintro ((h | h) | h)
    · left
      by_contra hne
      apply h
      have : 0 < (parse_A_s L msg_buf).toNat := Nat.pos_of_ne_zero hne
      simp [this, Nat.ne_of_lt this]
    · right; left
      by_contra hlt
      apply h
      simp [Nat.lt_of_not_le hlt]
    · right; right; exact h
  · rintro (h | h | h)
    · left; left
      simp [h]
    · left; right
      have : ¬ ((parse_A_s L msg_buf).toNat < s.M.toNat) := Nat.not_lt.2 h
      simp only [this, if_false]
      split <;> decide
    · right; exact h

/-- C5 (code defect). The statement `server_control_bitmask |= (1ULL << 63ULL)` of
`process_msg_00` stores into a `u32`: the value after the call is the value before it
reduced modulo `2 ^ 32`, so a bitmask that was 0 is still 0 and no lock flag is set. -/
theorem process_msg_00_lock_bit_truncated (L : CryptoLib) (s : State) (msg_buf rnd : Bytes)
    (send_ret : Int) :
    (process_msg_00 L s msg_buf rnd send_ret).server_control_bitmask
      = s.server_control_bitmask % 2 ^ 32 := by
  by_cases h : rejects_A_s L s msg_buf = true
  · simp only [process_msg_00, h, if_true]
    exact or_bit63_mod _
  · by_cases h4 : send_ret = -1
    · simp only [process_msg_00, h, h4, if_true]
      exact or_bit63_mod _
    · simp only [process_msg_00, h, h4, if_false]
      exact or_bit63_mod _

theorem length_explicit_bzero (buf : Bytes) (n : Nat) :
    (explicit_bzero buf n).length = buf.length := by
  simp [explicit_bzero, length_memcpy]

theorem process_msg_01_eq_cleanup (L : CryptoLib) (s : State) (msg_buf after_ix : Bytes)
    (send_ret : Int) :
    ∃ t : State, t.temp_handshake_buf = s.temp_handshake_buf
      ∧ process_msg_01 L s msg_buf after_ix send_ret = cleanup_01 t := by
  cases h1 : hmac_mismatch L s.temp_handshake_buf msg_buf
  · by_cases h2 : s.next_free_user_ix = MAX_CLIENTS
    · exact ⟨{ s with sent := s.sent ++ [reply_full L s] }, rfl, by
        simp [process_msg_01, h1, h2]⟩
    · by_cases h3 : check_pubkey_exists s (client_pubkey_buf L s.temp_handshake_buf msg_buf)
          PUBKEY_LEN > 0
      · exact ⟨s, rfl, by simp [process_msg_01, h1, h2, h3]⟩
      · refine ⟨{ allocate s (client_pubkey_buf L s.temp_handshake_buf msg_buf) with
          sent := (allocate s (client_pubkey_buf L s.temp_handshake_buf msg_buf)).sent
            ++ [reply_ok L s after_ix] }, rfl, ?_⟩
        by_cases h4 : send_ret = -1
        · simp [process_msg_01, h1, h2, h3, h4]
        · simp [process_msg_01, h1, h2, h3, h4]
  · exact ⟨s, rfl, by simp [process_msg_01, h1]⟩

/-- C7. When the short-term key `A_s` parsed from a MAGIC_00 packet is 0, is at least `M`,
or fails `check_pubkey_form`, the server's `process_msg_00` calls `send` not at all. -/
theorem process_msg_00_invalid_key_no_reply (L : CryptoLib) (s : State)
    (msg_buf rnd : Bytes) (send_ret : Int)
    (h : (parse_A_s L msg_buf).toNat = 0 ∨ s.M.toNat ≤ (parse_A_s L msg_buf).toNat
      ∨ L.check_pubkey_form (L.Get_Mont_Form (parse_A_s L msg_buf) s.M) s.M s.Q = 0) :
    (process_msg_00 L s msg_buf rnd send_ret).sent = s.sent := by
  have hr := (rejects_A_s_iff L s msg_buf).2 h
  simp [process_msg_00, hr]

end Server

/-! ### Evaluating the handlers on concrete packets (C4, C8, C9) -/

theorem toNat_small (v : Nat) : (small v).toNat = v := by
  simp [bigint.toNat, small, le_toNat]

theorem check_pubkey_form_sample (A M Q : bigint) :
    sampleLib.check_pubkey_form (sampleLib.Get_Mont_Form A M) M Q
      = if A.toNat ^ ((M.toNat - 1) / Q.toNat) % M.toNat = 1 then 1 else 0 := rfl

namespace Server

theorem toNat_parse_A_s_sample (a : Nat) : (parse_A_s sampleLib (packet_00 a)).toNat = a := by
  unfold bigint.toNat parse_A_s
  have h8 : rd (packet_00 a) 8 = 1 := rfl
  have h16 : rd (packet_00 a) 16 = a := rfl
  apply le_toNat_of_rd
  · simp [rd_memcpy, rd_slice, length_zeros, length_slice, MAX_BIGINT_SIZ, h8, h16]
  · intro i hi
    have hi1 : ¬ (i < 1) := by omega
    simp [rd_memcpy, rd_slice, rd_zeros, length_zeros, length_slice, h8, hi1]

theorem rejects_A_s_sample_valid (s : State) (hM : s.M = small 7) (hQ : s.Q = small 3) :
    rejects_A_s sampleLib s (packet_00 6) = false := by
  rw [Bool.eq_false_iff]
  intro h
  rw [rejects_A_s_iff, check_pubkey_form_sample, toNat_parse_A_s_sample, hM, hQ,
    toNat_small, toNat_small] at h
  revert h
  decide

theorem process_msg_00_consts (L : CryptoLib) (s : State) (msg_buf rnd : Bytes)
    (send_ret : Int) :
    (process_msg_00 L s msg_buf rnd send_ret).M = s.M
    ∧ (process_msg_00 L s msg_buf rnd send_ret).Q = s.Q := by
  by_cases h : rejects_A_s L s msg_buf = true
  · simp [process_msg_00, h]
  · simp [process_msg_00, h]

theorem process_msg_00_accept (L : CryptoLib) (s : State) (msg_buf rnd : Bytes)
    (send_ret : Int) (h : rejects_A_s L s msg_buf = false) :
    (process_msg_00 L s msg_buf rnd send_ret).sent = s.sent ++ [reply_00 L s msg_buf rnd]
    ∧ (process_msg_00 L s msg_buf rnd send_ret).temp_handshake_buf
        = scratch_keys L s msg_buf rnd := by
  simp [process_msg_00, h]

theorem process_msg_00_reject (L : CryptoLib) (s : State) (msg_buf rnd : Bytes)
    (send_ret : Int) (h : rejects_A_s L s msg_buf = true) :
    (process_msg_00 L s msg_buf rnd send_ret).sent = s.sent
    ∧ (process_msg_00 L s msg_buf rnd send_ret).temp_handshake_buf
        = scratch_A_s L s msg_buf := by
  simp [process_msg_00, h]

theorem length_scratch_keys (L : CryptoLib) (s : State) (msg_buf rnd : Bytes) :
    (scratch_keys L s msg_buf rnd).length = s.temp_handshake_buf.length := by
  simp [scratch_keys, scratch_A_s, length_memcpy]

theorem rd_scratch_keys_sample (s : State) (msg_buf rnd : Bytes)
    (hlen : s.temp_handshake_buf.length = TEMP_BUF_SIZ) :
    rd (scratch_keys sampleLib s msg_buf rnd) 24 = rd rnd 0 := by
  simp [scratch_keys, scratch_A_s, rd_memcpy, length_memcpy, rd_slice, length_slice, hlen,
    TEMP_BUF_SIZ, PRIVKEY_BYTES, sampleLib]

/-- C4 (code defect). The server's `process_msg_00` never tests the handshake lock. On
`sampleInFlight`, where a MAGIC_00 has been processed and no MAGIC_01 yet, a second valid
MAGIC_00 is answered with a reply and the stored `b_s` is overwritten (its first byte, at
scratch offset `sizeof(bigint) = 24`, goes from 1 to 2). -/
theorem second_msg_00_while_login_in_flight :
    sampleInFlight.sent.length = 1
    ∧ (process_msg_00 sampleLib sampleInFlight (packet_00 6) [2] 0).sent.length = 2
    ∧ rd sampleInFlight.temp_handshake_buf 24 = 1
    ∧ rd (process_msg_00 sampleLib sampleInFlight (packet_00 6) [2] 0).temp_handshake_buf 24
        = 2 := by
  have h1 := process_msg_00_accept sampleLib sampleInit (packet_00 6) [1] 0
    (rejects_A_s_sample_valid sampleInit rfl rfl)
  have hc := process_msg_00_consts sampleLib sampleInit (packet_00 6) [1] 0
  have h2 := process_msg_00_accept sampleLib sampleInFlight (packet_00 6) [2] 0
    (rejects_A_s_sample_valid sampleInFlight hc.1 hc.2)
  have hl0 : sampleInit.temp_handshake_buf.length = TEMP_BUF_SIZ := length_zeros _
  have hl1 : sampleInFlight.temp_handshake_buf.length = TEMP_BUF_SIZ := by
    show (process_msg_00 sampleLib sampleInit (packet_00 6) [1] 0).temp_handshake_buf.length = _
    rw [h1.2, length_scratch_keys, hl0]
  have hs1 : sampleInFlight.sent.length = 1 := by
    show (process_msg_00 sampleLib sampleInit (packet_00 6) [1] 0).sent.length = 1
    rw [h1.1]; rfl
  refine ⟨hs1, ?_, ?_, ?_⟩
  · rw [h2.1, List.length_append, hs1]; rfl
  · show rd (process_msg_00 sampleLib sampleInit (packet_00 6) [1] 0).temp_handshake_buf 24 = 1
    rw [h1.2, rd_scratch_keys_sample _ _ _ hl0]; rfl
  · rw [h2.2, rd_scratch_keys_sample _ _ _ hl1]; rfl

/-- Instance of C7: the all-zero key `A_s = 0` on the state after `self_init`. -/
theorem process_msg_00_invalid_key_no_reply_witness :
    ((parse_A_s sampleLib (packet_00 0)).toNat = 0
      ∨ sampleInit.M.toNat ≤ (parse_A_s sampleLib (packet_00 0)).toNat
      ∨ sampleLib.check_pubkey_form
          (sampleLib.Get_Mont_Form (parse_A_s sampleLib (packet_00 0)) sampleInit.M)
          sampleInit.M sampleInit.Q = 0)
    ∧ (process_msg_00 sampleLib sampleInit (packet_00 0) [1] 0).sent = sampleInit.sent :=
  ⟨Or.inl (toNat_parse_A_s_sample 0),
    process_msg_00_invalid_key_no_reply sampleLib sampleInit (packet_00 0) [1] 0
      (Or.inl (toNat_parse_A_s_sample 0))⟩

end Server

namespace Client

theorem toNat_parse_B_s_sample (b : Nat) : (parse_B_s sampleLib (reply_00 b)).toNat = b := by
  unfold bigint.toNat parse_B_s
  have h8 : rd (reply_00 b) 8 = b := rfl
  apply le_toNat_of_rd
  · simp [rd_memcpy, rd_slice, length_zeros, length_slice, MAX_BIGINT_SIZ, PUBKEY_LEN,
      SMALL_FIELD_LEN, h8]
  · intro i hi
    have h9 : rd (reply_00 b) (SMALL_FIELD_LEN + i) = 0 :=
      rd_of_length_le (by simp [reply_00, SMALL_FIELD_LEN]; omega)
    simp [rd_memcpy, rd_slice, rd_zeros, length_zeros, length_slice, h9]

theorem rejects_B_s_iff (L : CryptoLib) (s : State) (msg_buf : Bytes) :
    rejects_B_s L s msg_buf = true ↔
      ((parse_B_s L msg_buf).toNat = 0 ∨ s.M.toNat ≤ (parse_B_s L msg_buf).toNat) := by
  unfold rejects_B_s bigint_compare2
  simp only [Server.toNat_zero, Bool.or_eq_true, bne_iff_ne, ne_eq]
  constructor
  · rintro (h | h)
    · left
      by_contra hne
      apply h
      have : 0 < (parse_B_s L msg_buf).toNat := Nat.pos_of_ne_zero hne
      simp [this, Nat.ne_of_lt this]
    · right
      by_contra hlt
      apply h
      simp [Nat.lt_of_not_le hlt]
  · rintro (h | h)
    · left
      simp [h]
    · right
      have : ¬ ((parse_B_s L msg_buf).toNat < s.M.toNat) := Nat.not_lt.2 h
      simp only [this, if_false]
      split <;> decide

theorem sampleSent_fields :
    sampleSent.temp_handshake_memory_region_isLocked = 1
    ∧ sampleSent.handshake_memory_region_state = 1
    ∧ sampleSent.M = small 7 ∧ sampleSent.Q = small 3 := by
  simp [sampleSent, construct_msg_00, sampleInit]

theorem rd_sampleSent_scratch : rd sampleSent.temp_handshake_buf 9 = 50 := by
  simp [sampleSent, construct_msg_00, sampleInit, rd_memcpy, length_memcpy, rd_slice,
    length_slice, length_zeros, rd_zeros, TEMP_BUF_SIZ, PRIVKEY_LEN, sampleLib]
  rfl

end Client

theorem rd_server_scratch_A_s :
    rd (Server.scratch_A_s sampleLib Server.sampleInit (Server.packet_00 0)) 9 = 50 := by
  simp [Server.scratch_A_s, Server.sampleInit, Server.init, rd_memcpy, length_zeros,
    rd_slice, length_slice, TEMP_BUF_SIZ, sampleLib]
  rfl

/-- C8 (code defect). Neither `process_msg_00` releases the scratch region when it rejects a
short-term key. Server: on the key `A_s = 0` the region keeps the `struct bigint` of `A_s`
it had just stored (byte 9, the second byte of `bits_size = 12800`, is 50). Client: on
`B_s = 0` the routine returns 0 with the state untouched, so the region still holds the
keys of `construct_msg_00` and both flags still read 1. -/
theorem rejected_short_term_key_keeps_scratch :
    Server.rejects_A_s sampleLib Server.sampleInit (Server.packet_00 0) = true
    ∧ rd (Server.process_msg_00 sampleLib Server.sampleInit (Server.packet_00 0) [1]
        0).temp_handshake_buf 9 = 50
    ∧ Client.rejects_B_s sampleLib Client.sampleSent (Client.reply_00 0) = true
    ∧ Client.process_msg_00 sampleLib Client.sampleSent (Client.reply_00 0) 0
        = (Client.sampleSent, 0)
    ∧ Client.sampleSent.temp_handshake_memory_region_isLocked = 1
    ∧ Client.sampleSent.handshake_memory_region_state = 1
    ∧ rd Client.sampleSent.temp_handshake_buf 9 = 50 := by
  have hA : Server.rejects_A_s sampleLib Server.sampleInit (Server.packet_00 0) = true :=
    (Server.rejects_A_s_iff _ _ _).2 (Or.inl (Server.toNat_parse_A_s_sample 0))
  have hB : Client.rejects_B_s sampleLib Client.sampleSent (Client.reply_00 0) = true :=
    (Client.rejects_B_s_iff _ _ _).2 (Or.inl (Client.toNat_parse_B_s_sample 0))
  refine ⟨hA, ?_, hB, ?_, Client.sampleSent_fields.1, Client.sampleSent_fields.2.1,
    Client.rd_sampleSent_scratch⟩
  · rw [(Server.process_msg_00_reject _ _ _ _ _ hA).2]
    exact rd_server_scratch_A_s
  · simp [Client.process_msg_00, hB]

namespace Client

theorem rejects_B_s_sample_two (s : State) (hM : s.M = small 7) :
    rejects_B_s sampleLib s (reply_00 2) = false := by
  rw [Bool.eq_false_iff]
  intro h
  rw [rejects_B_s_iff, toNat_parse_B_s_sample, hM, toNat_small] at h
  revert h
  decide

theorem auth_status_sample (s : State) (msg_buf : Bytes) :
    auth_status sampleLib s msg_buf = 1 := rfl

theorem length_reply_01 (L : CryptoLib) (s : State) (msg_buf : Bytes) :
    (reply_01 L s msg_buf).length = SMALL_FIELD_LEN + PUBKEY_LEN + HMAC_TRUNC_BYTES := by
  simp [reply_01, send_bytes, length_memcpy, length_zeros]

theorem rd_reply_01_magic (L : CryptoLib) (s : State) (msg_buf : Bytes) (i : Nat)
    (hi : i < 8) : rd (reply_01 L s msg_buf) i = PACKET_ID_01 / 256 ^ i % 256 := by
  have h1 : i < SMALL_FIELD_LEN + PUBKEY_LEN + HMAC_TRUNC_BYTES := by
    unfold SMALL_FIELD_LEN PUBKEY_LEN HMAC_TRUNC_BYTES; omega
  have h2 : ¬ (SMALL_FIELD_LEN + PUBKEY_LEN ≤ i) := by
    unfold SMALL_FIELD_LEN PUBKEY_LEN; omega
  have h3 : ¬ (SMALL_FIELD_LEN ≤ i) := by unfold SMALL_FIELD_LEN; omega
  simp [reply_01, send_bytes, Server.rd_take, rd_memcpy, length_memcpy, length_zeros,
    length_le_bytes, rd_le_bytes, h1, h2, h3, hi]

end Client

/-- C9 (code defect). The client's `process_msg_00` has the `check_pubkey_form` disjunct
commented out. With `M = 7`, `Q = 3` and the server key `B_s = 2`, for which
`2 ^ ((7 - 1) / 3) mod 7 = 4` and `check_pubkey_form` returns 0, the routine returns
status 1 and sends one packet of 400 bytes that starts with the MAGIC_01 packet id. -/
theorem client_accepts_key_outside_subgroup :
    (Client.parse_B_s sampleLib (Client.reply_00 2)).toNat = 2
    ∧ sampleLib.check_pubkey_form
        (sampleLib.Get_Mont_Form (Client.parse_B_s sampleLib (Client.reply_00 2))
          Client.sampleSent.M) Client.sampleSent.M Client.sampleSent.Q = 0
    ∧ (Client.process_msg_00 sampleLib Client.sampleSent (Client.reply_00 2) 0).2 = 1
    ∧ (Client.process_msg_00 sampleLib Client.sampleSent (Client.reply_00 2) 0).1.sent
        = Client.sampleSent.sent
          ++ [Client.reply_01 sampleLib Client.sampleSent (Client.reply_00 2)]
    ∧ (Client.reply_01 sampleLib Client.sampleSent (Client.reply_00 2)).length = 400
    ∧ slice (Client.reply_01 sampleLib Client.sampleSent (Client.reply_00 2)) 0 8
        = le_bytes 8 Client.PACKET_ID_01 := by
  have hM := Client.sampleSent_fields.2.2.1
  have hQ := Client.sampleSent_fields.2.2.2
  have hrej := Client.rejects_B_s_sample_two Client.sampleSent hM
  have hauth := Client.auth_status_sample Client.sampleSent (Client.reply_00 2)
  refine ⟨Client.toNat_parse_B_s_sample 2, ?_, ?_, ?_, Client.length_reply_01 _ _ _, ?_⟩
  · rw [check_pubkey_form_sample, Client.toNat_parse_B_s_sample, hM, hQ, toNat_small,
      toNat_small]
    decide
  · simp [Client.process_msg_00, hrej, hauth]
  · simp [Client.process_msg_00, hrej, hauth]
  · exact Server.slice_eq_le_bytes _ _ _ (fun i hi => by
      rw [Nat.zero_add]; exact Client.rd_reply_01_magic _ _ _ i hi)

namespace Server

/-! ### The decrypted long-term key is stored unchecked (C10) -/

theorem memcpy_zeros_slice_self (key : Bytes) (n : Nat) (h : key.length = n) :
    memcpy (zeros n) 0 (slice key 0 n) = key := by
  apply bytes_ext
  · simp [length_memcpy, length_zeros, h]
  · intro i hi
    have hi2 : i < n := by simpa [length_memcpy, length_zeros] using hi
    simp [rd_memcpy, rd_slice, length_zeros, length_slice, hi2]

theorem length_client_pubkey_buf (L : CryptoLib) (buf msg_buf : Bytes) :
    (client_pubkey_buf L buf msg_buf).length = PUBKEY_LEN := by
  simp [client_pubkey_buf, length_memcpy, length_zeros]

/-- C10, as the code has it. On a MAGIC_01 packet with a matching authenticator the login
is refused, with `clients_status_bitmask`, `next_free_user_ix` and `clients[]` unchanged,
when the registry is full or the decrypted key is registered; otherwise slot
`next_free_user_ix` receives the decrypted key and its bit is set, whatever the key's
value: the long-term key is neither range-checked nor subgroup-checked. -/
theorem process_msg_01_login_outcome (L : CryptoLib) (s : State) (msg_buf after_ix : Bytes)
    (send_ret : Int)
    (hmac : hmac_mismatch L s.temp_handshake_buf msg_buf = false)
    (hlen : s.clients.length = MAX_CLIENTS) :
    ((s.next_free_user_ix = MAX_CLIENTS
        ∨ check_pubkey_exists s (client_pubkey_buf L s.temp_handshake_buf msg_buf)
            PUBKEY_LEN > 0) →
      (process_msg_01 L s msg_buf after_ix send_ret).clients_status_bitmask
          = s.clients_status_bitmask
      ∧ (process_msg_01 L s msg_buf after_ix send_ret).next_free_user_ix
          = s.next_free_user_ix
      ∧ (process_msg_01 L s msg_buf after_ix send_ret).clients = s.clients)
    ∧ (s.next_free_user_ix < MAX_CLIENTS →
      check_pubkey_exists s (client_pubkey_buf L s.temp_handshake_buf msg_buf)
          PUBKEY_LEN = 0 →
      (process_msg_01 L s msg_buf after_ix send_ret).clients_status_bitmask
          = s.clients_status_bitmask ||| BITMASK_BIT_AT s.next_free_user_ix
      ∧ (process_msg_01 L s msg_buf after_ix send_ret).clients_status_bitmask.testBit
          (63 - s.next_free_user_ix) = true
      ∧ (client_at (process_msg_01 L s msg_buf after_ix send_ret)
          s.next_free_user_ix).client_pubkey
          = client_pubkey_buf L s.temp_handshake_buf msg_buf
      ∧ (client_at (process_msg_01 L s msg_buf after_ix send_ret)
          s.next_free_user_ix).pubkey_siz_bytes = PUBKEY_LEN) := by
  have hreg := process_msg_01_registry L s msg_buf after_ix send_ret
  simp only at hreg
  constructor
  · intro hc
    rw [if_pos (Or.inr hc)] at hreg
    exact ⟨congrArg Prod.fst hreg, congrArg (fun p => p.2.1) hreg,
      congrArg (fun p => p.2.2) hreg⟩
  · intro hlt hnew
    have hc : ¬ (hmac_mismatch L s.temp_handshake_buf msg_buf = true
        ∨ s.next_free_user_ix = MAX_CLIENTS
        ∨ check_pubkey_exists s (client_pubkey_buf L s.temp_handshake_buf msg_buf)
            PUBKEY_LEN > 0) := by
      rintro (h | h | h)
      · rw [hmac] at h; exact Bool.noConfusion h
      · omega
      · omega
    rw [if_neg hc] at hreg
    have e1 : (process_msg_01 L s msg_buf after_ix send_ret).clients_status_bitmask
        = s.clients_status_bitmask ||| BITMASK_BIT_AT s.next_free_user_ix :=
      congrArg Prod.fst hreg
    have e3 : (process_msg_01 L s msg_buf after_ix send_ret).clients
        = (allocate s (client_pubkey_buf L s.temp_handshake_buf msg_buf)).clients :=
      congrArg (fun p => p.2.2) hreg
    have hlt2 : s.next_free_user_ix < s.clients.length := by omega
    refine ⟨e1, ?_, ?_, ?_⟩
    · rw [e1, Nat.testBit_or]
      unfold BITMASK_BIT_AT
      rw [Nat.one_shiftLeft, Nat.testBit_two_pow_self, Bool.or_true]
    · unfold client_at
      rw [e3]
      simp [allocate, hlt2, memcpy_zeros_slice_self _ _ (length_client_pubkey_buf L _ _)]
    · unfold client_at
      rw [e3]
      simp [allocate, hlt2]

/-- C10 fails as stated: on the state after `self_init`, the MAGIC_01 packet whose
decrypted long-term key is 0 is admitted, and the bit of slot 0 is set. -/
theorem zero_long_term_key_is_admitted :
    hmac_mismatch sampleLib sampleInit.temp_handshake_buf (packet_01 0) = false
    ∧ le_toNat (client_pubkey_buf sampleLib sampleInit.temp_handshake_buf (packet_01 0)) = 0
    ∧ sampleInit.clients_status_bitmask = 0
    ∧ (process_msg_01 sampleLib sampleInit (packet_01 0) [] 0).clients_status_bitmask = 2 ^ 63
    ∧ (process_msg_01 sampleLib sampleInit (packet_01 0) [] 0).next_free_user_ix = 1 :=
  ⟨by decide, le_toNat_zero_of_rd _ (fun i => by rw [rd_sample_key]; simp), rfl,
    by decide, by decide⟩

/-- Instance of the amended C10 at the state after `self_init`: the key of value 1 is new
and is stored in slot 0. -/
theorem process_msg_01_login_outcome_witness :
    hmac_mismatch sampleLib sampleInit.temp_handshake_buf (packet_01 1) = false
    ∧ sampleInit.clients.length = MAX_CLIENTS
    ∧ sampleInit.next_free_user_ix < MAX_CLIENTS
    ∧ check_pubkey_exists sampleInit
        (client_pubkey_buf sampleLib sampleInit.temp_handshake_buf (packet_01 1))
        PUBKEY_LEN = 0
    ∧ (client_at (process_msg_01 sampleLib sampleInit (packet_01 1) [] 0)
          sampleInit.next_free_user_ix).client_pubkey
        = client_pubkey_buf sampleLib sampleInit.temp_handshake_buf (packet_01 1) :=
  ⟨by decide, by decide, by decide, by decide,
    ((process_msg_01_login_outcome sampleLib sampleInit (packet_01 1) [] 0 (by decide)
      (by decide)).2 (by decide) (by decide)).2.2.1⟩

end Server

/-! ### The authenticator: mismatch is dropped (C13), both sides compute the same (C12) -/

namespace Server

theorem hmac_mismatch_of_differs (L : CryptoLib) (buf msg_buf : Bytes)
    (h : ∃ i, i < 8 ∧ rd (HMAC_output L buf msg_buf) i
      ≠ rd msg_buf (PUBKEY_LEN + 2 * MAGIC_LEN + i)) :
    hmac_mismatch L buf msg_buf = true := by
  obtain ⟨i, hi, hne⟩ := h
  unfold hmac_mismatch
  rw [List.any_eq_true]
  exact ⟨i, List.mem_range.2 hi, by simpa using hne⟩

/-- C13. When at least one of the 8 received authenticator bytes differs from the HMAC the
server recomputes, `process_msg_01` sends no reply and leaves `clients_status_bitmask`,
`next_free_user_ix` and every `clients[]` slot unchanged. -/
theorem process_msg_01_hmac_mismatch_dropped (L : CryptoLib) (s : State)
    (msg_buf after_ix : Bytes) (send_ret : Int)
    (h : ∃ i, i < 8 ∧ rd (HMAC_output L s.temp_handshake_buf msg_buf) i
      ≠ rd msg_buf (PUBKEY_LEN + 2 * MAGIC_LEN + i)) :
    (process_msg_01 L s msg_buf after_ix send_ret).sent = s.sent
    ∧ (process_msg_01 L s msg_buf after_ix send_ret).clients_status_bitmask
        = s.clients_status_bitmask
    ∧ (process_msg_01 L s msg_buf after_ix send_ret).next_free_user_ix = s.next_free_user_ix
    ∧ (process_msg_01 L s msg_buf after_ix send_ret).clients = s.clients := by
  have hm := hmac_mismatch_of_differs L _ _ h
  simp [process_msg_01, hm, cleanup_01]

/-- Instance of C13: `packet_01_bad`, whose first authenticator byte is 1 where the
recomputed HMAC has 0, on the state after `self_init`. -/
theorem process_msg_01_hmac_mismatch_dropped_witness :
    (0 < 8 ∧ rd (HMAC_output sampleLib sampleInit.temp_handshake_buf packet_01_bad) 0
      ≠ rd packet_01_bad (PUBKEY_LEN + 2 * MAGIC_LEN + 0))
    ∧ (process_msg_01 sampleLib sampleInit packet_01_bad [] 0).sent = sampleInit.sent
    ∧ (process_msg_01 sampleLib sampleInit packet_01_bad [] 0).clients_status_bitmask
        = sampleInit.clients_status_bitmask
    ∧ (process_msg_01 sampleLib sampleInit packet_01_bad [] 0).next_free_user_ix
        = sampleInit.next_free_user_ix
    ∧ (process_msg_01 sampleLib sampleInit packet_01_bad [] 0).clients = sampleInit.clients :=
  ⟨⟨by decide, by decide⟩,
    process_msg_01_hmac_mismatch_dropped sampleLib sampleInit packet_01_bad [] 0
      ⟨0, by decide, by decide⟩⟩

end Server

/-! ### The four slices of the shared secret (C11) -/

theorem rd_memcpy_out (dst : Bytes) (off : Nat) (src : Bytes) (i : Nat)
    (h : i < off ∨ off + src.length ≤ i) : rd (memcpy dst off src) i = rd dst i := by
  rw [rd_memcpy]
  have hc : ¬ (off ≤ i ∧ i < off + src.length) := by omega
  rw [if_neg hc]
  by_cases hl : i < dst.length
  · rw [if_pos hl]
  · rw [if_neg hl, rd_of_length_le (by omega)]

theorem rd_memcpy_in (dst : Bytes) (off : Nat) (src : Bytes) (i : Nat)
    (h1 : off ≤ i) (h2 : i < off + src.length) (h3 : i < dst.length) :
    rd (memcpy dst off src) i = rd src (i - off) := by
  rw [rd_memcpy, if_pos h3, if_pos ⟨h1, h2⟩]

theorem slice_ext (a b : Bytes) (oa ob n : Nat)
    (h : ∀ i, i < n → rd a (oa + i) = rd b (ob + i)) : slice a oa n = slice b ob n := by
  unfold slice
  apply List.map_congr_left
  intro i hi
  exact h i (List.mem_range.1 hi)

/-- Four consecutive stores of `X[0..32)`, `X[32..64)`, `X[64..96)`, `X[96..108)` at offset
`o` leave `X[j]` at `o + j` for every `j < 108`. -/
theorem rd_four_slices (buf X : Bytes) (o j : Nat) (h : o + 108 ≤ buf.length)
    (hj : j < 108) :
    rd (memcpy (memcpy (memcpy (memcpy buf o (slice X 0 32)) (o + 32) (slice X 32 32))
      (o + 64) (slice X 64 32)) (o + 96) (slice X 96 12)) (o + j) = rd X j := by
  by_cases h96 : 96 ≤ j
  · rw [rd_memcpy_in _ _ _ _ (by omega) (by rw [length_slice]; omega)
      (by simp only [length_memcpy]; omega), rd_slice, if_pos (by omega)]
    congr 1; omega
  · rw [rd_memcpy_out _ _ _ _ (by left; omega)]
    by_cases h64 : 64 ≤ j
    · rw [rd_memcpy_in _ _ _ _ (by omega) (by rw [length_slice]; omega)
        (by simp only [length_memcpy]; omega), rd_slice, if_pos (by omega)]
      congr 1; omega
    · rw [rd_memcpy_out _ _ _ _ (by left; omega)]
      by_cases h32 : 32 ≤ j
      · rw [rd_memcpy_in _ _ _ _ (by omega) (by rw [length_slice]; omega)
          (by simp only [length_memcpy]; omega), rd_slice, if_pos (by omega)]
        congr 1; omega
      · rw [rd_memcpy_out _ _ _ _ (by left; omega),
          rd_memcpy_in _ _ _ _ (by omega) (by rw [length_slice]; omega) (by omega),
          rd_slice, if_pos (by omega)]
        congr 1; omega

namespace Server

theorem rd_scratch_keys (L : CryptoLib) (s : State) (msg_buf rnd : Bytes) (j : Nat)
    (hlen : 4 * L.sizeof_bigint + 108 ≤ s.temp_handshake_buf.length) (hj : j < 108) :
    rd (scratch_keys L s msg_buf rnd) (4 * L.sizeof_bigint + j)
      = rd (X_s L s msg_buf rnd).bits j := by
  exact rd_four_slices _ _ _ _ (by simp only [length_memcpy, scratch_A_s]; exact hlen) hj

end Server

namespace Client

theorem rd_client_scratch_keys (L : CryptoLib) (s : State) (msg_buf : Bytes) (j : Nat)
    (hlen : 3 * L.sizeof_bigint + 108 ≤ s.temp_handshake_buf.length) (hj : j < 108) :
    rd (scratch_keys L s msg_buf) (3 * L.sizeof_bigint + j) = rd (X_s L s msg_buf).bits j := by
  exact rd_four_slices _ _ _ _ (by simp only [length_memcpy]; exact hlen) hj

theorem length_client_scratch_keys (L : CryptoLib) (s : State) (msg_buf : Bytes) :
    (scratch_keys L s msg_buf).length = s.temp_handshake_buf.length := by
  simp [scratch_keys, length_memcpy]

/-- The increment of the `u64` at the nonce offset leaves the bytes below that offset as
they were. -/
theorem rd_scratch_final (L : CryptoLib) (s : State) (msg_buf : Bytes) (i : Nat)
    (hi : i < 3 * L.sizeof_bigint + 96) :
    rd (scratch_final L s msg_buf) i = rd (scratch_keys L s msg_buf) i := by
  unfold scratch_final
  exact rd_memcpy_out _ _ _ _ (by
    left; unfold SESSION_KEY_LEN INIT_AUTH_LEN; omega)

end Client

namespace Client

theorem rejects_B_s_sample_six (s : State) (hM : s.M = small 7) :
    rejects_B_s sampleLib s (reply_00 6) = false := by
  rw [Bool.eq_false_iff]
  intro h
  rw [rejects_B_s_iff, toNat_parse_B_s_sample, hM, toNat_small] at h
  revert h
  decide

theorem process_msg_00_client_accept (L : CryptoLib) (s : State) (msg_buf : Bytes) (send_ret : Int)
    (h1 : rejects_B_s L s msg_buf = false) (h2 : auth_status L s msg_buf = 1) :
    (process_msg_00 L s msg_buf send_ret).1.temp_handshake_buf = scratch_final L s msg_buf
    ∧ (process_msg_00 L s msg_buf send_ret).1.sent = s.sent ++ [reply_01 L s msg_buf] := by
  by_cases h4 : send_ret = -1
  · simp [process_msg_00, h1, h2, h4]
  · simp [process_msg_00, h1, h2, h4]

end Client

theorem bits_server_X_s_sample (s : Server.State) (msg_buf rnd : Bytes) :
    (Server.X_s sampleLib s msg_buf rnd).bits
      = memcpy (zeros MAX_BIGINT_SIZ) 0 (slice msg_buf 16 (rd msg_buf 8)) := by
  simp [Server.X_s, Server.parse_A_s, sampleLib]

theorem bits_client_X_s_sample (s : Client.State) (msg_buf : Bytes) :
    (Client.X_s sampleLib s msg_buf).bits
      = memcpy (zeros MAX_BIGINT_SIZ) 0 (slice msg_buf Client.SMALL_FIELD_LEN PUBKEY_LEN) := by
  simp [Client.X_s, Client.parse_B_s, sampleLib]

theorem sample_shared_secret :
    (Client.X_s sampleLib Client.sampleSent (Client.reply_00 6)).bits
      = (Server.X_s sampleLib Server.sampleInit (Server.packet_00 6) [1]).bits := by
  rw [bits_server_X_s_sample, bits_client_X_s_sample]
  have h8 : rd (Server.packet_00 6) 8 = 1 := rfl
  rw [h8]
  apply bytes_ext
  · simp [length_memcpy]
  · intro i _
    by_cases h0 : i = 0
    · subst h0
      simp [rd_memcpy, rd_slice, length_zeros, length_slice, MAX_BIGINT_SIZ, PUBKEY_LEN]
      rfl
    · have h9 : rd (Client.reply_00 6) (Client.SMALL_FIELD_LEN + i) = 0 :=
        rd_of_length_le (by simp [Client.reply_00, Client.SMALL_FIELD_LEN]; omega)
      have h1 : ¬ (i < 1) := by omega
      simp [rd_memcpy, rd_slice, rd_zeros, length_zeros, length_slice, h9, h1]

/-- The nonce bytes of the client's scratch region when its `process_msg_00` returns: the
eight low bytes hold the `u64` of `X[96..104)` incremented by one, the next four are
`X[104..108)`. -/
theorem Client.rd_scratch_final_nonce (L : CryptoLib) (cs : Client.State) (cmsg : Bytes)
    (hlen : 3 * L.sizeof_bigint + 108 ≤ cs.temp_handshake_buf.length) (i : Nat) (hi : i < 12) :
    rd (Client.scratch_final L cs cmsg) (3 * L.sizeof_bigint + 96 + i)
      = if i < 8 then
          rd (le_bytes 8 ((le_toNat (slice (Client.X_s L cs cmsg).bits 96 8) + 1) % 2 ^ 64)) i
        else rd (Client.X_s L cs cmsg).bits (96 + i) := by
  have hs : slice (Client.scratch_keys L cs cmsg) (3 * L.sizeof_bigint + 96) 8
      = slice (Client.X_s L cs cmsg).bits 96 8 :=
    slice_ext _ _ _ _ _ (fun j hj => by
      rw [Nat.add_assoc, Client.rd_client_scratch_keys L cs cmsg (96 + j) hlen (by omega)])
  have hl := Client.length_client_scratch_keys L cs cmsg
  unfold Client.scratch_final
  simp only [Client.SESSION_KEY_LEN, Client.INIT_AUTH_LEN]
  have e96 : 3 * L.sizeof_bigint + 2 * 32 + 32 = 3 * L.sizeof_bigint + 96 := by omega
  rw [e96, hs]
  by_cases h8 : i < 8
  · rw [if_pos h8, rd_memcpy_in _ _ _ _ (by omega) (by rw [length_le_bytes]; omega)
      (by rw [hl]; omega)]
    congr 1
    omega
  · rw [if_neg h8, rd_memcpy_out _ _ _ _ (Or.inr (by rw [length_le_bytes]; omega)),
      Nat.add_assoc, Client.rd_client_scratch_keys L cs cmsg (96 + i) hlen (by omega)]

/-- C11, amended. When the server's `process_msg_00` and the client's `process_msg_00` both
accept and hold the same shared-secret bytes `X`, the four slices in the server's scratch
region (at `4 * sizeof(bigint)`, `+32`, `+64`, `+96`, where `process_msg_01` reads them) and
the four slices the client stores and reads in `process_msg_00` (at `3 * sizeof(bigint)`,
`+32`, `+64`, `+96`) are the same values `X[0..32)`, `X[32..64)`, `X[64..96)`,
`X[96..108)`. When the client's `process_msg_00` returns, its scratch region, which
`process_msg_01` reads, still holds the first three, but the nonce there is `X[96..108)`
with the `u64` in its eight low bytes incremented by one. -/
theorem handshake_slices_agree (L : CryptoLib)
    (ss : Server.State) (smsg rnd : Bytes) (sret : Int)
    (cs : Client.State) (cmsg : Bytes) (cret : Int) (X : Bytes)
    (hsz : 4 * L.sizeof_bigint + 108 ≤ TEMP_BUF_SIZ)
    (hss : ss.temp_handshake_buf.length = TEMP_BUF_SIZ)
    (hcs : cs.temp_handshake_buf.length = TEMP_BUF_SIZ)
    (hs_ok : Server.rejects_A_s L ss smsg = false)
    (hc_ok : Client.rejects_B_s L cs cmsg = false)
    (hc_auth : Client.auth_status L cs cmsg = 1)
    (hXs : (Server.X_s L ss smsg rnd).bits = X)
    (hXc : (Client.X_s L cs cmsg).bits = X) :
    (slice (Server.process_msg_00 L ss smsg rnd sret).temp_handshake_buf
        (4 * L.sizeof_bigint) 32 = slice X 0 32
      ∧ slice (Server.process_msg_00 L ss smsg rnd sret).temp_handshake_buf
        (4 * L.sizeof_bigint + 32) 32 = slice X 32 32
      ∧ slice (Server.process_msg_00 L ss smsg rnd sret).temp_handshake_buf
        (4 * L.sizeof_bigint + 64) 32 = slice X 64 32
      ∧ slice (Server.process_msg_00 L ss smsg rnd sret).temp_handshake_buf
        (4 * L.sizeof_bigint + 96) 12 = slice X 96 12)
    ∧ (slice (Client.scratch_keys L cs cmsg) (3 * L.sizeof_bigint) 32 = slice X 0 32
      ∧ slice (Client.scratch_keys L cs cmsg) (3 * L.sizeof_bigint + 32) 32 = slice X 32 32
      ∧ slice (Client.scratch_keys L cs cmsg) (3 * L.sizeof_bigint + 64) 32 = slice X 64 32
      ∧ slice (Client.scratch_keys L cs cmsg) (3 * L.sizeof_bigint + 96) 12 = slice X 96 12)
    ∧ (slice (Client.process_msg_00 L cs cmsg cret).1.temp_handshake_buf
        (3 * L.sizeof_bigint) 32 = slice X 0 32
      ∧ slice (Client.process_msg_00 L cs cmsg cret).1.temp_handshake_buf
        (3 * L.sizeof_bigint + 32) 32 = slice X 32 32
      ∧ slice (Client.process_msg_00 L cs cmsg cret).1.temp_handshake_buf
        (3 * L.sizeof_bigint + 64) 32 = slice X 64 32
      ∧ slice (Client.process_msg_00 L cs cmsg cret).1.temp_handshake_buf
        (3 * L.sizeof_bigint + 96) 8
          = le_bytes 8 ((le_toNat (slice X 96 8) + 1) % 2 ^ 64)
      ∧ slice (Client.process_msg_00 L cs cmsg cret).1.temp_handshake_buf
        (3 * L.sizeof_bigint + 104) 4 = slice X 104 4) := by
  have hS : ∀ j, j < 108 → rd (Server.process_msg_00 L ss smsg rnd sret).temp_handshake_buf
      (4 * L.sizeof_bigint + j) = rd X j := fun j hj => by
    rw [(Server.process_msg_00_accept L ss smsg rnd sret hs_ok).2,
      Server.rd_scratch_keys L ss smsg rnd j (by omega) hj, hXs]
  have hC : ∀ j, j < 108 → rd (Client.scratch_keys L cs cmsg) (3 * L.sizeof_bigint + j)
      = rd X j := fun j hj => by
    rw [Client.rd_client_scratch_keys L cs cmsg j (by omega) hj, hXc]
  have hF : ∀ j, j < 96 → rd (Client.process_msg_00 L cs cmsg cret).1.temp_handshake_buf
      (3 * L.sizeof_bigint + j) = rd X j := fun j hj => by
    rw [(Client.process_msg_00_client_accept L cs cmsg cret hc_ok hc_auth).1,
      Client.rd_scratch_final L cs cmsg _ (by omega), hC j (by omega)]
  have hN : ∀ i, i < 12 → rd (Client.process_msg_00 L cs cmsg cret).1.temp_handshake_buf
      (3 * L.sizeof_bigint + 96 + i)
      = if i < 8 then rd (le_bytes 8 ((le_toNat (slice X 96 8) + 1) % 2 ^ 64)) i
        else rd X (96 + i) := fun i hi => by
    rw [(Client.process_msg_00_client_accept L cs cmsg cret hc_ok hc_auth).1,
      Client.rd_scratch_final_nonce L cs cmsg (by omega) i hi, hXc]
  refine ⟨⟨?_, ?_, ?_, ?_⟩, ⟨?_, ?_, ?_, ?_⟩, ⟨?_, ?_, ?_, ?_, ?_⟩⟩
  · exact slice_ext _ _ _ _ _ (fun i hi => by rw [hS i (by omega), Nat.zero_add])
  · exact slice_ext _ _ _ _ _ (fun i hi => by rw [Nat.add_assoc, hS (32 + i) (by omega)])
  · exact slice_ext _ _ _ _ _ (fun i hi => by rw [Nat.add_assoc, hS (64 + i) (by omega)])
  · exact slice_ext _ _ _ _ _ (fun i hi => by rw [Nat.add_assoc, hS (96 + i) (by omega)])
  · exact slice_ext _ _ _ _ _ (fun i hi => by rw [hC i (by omega), Nat.zero_add])
  · exact slice_ext _ _ _ _ _ (fun i hi => by rw [Nat.add_assoc, hC (32 + i) (by omega)])
  · exact slice_ext _ _ _ _ _ (fun i hi => by rw [Nat.add_assoc, hC (64 + i) (by omega)])
  · exact slice_ext _ _ _ _ _ (fun i hi => by rw [Nat.add_assoc, hC (96 + i) (by omega)])
  · exact slice_ext _ _ _ _ _ (fun i hi => by rw [hF i (by omega), Nat.zero_add])
  · exact slice_ext _ _ _ _ _ (fun i hi => by rw [Nat.add_assoc, hF (32 + i) (by omega)])
  · exact slice_ext _ _ _ _ _ (fun i hi => by rw [Nat.add_assoc, hF (64 + i) (by omega)])
  · apply bytes_ext
    · rw [length_slice, length_le_bytes]
    · intro i hi
      rw [length_slice] at hi
      rw [rd_slice, if_pos hi, hN i (by omega), if_pos hi]
  · exact slice_ext _ _ _ _ _ (fun i hi => by
      have e : 3 * L.sizeof_bigint + 104 + i = 3 * L.sizeof_bigint + 96 + (8 + i) := by omega
      have e2 : 96 + (8 + i) = 104 + i := by omega
      rw [e, hN (8 + i) (by omega), if_neg (by omega), e2])

/-- Instance of C11: the server after `packet_00 6` and the client after `reply_00 6`, which
both hold the shared secret of value 6; the instance reads off the stored `KAB`. -/
theorem handshake_slices_agree_witness :
    4 * sampleLib.sizeof_bigint + 108 ≤ TEMP_BUF_SIZ
    ∧ Server.sampleInit.temp_handshake_buf.length = TEMP_BUF_SIZ
    ∧ Client.sampleSent.temp_handshake_buf.length = TEMP_BUF_SIZ
    ∧ Server.rejects_A_s sampleLib Server.sampleInit (Server.packet_00 6) = false
    ∧ Client.rejects_B_s sampleLib Client.sampleSent (Client.reply_00 6) = false
    ∧ Client.auth_status sampleLib Client.sampleSent (Client.reply_00 6) = 1
    ∧ (Client.X_s sampleLib Client.sampleSent (Client.reply_00 6)).bits
        = (Server.X_s sampleLib Server.sampleInit (Server.packet_00 6) [1]).bits
    ∧ slice (Server.process_msg_00 sampleLib Server.sampleInit (Server.packet_00 6) [1]
          0).temp_handshake_buf (4 * sampleLib.sizeof_bigint) 32
        = slice (Server.X_s sampleLib Server.sampleInit (Server.packet_00 6) [1]).bits 0 32
    ∧ slice (Client.scratch_keys sampleLib Client.sampleSent (Client.reply_00 6))
          (3 * sampleLib.sizeof_bigint) 32
        = slice (Server.X_s sampleLib Server.sampleInit (Server.packet_00 6) [1]).bits
            0 32 := by
  have hcl : Client.sampleSent.temp_handshake_buf.length = TEMP_BUF_SIZ := by
    simp [Client.sampleSent, Client.construct_msg_00, Client.sampleInit, length_memcpy,
      length_zeros]
  have hsr := Server.rejects_A_s_sample_valid Server.sampleInit rfl rfl
  have hcr := Client.rejects_B_s_sample_six Client.sampleSent Client.sampleSent_fields.2.2.1
  have h := handshake_slices_agree sampleLib Server.sampleInit (Server.packet_00 6) [1] 0
    Client.sampleSent (Client.reply_00 6) 0 _ (by decide) (length_zeros _) hcl hsr hcr rfl rfl
    sample_shared_secret
  exact ⟨by decide, length_zeros _, hcl, hsr, hcr, rfl, sample_shared_secret, h.1.1, h.2.1.1⟩

/-! ### Both sides compute the same authenticator (C12) -/

theorem memcpy_zeros_self (src : Bytes) (n : Nat) (h : src.length = n) :
    memcpy (zeros n) 0 src = src := by
  apply bytes_ext
  · simp [length_memcpy, length_zeros, h]
  · intro i hi
    have hi2 : i < n := by simpa [length_memcpy, length_zeros] using hi
    simp [rd_memcpy, length_zeros, hi2, h]

namespace Client

theorem reply_01_eq (L : CryptoLib) (s : State) (msg_buf : Bytes) :
    reply_01 L s msg_buf
      = send_bytes (memcpy (reply_A_x L s msg_buf) (SMALL_FIELD_LEN + PUBKEY_LEN)
          (HMAC_output L (scratch_keys L s msg_buf) (reply_A_x L s msg_buf)))
          (SMALL_FIELD_LEN + PUBKEY_LEN + HMAC_TRUNC_BYTES) := rfl

theorem length_reply_A_x (L : CryptoLib) (s : State) (msg_buf : Bytes) :
    (reply_A_x L s msg_buf).length = 400 := by
  simp [reply_A_x, length_memcpy, length_zeros, SMALL_FIELD_LEN, PUBKEY_LEN, HMAC_TRUNC_BYTES]

theorem length_HMAC_output (L : CryptoLib) (buf reply_buf : Bytes) :
    (HMAC_output L buf reply_buf).length = 8 := by
  simp [HMAC_output, length_slice, HMAC_TRUNC_BYTES]

/-- Bytes `[8, 392)` of the packet sent are the ciphertext the authenticator was computed
over. -/
theorem rd_reply_01_A_x (L : CryptoLib) (s : State) (msg_buf : Bytes) (i : Nat)
    (hi : i < 384) : rd (reply_01 L s msg_buf) (8 + i) = rd (reply_A_x L s msg_buf) (8 + i) := by
  rw [reply_01_eq]
  unfold send_bytes
  rw [Server.rd_take, if_pos (by unfold SMALL_FIELD_LEN PUBKEY_LEN HMAC_TRUNC_BYTES; omega)]
  exact rd_memcpy_out _ _ _ _ (by left; unfold SMALL_FIELD_LEN PUBKEY_LEN; omega)

/-- Bytes `[392, 400)` of the packet sent are the authenticator. -/
theorem rd_reply_01_hmac (L : CryptoLib) (s : State) (msg_buf : Bytes) (i : Nat)
    (hi : i < 8) :
    rd (reply_01 L s msg_buf) (392 + i)
      = rd (HMAC_output L (scratch_keys L s msg_buf) (reply_A_x L s msg_buf)) i := by
  rw [reply_01_eq]
  unfold send_bytes
  rw [Server.rd_take, if_pos (by unfold SMALL_FIELD_LEN PUBKEY_LEN HMAC_TRUNC_BYTES; omega),
    rd_memcpy_in _ _ _ _ (by unfold SMALL_FIELD_LEN PUBKEY_LEN; omega)
      (by rw [length_HMAC_output]; unfold SMALL_FIELD_LEN PUBKEY_LEN; omega)
      (by rw [length_reply_A_x]; omega)]
  congr 1
  unfold SMALL_FIELD_LEN PUBKEY_LEN
  omega

end Client

/-- The server's recomputation and the client's computation are the same function of the
32 key bytes and the 384 ciphertext bytes. -/
theorem HMAC_output_eq (L : CryptoLib) (sbuf smsg cbuf creply : Bytes)
    (hK : slice sbuf (4 * L.sizeof_bigint) 32 = slice cbuf (3 * L.sizeof_bigint) 32)
    (hA : slice smsg 16 384 = slice creply 8 384) :
    Server.HMAC_output L sbuf smsg = Client.HMAC_output L cbuf creply := by
  unfold Server.HMAC_output Client.HMAC_output
  simp only [MAGIC_LEN, PUBKEY_LEN, Client.SESSION_KEY_LEN, Client.SMALL_FIELD_LEN,
    Client.HMAC_TRUNC_BYTES, Nat.reduceMul, Nat.reduceSub, Nat.reduceAdd]
  rw [hK, hA]
  exact memcpy_zeros_self _ _ (length_slice _ _ _)

/-- C12. When the server's scratch region holds the key `KAB` the client used and the packet
the server examines carries, at the server's offsets, the ciphertext `A_x` and the 8
authenticator bytes of the packet the client built, the HMAC the server recomputes in
`process_msg_01` equals the client's authenticator and the byte-wise comparison finds no
difference. -/
theorem authenticator_agrees (L : CryptoLib) (cs : Client.State) (cmsg : Bytes)
    (scratch msg_buf : Bytes)
    (hK : slice scratch (4 * L.sizeof_bigint) 32
      = slice (Client.scratch_keys L cs cmsg) (3 * L.sizeof_bigint) 32)
    (hA : slice msg_buf 16 384 = slice (Client.reply_01 L cs cmsg) 8 384)
    (hH : slice msg_buf 400 8 = slice (Client.reply_01 L cs cmsg) 392 8) :
    Server.HMAC_output L scratch msg_buf = slice (Client.reply_01 L cs cmsg) 392 8
    ∧ Server.hmac_mismatch L scratch msg_buf = false := by
  have hA2 : slice msg_buf 16 384 = slice (Client.reply_A_x L cs cmsg) 8 384 := by
    rw [hA]
    exact slice_ext _ _ _ _ _ (fun i hi => Client.rd_reply_01_A_x L cs cmsg i hi)
  have hc : slice (Client.reply_01 L cs cmsg) 392 8
      = Client.HMAC_output L (Client.scratch_keys L cs cmsg) (Client.reply_A_x L cs cmsg) := by
    apply bytes_ext
    · rw [length_slice, Client.length_HMAC_output]
    · intro i hi
      rw [length_slice] at hi
      rw [rd_slice, if_pos hi, Client.rd_reply_01_hmac L cs cmsg i hi]
  have heq := HMAC_output_eq L scratch msg_buf _ _ hK hA2
  refine ⟨by rw [heq, hc], ?_⟩
  unfold Server.hmac_mismatch
  rw [List.any_eq_false]
  intro i hi
  have hi8 : i < 8 := List.mem_range.1 hi
  have h1 : rd msg_buf (PUBKEY_LEN + 2 * MAGIC_LEN + i) = rd (slice msg_buf 400 8) i := by
    rw [rd_slice, if_pos hi8]
    congr 1
  rw [h1, hH, heq, ← hc]
  simp

theorem sample_KAB_agree :
    slice Server.sampleInFlight.temp_handshake_buf (4 * sampleLib.sizeof_bigint) 32
      = slice (Client.scratch_keys sampleLib Client.sampleSent (Client.reply_00 6))
          (3 * sampleLib.sizeof_bigint) 32 := by
  have hcl : Client.sampleSent.temp_handshake_buf.length = TEMP_BUF_SIZ := by
    simp [Client.sampleSent, Client.construct_msg_00, Client.sampleInit, length_memcpy,
      length_zeros]
  have hsl : Server.sampleInit.temp_handshake_buf.length = TEMP_BUF_SIZ := length_zeros _
  have hacc := Server.process_msg_00_accept sampleLib Server.sampleInit (Server.packet_00 6)
    [1] 0 (Server.rejects_A_s_sample_valid Server.sampleInit rfl rfl)
  have h24 : sampleLib.sizeof_bigint = 24 := rfl
  have hT : TEMP_BUF_SIZ = 16384 := rfl
  apply slice_ext
  intro i hi
  unfold Server.sampleInFlight
  rw [hacc.2, Server.rd_scratch_keys sampleLib _ _ _ i (by omega) (by omega),
    Client.rd_client_scratch_keys sampleLib _ _ i (by omega) (by omega), sample_shared_secret]

theorem slice_packet_01_of (reply : Bytes) :
    slice (Server.packet_01_of reply) 16 384 = slice reply 8 384
    ∧ slice (Server.packet_01_of reply) 400 8 = slice reply 392 8 := by
  constructor
  · apply slice_ext
    intro i hi
    unfold Server.packet_01_of
    rw [rd_memcpy_out _ _ _ _ (by left; omega),
      rd_memcpy_in _ _ _ _ (by omega) (by rw [length_slice]; omega)
        (by simp only [length_memcpy, length_zeros]; omega),
      rd_slice, if_pos (by omega)]
    congr 1; omega
  · apply slice_ext
    intro i hi
    unfold Server.packet_01_of
    rw [rd_memcpy_in _ _ _ _ (by omega) (by rw [length_slice]; omega)
        (by simp only [length_memcpy, length_zeros]; omega),
      rd_slice, if_pos (by omega)]
    congr 1; omega

/-- Instance of C12: the server after `packet_00 6`, the client after `reply_00 6`, and the
client's packet laid out as the server reads it. -/
theorem authenticator_agrees_witness :
    slice Server.sampleInFlight.temp_handshake_buf (4 * sampleLib.sizeof_bigint) 32
      = slice (Client.scratch_keys sampleLib Client.sampleSent (Client.reply_00 6))
          (3 * sampleLib.sizeof_bigint) 32
    ∧ slice (Server.packet_01_of
          (Client.reply_01 sampleLib Client.sampleSent (Client.reply_00 6))) 16 384
        = slice (Client.reply_01 sampleLib Client.sampleSent (Client.reply_00 6)) 8 384
    ∧ slice (Server.packet_01_of
          (Client.reply_01 sampleLib Client.sampleSent (Client.reply_00 6))) 400 8
        = slice (Client.reply_01 sampleLib Client.sampleSent (Client.reply_00 6)) 392 8
    ∧ Server.hmac_mismatch sampleLib Server.sampleInFlight.temp_handshake_buf
        (Server.packet_01_of
          (Client.reply_01 sampleLib Client.sampleSent (Client.reply_00 6))) = false :=
  ⟨sample_KAB_agree, (slice_packet_01_of _).1, (slice_packet_01_of _).2,
    (authenticator_agrees sampleLib Client.sampleSent (Client.reply_00 6)
      Server.sampleInFlight.temp_handshake_buf _ sample_KAB_agree
      (slice_packet_01_of _).1 (slice_packet_01_of _).2).2⟩

/-! ### The client's login packets and the dispatcher's length test (C15) -/

theorem le_bytes_succ (n v : Nat) :
    le_bytes (n + 1) v = (v % 256) :: le_bytes n (v / 256) := by
  unfold le_bytes
  rw [List.range_succ_eq_map, List.map_cons, List.map_map]
  congr 1
  · simp
  · apply List.map_congr_left
    intro i _
    simp only [Function.comp, Nat.succ_eq_add_one]
    rw [pow_succ, Nat.mul_comm, Nat.div_div_eq_div_mul]

theorem le_toNat_le_bytes (n v : Nat) : le_toNat (le_bytes n v) = v % 256 ^ n := by
  induction n generalizing v with
  | zero => simp [le_bytes, le_toNat, Nat.mod_one]
  | succ n ih =>
    rw [le_bytes_succ, le_toNat, ih, pow_succ, Nat.mul_comm (256 ^ n) 256,
      Nat.mod_mul (a := 256) (b := 256 ^ n)]

theorem Client.construct_msg_00_sent (L : CryptoLib) (s : Client.State) (rnd : Bytes)
    (send_ret : Int) :
    (Client.construct_msg_00 L s rnd send_ret).1.sent = s.sent ++ [Client.msg_00 L s rnd] := by
  unfold Client.construct_msg_00 Client.msg_00
  by_cases h : send_ret = -1 <;> simp [h]

theorem Client.rd_msg_00_sample (i : Nat) :
    rd (Client.msg_00 sampleLib Client.sampleInit [9]) i =
      if i < 8 then PACKET_ID_00 / 256 ^ i % 256 else if i = 8 then 4 else 0 := by
  simp only [Client.msg_00, sampleLib, send_bytes, Server.rd_take, rd_memcpy, length_memcpy,
    length_zeros, rd_slice, length_slice, rd_zeros, rd_le_bytes, length_le_bytes, small,
    SMALL_FIELD_LEN, PUBKEY_LEN]
  by_cases h8 : i < 8
  · have : i < 8 + 384 := by omega
    have h2 : ¬ (8 ≤ i) := by omega
    simp [h8, this, h2]
  · by_cases he : i = 8
    · subst he; simp [rd]
    · by_cases hl : i < 8 + 384
      · have h3 : 8 ≤ i := by omega
        have h4 : i - 8 < 384 := by omega
        have h5 : ¬ (i - 8 = 0) := by omega
        have h6 : [4].length ≤ i - 8 := by simp; omega
        simp [h8, he, hl, h3, h4, rd_of_length_le h6]
      · simp [h8, he, hl]


theorem rd_recv_buf (data : Bytes) (h : data.length ≤ MAX_MSG_LEN) (i : Nat) :
    rd (memcpy (zeros MAX_MSG_LEN) 0 (data.take MAX_MSG_LEN)) i = rd data i := by
  rw [List.take_of_length_le h, rd_memcpy, length_zeros, rd_zeros]
  by_cases h1 : i < data.length
  · have h2 : i < MAX_MSG_LEN := by omega
    simp [h1, h2]
  · have h3 : data.length ≤ i := by omega
    simp [h1, rd_of_length_le h3]

theorem Server.read_u64_recv_buf (data : Bytes) (h : data.length ≤ MAX_MSG_LEN) (off : Nat) :
    Server.read_u64 (memcpy (zeros MAX_MSG_LEN) 0 (data.take MAX_MSG_LEN)) off
      = Server.read_u64 data off := by
  unfold Server.read_u64
  congr 2
  apply slice_ext
  intro i _
  exact rd_recv_buf data h _

theorem Server.read_u64_of_rd (buf : Bytes) (off v : Nat) (hv : v < 2 ^ 64)
    (h : ∀ i, i < 8 → rd buf (off + i) = v / 256 ^ i % 256) :
    Server.read_u64 buf off = v := by
  unfold Server.read_u64
  rw [Server.slice_eq_le_bytes buf off v h, le_toNat_le_bytes]
  have : (256 : Nat) ^ 8 = 2 ^ 64 := by norm_num
  rw [this, Nat.mod_mod, Nat.mod_eq_of_lt hv]

/-- A packet whose length differs from the one the dispatcher computes from the field at
offset 8 reaches no handler. -/
theorem Server.process_new_message_length_mismatch (L : CryptoLib) (s : Server.State)
    (data rnd after_ix : Bytes) (send_ret : Int) (h : data.length ≤ MAX_MSG_LEN)
    (h0 : data.length ≠ (16 + Server.read_u64 data 8) % 2 ^ 64)
    (h1 : data.length ≠ (16 + Server.read_u64 data 8 + 8) % 2 ^ 64) :
    Server.process_new_message L s (some data) rnd after_ix send_ret = s := by
  have e : ∀ off, Server.read_u64 (memcpy (zeros MAX_MSG_LEN) 0 data) off
      = Server.read_u64 data off := by
    intro off
    have := Server.read_u64_recv_buf data h off
    rwa [List.take_of_length_le h] at this
  by_cases h8 : data.length < 8
  · simp only [Server.process_new_message, List.take_of_length_le h, if_pos h8]
  · by_cases hm0 : Server.read_u64 data 0 = MAGIC_00
    · simp only [Server.process_new_message, List.take_of_length_le h, e, if_neg h8,
        if_pos hm0, if_pos h0]
    · by_cases hm1 : Server.read_u64 data 0 = MAGIC_01
      · simp only [Server.process_new_message, List.take_of_length_le h, e, if_neg h8,
          if_neg hm0, if_pos hm1, if_pos h1]
      · simp only [Server.process_new_message, List.take_of_length_le h, e, if_neg h8,
          if_neg hm0, if_neg hm1]


theorem Client.length_msg_00 (L : CryptoLib) (s : Client.State) (rnd : Bytes) :
    (Client.msg_00 L s rnd).length = 392 := by
  simp [Client.msg_00, send_bytes, length_memcpy, length_zeros, SMALL_FIELD_LEN, PUBKEY_LEN]

theorem Client.rd_reply_01_sample (s : Client.State) (msg_buf : Bytes) (i : Nat) (hi : i < 8)
    (hk : s.own_pubkey = small 6) :
    rd (Client.reply_01 sampleLib s msg_buf) (8 + i) = 6 / 256 ^ i % 256 := by
  rw [Client.rd_reply_01_A_x _ _ _ _ (by omega)]
  unfold Client.reply_A_x
  rw [rd_memcpy_in _ _ _ _ (by unfold SMALL_FIELD_LEN; omega)
    (by rw [length_slice]; unfold SMALL_FIELD_LEN PUBKEY_LEN; omega)
    (by simp only [length_memcpy, length_zeros]; unfold SMALL_FIELD_LEN PUBKEY_LEN; omega)]
  have e : 8 + i - SMALL_FIELD_LEN = i := by unfold SMALL_FIELD_LEN; omega
  rw [e, hk]
  simp only [sampleLib, rd_slice, small, PUBKEY_LEN]
  have h384 : i < 384 := by omega
  simp only [h384, if_true, Nat.zero_add]
  interval_cases i <;> rfl


/-- C15, as the code behaves. The packets the client sends during login are
dropped by the server's dispatcher. The 392-byte MAGIC_00 packet carries the key right after
the packet id, so the dispatcher reads the key's first eight bytes (value 4 here) as
`pubkey_len` and expects 20 bytes; the 400-byte MAGIC_01 packet likewise yields the
expected size 30 from the ciphertext's first eight bytes (value 6). In both cases the server
state stays as it was, and the key byte the client wrote at offset 8 lies outside the bytes
from offset 16 on that the handlers read. -/
theorem client_login_packets_dropped_by_dispatcher :
    Client.sampleSent.sent = [Client.msg_00 sampleLib Client.sampleInit [9]]
    ∧ (Client.msg_00 sampleLib Client.sampleInit [9]).length = 392
    ∧ Server.read_u64 (Client.msg_00 sampleLib Client.sampleInit [9]) 0 = MAGIC_00
    ∧ Server.read_u64 (Client.msg_00 sampleLib Client.sampleInit [9]) 8 = 4
    ∧ rd (Client.msg_00 sampleLib Client.sampleInit [9]) 16 = 0
    ∧ Server.process_new_message sampleLib Server.sampleInit
        (some (Client.msg_00 sampleLib Client.sampleInit [9])) [1] [] 0 = Server.sampleInit
    ∧ (Client.process_msg_00 sampleLib Client.sampleSent (Client.reply_00 6) 0).1.sent
        = [Client.msg_00 sampleLib Client.sampleInit [9],
            Client.reply_01 sampleLib Client.sampleSent (Client.reply_00 6)]
    ∧ (Client.reply_01 sampleLib Client.sampleSent (Client.reply_00 6)).length = 400
    ∧ Server.read_u64 (Client.reply_01 sampleLib Client.sampleSent (Client.reply_00 6)) 0
        = MAGIC_01
    ∧ Server.read_u64 (Client.reply_01 sampleLib Client.sampleSent (Client.reply_00 6)) 8 = 6
    ∧ Server.process_new_message sampleLib Server.sampleInFlight
        (some (Client.reply_01 sampleLib Client.sampleSent (Client.reply_00 6))) [] [] 0
        = Server.sampleInFlight := by
  have hs : Client.sampleSent.sent = [Client.msg_00 sampleLib Client.sampleInit [9]] :=
    Client.construct_msg_00_sent sampleLib Client.sampleInit [9] 0
  have hl0 := Client.length_msg_00 sampleLib Client.sampleInit [9]
  have hm0 : Server.read_u64 (Client.msg_00 sampleLib Client.sampleInit [9]) 0 = MAGIC_00 := by
    apply Server.read_u64_of_rd _ _ _ (by decide)
    intro i hi
    rw [Client.rd_msg_00_sample, Nat.zero_add, if_pos hi]
    rfl
  have hf0 : Server.read_u64 (Client.msg_00 sampleLib Client.sampleInit [9]) 8 = 4 := by
    apply Server.read_u64_of_rd _ _ _ (by decide)
    intro i hi
    rw [Client.rd_msg_00_sample]
    interval_cases i <;> rfl
  have h16 : rd (Client.msg_00 sampleLib Client.sampleInit [9]) 16 = 0 := by
    rw [Client.rd_msg_00_sample]; rfl
  have hl1 : (Client.reply_01 sampleLib Client.sampleSent (Client.reply_00 6)).length = 400 :=
    Client.length_reply_01 _ _ _
  have hm1 : Server.read_u64 (Client.reply_01 sampleLib Client.sampleSent (Client.reply_00 6)) 0
      = MAGIC_01 := by
    apply Server.read_u64_of_rd _ _ _ (by decide)
    intro i hi
    rw [Nat.zero_add, Client.rd_reply_01_magic _ _ _ _ hi]
    rfl
  have hf1 : Server.read_u64 (Client.reply_01 sampleLib Client.sampleSent (Client.reply_00 6)) 8
      = 6 := by
    apply Server.read_u64_of_rd _ _ _ (by decide)
    intro i hi
    exact Client.rd_reply_01_sample _ _ i hi rfl
  have hacc := Client.process_msg_00_client_accept sampleLib Client.sampleSent (Client.reply_00 6) 0
    (Client.rejects_B_s_sample_six Client.sampleSent Client.sampleSent_fields.2.2.1) rfl
  refine ⟨hs, hl0, hm0, hf0, h16, ?_, ?_, hl1, hm1, hf1, ?_⟩
  · apply Server.process_new_message_length_mismatch
    · rw [hl0]; decide
    · rw [hl0, hf0]; decide
    · rw [hl0, hf0]; decide
  · rw [hacc.2, hs]; rfl
  · apply Server.process_new_message_length_mismatch
    · rw [hl1]; decide
    · rw [hl1, hf1]; decide
    · rw [hl1, hf1]; decide


/-! ### Session keys and base nonce after `self_init` (C16) -/

theorem bigint_compare2_eq_three (a b : bigint) :
    bigint_compare2 a b = 3 ↔ a.toNat < b.toNat := by
  unfold bigint_compare2
  by_cases h1 : b.toNat < a.toNat
  · simp [h1]; omega
  · by_cases h2 : a.toNat = b.toNat
    · simp [h1, h2]
    · simp [h1, h2]; omega

theorem rd_cons_succ (x : Nat) (xs : Bytes) (i : Nat) : rd (x :: xs) (i + 1) = rd xs i := by
  simp [rd]

theorem le_toNat_eq_of_rd (a b : Bytes) (h : ∀ i, rd a i = rd b i) :
    le_toNat a = le_toNat b := by
  induction a generalizing b with
  | nil =>
    have hb : ∀ i, rd b i = 0 := fun i => by rw [← h i]; simp [rd]
    rw [le_toNat_zero_of_rd b hb]; rfl
  | cons x xs ih =>
    cases b with
    | nil =>
      have ha : ∀ i, rd (x :: xs) i = 0 := fun i => by rw [h i]; simp [rd]
      rw [le_toNat_zero_of_rd _ ha]; rfl
    | cons y ys =>
      have h0 : x = y := by simpa [rd] using h 0
      have hs : ∀ i, rd xs i = rd ys i := fun i => by
        rw [← rd_cons_succ x xs i, ← rd_cons_succ y ys i]; exact h (i + 1)
      simp [le_toNat, h0, ih ys hs]

/-- C16. After the session-key block of `self_init`, with `S` the buffer of
`server_pubkey ^ own_privkey mod M`: when `own_pubkey < server_pubkey` the pointer `KAB`
addresses `S[32..64)` and `KBA` addresses `S[0..32)`, otherwise `KAB` addresses `S[0..32)`
and `KBA` addresses `S[32..64)`; in both cases the first 16 bytes of `nonce_bigint` are
`S[64..80)`, and the integer it holds is their little-endian value. -/
theorem self_init_session_key_roles (L : CryptoLib) (s : Client.State) :
    (Client.self_init_session_keys L s).server_shared_secret
        = L.MONT_POW_modM (L.Get_Mont_Form s.server_pubkey s.M) s.own_privkey s.M
    ∧ Client.KAB_bytes (Client.self_init_session_keys L s)
        = (if s.own_pubkey.toNat < s.server_pubkey.toNat
            then slice (L.MONT_POW_modM (L.Get_Mont_Form s.server_pubkey s.M)
              s.own_privkey s.M).bits 32 32
            else slice (L.MONT_POW_modM (L.Get_Mont_Form s.server_pubkey s.M)
              s.own_privkey s.M).bits 0 32)
    ∧ Client.KBA_bytes (Client.self_init_session_keys L s)
        = (if s.own_pubkey.toNat < s.server_pubkey.toNat
            then slice (L.MONT_POW_modM (L.Get_Mont_Form s.server_pubkey s.M)
              s.own_privkey s.M).bits 0 32
            else slice (L.MONT_POW_modM (L.Get_Mont_Form s.server_pubkey s.M)
              s.own_privkey s.M).bits 32 32)
    ∧ slice (Client.self_init_session_keys L s).nonce_bigint.bits 0 16
        = slice (L.MONT_POW_modM (L.Get_Mont_Form s.server_pubkey s.M)
            s.own_privkey s.M).bits 64 16
    ∧ (Client.self_init_session_keys L s).nonce_bigint.toNat
        = le_toNat (slice (L.MONT_POW_modM (L.Get_Mont_Form s.server_pubkey s.M)
            s.own_privkey s.M).bits 64 16) := by
  have hnonce : ∀ i, rd (Client.self_init_session_keys L s).nonce_bigint.bits i
      = rd (slice (L.MONT_POW_modM (L.Get_Mont_Form s.server_pubkey s.M)
            s.own_privkey s.M).bits 64 16) i := by
    intro i
    simp only [Client.self_init_session_keys, rd_memcpy, length_zeros, length_slice, rd_zeros,
      rd_slice, Client.SESSION_KEY_LEN, Client.LONG_NONCE_LEN, MAX_BIGINT_SIZ]
    by_cases h16 : i < 16
    · have h1 : i < 12800 / 8 := by omega
      simp [h16, h1]
    · simp [h16]
  refine ⟨rfl, ?_, ?_, ?_, ?_⟩
  · by_cases h : s.own_pubkey.toNat < s.server_pubkey.toNat
    · simp [Client.KAB_bytes, Client.self_init_session_keys, (bigint_compare2_eq_three _ _).2 h,
        h, Client.SESSION_KEY_LEN]
    · have h3 : ¬ bigint_compare2 s.own_pubkey s.server_pubkey = 3 :=
        fun e => h ((bigint_compare2_eq_three _ _).1 e)
      simp [Client.KAB_bytes, Client.self_init_session_keys, h3, h, Client.SESSION_KEY_LEN]
  · by_cases h : s.own_pubkey.toNat < s.server_pubkey.toNat
    · simp [Client.KBA_bytes, Client.self_init_session_keys, (bigint_compare2_eq_three _ _).2 h,
        h, Client.SESSION_KEY_LEN]
    · have h3 : ¬ bigint_compare2 s.own_pubkey s.server_pubkey = 3 :=
        fun e => h ((bigint_compare2_eq_three _ _).1 e)
      simp [Client.KBA_bytes, Client.self_init_session_keys, h3, h, Client.SESSION_KEY_LEN]
  · apply slice_ext
    intro i hi
    rw [Nat.zero_add, hnonce, rd_slice, if_pos hi]
  · exact le_toNat_eq_of_rd _ _ hnonce


/-! ### The index the server encrypts and the index the client stores (C14) -/

theorem toyLib_sizeof_bigint : toyLib.sizeof_bigint = sampleLib.sizeof_bigint := rfl
theorem toyLib_struct_image : toyLib.struct_image = sampleLib.struct_image := rfl
theorem toyLib_load_bigint : toyLib.load_bigint = sampleLib.load_bigint := rfl
theorem toyLib_get_used_bits : toyLib.get_used_bits = sampleLib.get_used_bits := rfl
theorem toyLib_Get_Mont_Form : toyLib.Get_Mont_Form = sampleLib.Get_Mont_Form := rfl
theorem toyLib_check_pubkey_form : toyLib.check_pubkey_form = sampleLib.check_pubkey_form := rfl
theorem toyLib_gen_pub_key : toyLib.gen_pub_key = sampleLib.gen_pub_key := rfl
theorem toyLib_MONT_POW_modM : toyLib.MONT_POW_modM = sampleLib.MONT_POW_modM := rfl
theorem toyLib_Signature_GENERATE :
    toyLib.Signature_GENERATE = sampleLib.Signature_GENERATE := rfl
theorem toyLib_Signature_VALIDATE :
    toyLib.Signature_VALIDATE = sampleLib.Signature_VALIDATE := rfl
theorem toyLib_BLAKE2B_INIT : toyLib.BLAKE2B_INIT = sampleLib.BLAKE2B_INIT := rfl
theorem toyLib_CHACHA20 (text : Bytes) (n : Nat) (nonce : Bytes) (nw : Nat) (key : Bytes)
    (kw : Nat) :
    toyLib.CHACHA20 text n nonce nw key kw
      = text.map fun x => x ^^^ ((rd nonce 0 + rd key 0) % 256) := rfl

theorem Server.rejects_A_s_toy (s : Server.State) (msg_buf : Bytes) :
    Server.rejects_A_s toyLib s msg_buf = Server.rejects_A_s sampleLib s msg_buf := by
  simp only [Server.rejects_A_s, Server.parse_A_s, toyLib_get_used_bits, toyLib_Get_Mont_Form,
    toyLib_check_pubkey_form]

theorem Server.X_s_toy (s : Server.State) (msg_buf rnd : Bytes) :
    Server.X_s toyLib s msg_buf rnd = Server.X_s sampleLib s msg_buf rnd := by
  simp only [Server.X_s, Server.scratch_A_s, Server.parse_A_s, toyLib_get_used_bits,
    toyLib_Get_Mont_Form, toyLib_MONT_POW_modM, toyLib_load_bigint, toyLib_sizeof_bigint,
    toyLib_struct_image]

theorem Client.toySent_eq : Client.toySent = Client.sampleSent := by
  simp only [Client.toySent, Client.sampleSent, Client.construct_msg_00, toyLib_get_used_bits,
    toyLib_gen_pub_key, toyLib_sizeof_bigint, toyLib_struct_image]

theorem Client.rejects_B_s_toy (s : Client.State) (msg_buf : Bytes) :
    Client.rejects_B_s toyLib s msg_buf = Client.rejects_B_s sampleLib s msg_buf := by
  simp only [Client.rejects_B_s, Client.parse_B_s, toyLib_get_used_bits]

theorem Client.client_X_s_toy (s : Client.State) (msg_buf : Bytes) :
    Client.X_s toyLib s msg_buf = Client.X_s sampleLib s msg_buf := by
  simp only [Client.X_s, Client.parse_B_s, toyLib_get_used_bits, toyLib_Get_Mont_Form,
    toyLib_MONT_POW_modM, toyLib_load_bigint, toyLib_sizeof_bigint]

theorem Client.auth_status_toy (s : Client.State) (msg_buf : Bytes) :
    Client.auth_status toyLib s msg_buf = 1 := by
  simp only [Client.auth_status, Client.authenticate_server, toyLib_Signature_VALIDATE]
  rfl


theorem Server.rd_X_s_sample (j : Nat) :
    rd (Server.X_s sampleLib Server.sampleInit (Server.packet_00 6) [1]).bits j
      = if j = 0 then 6 else 0 := by
  rw [bits_server_X_s_sample]
  have h8 : rd (Server.packet_00 6) 8 = 1 := rfl
  rw [h8, rd_memcpy, length_zeros, rd_zeros, length_slice, rd_slice]
  by_cases h0 : j = 0
  · subst h0
    simp [MAX_BIGINT_SIZ]
    rfl
  · have h1 : ¬ (j < 0 + 1) := by omega
    simp [h0, h1]

theorem Client.length_sampleSent_scratch :
    Client.sampleSent.temp_handshake_buf.length = TEMP_BUF_SIZ := by
  simp [Client.sampleSent, Client.construct_msg_00, Client.sampleInit, length_memcpy,
    length_zeros]

/-- Counterexample to C11 as stated. The server after `packet_00 6` and the client after
`reply_00 6` hold the same shared secret, whose bytes `X[96..108)` are zero, and the server's
scratch region holds that nonce; but when the client's `process_msg_00` has returned, the
twelve nonce bytes in its scratch region, which `process_msg_01` reads, are those of the
value 1. -/
theorem client_nonce_incremented_before_msg_01 :
    (Client.X_s sampleLib Client.sampleSent (Client.reply_00 6)).bits
        = (Server.X_s sampleLib Server.sampleInit (Server.packet_00 6) [1]).bits
    ∧ slice (Server.X_s sampleLib Server.sampleInit (Server.packet_00 6) [1]).bits 96 12
        = zeros 12
    ∧ slice (Server.process_msg_00 sampleLib Server.sampleInit (Server.packet_00 6) [1]
          0).temp_handshake_buf (4 * sampleLib.sizeof_bigint + 96) 12 = zeros 12
    ∧ slice (Client.process_msg_00 sampleLib Client.sampleSent (Client.reply_00 6)
          0).1.temp_handshake_buf (3 * sampleLib.sizeof_bigint + 96) 12 = le_bytes 12 1 := by
  have hsr := Server.rejects_A_s_sample_valid Server.sampleInit rfl rfl
  have hcr := Client.rejects_B_s_sample_six Client.sampleSent Client.sampleSent_fields.2.2.1
  have hT : TEMP_BUF_SIZ = 16384 := rfl
  have h24 : sampleLib.sizeof_bigint = 24 := rfl
  have hv : le_toNat (slice (Client.X_s sampleLib Client.sampleSent (Client.reply_00 6)).bits
      96 8) = 0 := by
    apply le_toNat_zero_of_rd
    intro i
    rw [sample_shared_secret, rd_slice]
    by_cases hi : i < 8
    · rw [if_pos hi, Server.rd_X_s_sample, if_neg (by omega)]
    · rw [if_neg hi]
  refine ⟨sample_shared_secret, ?_, ?_, ?_⟩
  · apply bytes_ext
    · rw [length_slice, length_zeros]
    · intro i hi
      rw [length_slice] at hi
      rw [rd_slice, if_pos hi, Server.rd_X_s_sample, if_neg (by omega), rd_zeros]
  · apply bytes_ext
    · rw [length_slice, length_zeros]
    · intro i hi
      rw [length_slice] at hi
      rw [rd_slice, if_pos hi, (Server.process_msg_00_accept sampleLib Server.sampleInit
          (Server.packet_00 6) [1] 0 hsr).2, Nat.add_assoc,
        Server.rd_scratch_keys sampleLib Server.sampleInit (Server.packet_00 6) [1] (96 + i)
          (by rw [show Server.sampleInit.temp_handshake_buf.length = TEMP_BUF_SIZ from
            length_zeros _, hT, h24]; omega) (by omega),
        Server.rd_X_s_sample, if_neg (by omega), rd_zeros]
  · apply bytes_ext
    · rw [length_slice, length_le_bytes]
    · intro i hi
      rw [length_slice] at hi
      rw [rd_slice, if_pos hi,
        (Client.process_msg_00_client_accept sampleLib Client.sampleSent (Client.reply_00 6) 0
          hcr rfl).1,
        Client.rd_scratch_final_nonce sampleLib Client.sampleSent (Client.reply_00 6)
          (by rw [Client.length_sampleSent_scratch, hT, h24]; omega) i hi, hv]
      by_cases h8 : i < 8
      · rw [if_pos h8, rd_le_bytes, rd_le_bytes, if_pos h8, if_pos hi]
        rfl
      · rw [if_neg h8, sample_shared_secret, Server.rd_X_s_sample, if_neg (by omega),
          rd_le_bytes, if_pos hi]
        have : 1 / 256 ^ i = 0 := Nat.div_eq_of_lt (Nat.one_lt_pow (by omega) (by decide))
        rw [this]

/-- Bytes of the server's scratch region from the key block on, in the run with `toyLib`:
the shared secret of value 6. -/
theorem Server.rd_toyInFlight_keys (j : Nat) (hj : j < 108) :
    rd Server.toyInFlight.temp_handshake_buf (4 * toyLib.sizeof_bigint + j)
      = if j = 0 then 6 else 0 := by
  have hr : Server.rejects_A_s toyLib Server.sampleInit (Server.packet_00 6) = false := by
    rw [Server.rejects_A_s_toy]
    exact Server.rejects_A_s_sample_valid Server.sampleInit rfl rfl
  have hl : Server.sampleInit.temp_handshake_buf.length = TEMP_BUF_SIZ := length_zeros _
  have h24 : toyLib.sizeof_bigint = 24 := rfl
  have hT : TEMP_BUF_SIZ = 16384 := rfl
  unfold Server.toyInFlight
  rw [(Server.process_msg_00_accept toyLib _ _ _ 0 hr).2,
    Server.rd_scratch_keys toyLib _ _ _ j (by omega) hj, Server.X_s_toy,
    Server.rd_X_s_sample]

/-- Bytes of the client's scratch region from the key block on, before the nonce is
incremented, in the run with `toyLib`: the same shared secret. -/
theorem Client.rd_toy_scratch_keys (j : Nat) (hj : j < 108) :
    rd (Client.scratch_keys toyLib Client.toySent (Client.reply_00 6))
        (3 * toyLib.sizeof_bigint + j)
      = if j = 0 then 6 else 0 := by
  have hl := Client.length_sampleSent_scratch
  have h24 : toyLib.sizeof_bigint = 24 := rfl
  have hT : TEMP_BUF_SIZ = 16384 := rfl
  rw [Client.rd_client_scratch_keys toyLib _ _ j (by rw [Client.toySent_eq]; omega) hj,
    Client.client_X_s_toy, Client.toySent_eq, sample_shared_secret, Server.rd_X_s_sample]


theorem Server.check_pubkey_exists_empty (s : Server.State) (key : Bytes)
    (h : s.clients_status_bitmask = 0) :
    Server.check_pubkey_exists s key PUBKEY_LEN = 0 := by
  have hany : ((List.range MAX_CLIENTS).any fun i =>
      Server.occupied s.clients_status_bitmask i
      && ((Server.client_at s i).pubkey_siz_bytes == PUBKEY_LEN)
      && (slice key 0 PUBKEY_LEN == slice (Server.client_at s i).client_pubkey 0 PUBKEY_LEN))
      = false := by
    rw [List.any_eq_false]
    intro i _
    simp [Server.occupied, h]
  have h300 : ¬ (PUBKEY_LEN < 300) := by decide
  unfold Server.check_pubkey_exists
  rw [if_neg h300, hany]
  rfl

/-- The comparison loop finds no difference on a packet that carries, at the server's
offsets, the ciphertext and the authenticator of the packet the client built. -/
theorem hmac_mismatch_repacked (L : CryptoLib) (cs : Client.State) (cmsg scratch : Bytes)
    (hK : slice scratch (4 * L.sizeof_bigint) 32
      = slice (Client.scratch_keys L cs cmsg) (3 * L.sizeof_bigint) 32) :
    Server.hmac_mismatch L scratch (Server.packet_01_of (Client.reply_01 L cs cmsg))
      = false := by
  have hA := (slice_packet_01_of (Client.reply_01 L cs cmsg)).1
  have hH := (slice_packet_01_of (Client.reply_01 L cs cmsg)).2
  have hA2 : slice (Server.packet_01_of (Client.reply_01 L cs cmsg)) 16 384
      = slice (Client.reply_A_x L cs cmsg) 8 384 := by
    rw [hA]
    exact slice_ext _ _ _ _ _ (fun i hi => Client.rd_reply_01_A_x L cs cmsg i hi)
  have hc : slice (Client.reply_01 L cs cmsg) 392 8
      = Client.HMAC_output L (Client.scratch_keys L cs cmsg) (Client.reply_A_x L cs cmsg) := by
    apply bytes_ext
    · rw [length_slice, Client.length_HMAC_output]
    · intro i hi
      rw [length_slice] at hi
      rw [rd_slice, if_pos hi, Client.rd_reply_01_hmac L cs cmsg i hi]
  have heq := HMAC_output_eq L scratch _ _ _ hK hA2
  unfold Server.hmac_mismatch
  rw [List.any_eq_false]
  intro i hi
  have hi8 : i < 8 := List.mem_range.1 hi
  have h1 : rd (Server.packet_01_of (Client.reply_01 L cs cmsg)) (PUBKEY_LEN + 2 * MAGIC_LEN + i)
      = rd (slice (Server.packet_01_of (Client.reply_01 L cs cmsg)) 400 8) i := by
    rw [rd_slice, if_pos hi8]
    congr 1
  rw [h1, hH, heq, ← hc]
  simp

theorem toy_KAB_agree :
    slice Server.toyInFlight.temp_handshake_buf (4 * toyLib.sizeof_bigint) 32
      = slice (Client.scratch_keys toyLib Client.toySent (Client.reply_00 6))
          (3 * toyLib.sizeof_bigint) 32 := by
  apply slice_ext
  intro i hi
  rw [Server.rd_toyInFlight_keys i (by omega), Client.rd_toy_scratch_keys i (by omega)]

/-- The eight ciphertext bytes of the "login OK" reply in the run with `toyLib`: index 0
under the key `KBA` and the nonce `N` as stored, which give the keystream byte 0. -/
theorem Server.rd_toy_reply_ok (i : Nat) (hi : i < 8) :
    rd (Server.reply_ok toyLib Server.toyInFlight (zeros 4)) (8 + i) = 0 := by
  have h0 : Server.toyInFlight.next_free_user_ix = 0 :=
    (Server.process_msg_00_registry toyLib Server.sampleInit (Server.packet_00 6) [1] 0).2.1
  have hn : rd (slice Server.toyInFlight.temp_handshake_buf
      (4 * toyLib.sizeof_bigint + 3 * 32) 12) 0 = 0 := by
    rw [rd_slice, if_pos (by omega), Nat.add_zero]
    exact Server.rd_toyInFlight_keys 96 (by omega)
  have hk : rd (slice Server.toyInFlight.temp_handshake_buf
      (4 * toyLib.sizeof_bigint + 1 * 32) 32) 0 = 0 := by
    rw [rd_slice, if_pos (by omega), Nat.add_zero]
    exact Server.rd_toyInFlight_keys 32 (by omega)
  unfold Server.reply_ok
  simp only [toyLib_CHACHA20, hn, hk, h0, send_bytes, Server.rd_take]
  have h24 : toyLib.sizeof_bigint = 24 := rfl
  have hS : SIGNATURE_LEN 24 = 128 := rfl
  rw [h24, hS, if_pos (by omega),
    rd_memcpy_out _ _ _ _ (by left; omega),
    rd_memcpy_out _ _ _ _ (by left; omega),
    rd_memcpy_out _ _ _ _ (by right; rw [length_le_bytes]; omega),
    rd_memcpy_in _ _ _ _ (by omega) (by rw [length_slice]; omega)
      (by rw [length_zeros]; omega),
    rd_slice, if_pos (by omega)]
  have e : 8 + i - 8 = i := by omega
  rw [e]
  interval_cases i <;> rfl


theorem Server.process_msg_01_sent_ok (L : CryptoLib) (s : Server.State)
    (msg_buf after_ix : Bytes) (send_ret : Int)
    (hmac : Server.hmac_mismatch L s.temp_handshake_buf msg_buf = false)
    (hfree : s.next_free_user_ix ≠ MAX_CLIENTS)
    (hnew : Server.check_pubkey_exists s
      (Server.client_pubkey_buf L s.temp_handshake_buf msg_buf) PUBKEY_LEN = 0) :
    (Server.process_msg_01 L s msg_buf after_ix send_ret).sent
      = s.sent ++ [Server.reply_ok L s after_ix] := by
  by_cases h : send_ret = -1 <;>
    simp [Server.process_msg_01, hmac, hfree, hnew, h, Server.cleanup_01, Server.allocate]

theorem Client.toy_replied_scratch :
    (Client.process_msg_00 toyLib Client.toySent (Client.reply_00 6) 0).1.temp_handshake_buf
      = Client.scratch_final toyLib Client.toySent (Client.reply_00 6) := by
  have hr : Client.rejects_B_s toyLib Client.toySent (Client.reply_00 6) = false := by
    rw [Client.rejects_B_s_toy, Client.toySent_eq]
    exact Client.rejects_B_s_sample_six Client.sampleSent Client.sampleSent_fields.2.2.1
  exact (Client.process_msg_00_client_accept toyLib Client.toySent (Client.reply_00 6) 0 hr
    (Client.auth_status_toy Client.toySent (Client.reply_00 6))).1

/-- After the in-place increment of the client's `process_msg_00` the first nonce byte in
the scratch region is 1, while the first byte of `KBA` is the stored 0. -/
theorem Client.rd_toy_replied_nonce_key :
    rd (Client.scratch_final toyLib Client.toySent (Client.reply_00 6))
        (3 * toyLib.sizeof_bigint + 96) = 1
    ∧ rd (Client.scratch_final toyLib Client.toySent (Client.reply_00 6))
        (3 * toyLib.sizeof_bigint + 32) = 0 := by
  have h24 : toyLib.sizeof_bigint = 24 := rfl
  have hT : TEMP_BUF_SIZ = 16384 := rfl
  have hl : (Client.scratch_keys toyLib Client.toySent (Client.reply_00 6)).length
      = TEMP_BUF_SIZ := by
    rw [Client.length_client_scratch_keys, Client.toySent_eq]
    exact Client.length_sampleSent_scratch
  have hv : le_toNat (slice (Client.scratch_keys toyLib Client.toySent (Client.reply_00 6))
      (3 * toyLib.sizeof_bigint + 96) 8) = 0 := by
    apply le_toNat_zero_of_rd
    intro i
    rw [rd_slice]
    by_cases hi : i < 8
    · rw [if_pos hi, Nat.add_assoc, Client.rd_toy_scratch_keys (96 + i) (by omega),
        if_neg (by omega)]
    · rw [if_neg hi]
  constructor
  · unfold Client.scratch_final
    simp only [Client.SESSION_KEY_LEN, Client.INIT_AUTH_LEN]
    rw [rd_memcpy_in _ _ _ _ (by omega) (by rw [length_le_bytes]; omega) (by rw [hl]; omega),
      hv]
    rfl
  · rw [Client.rd_scratch_final _ _ _ _ (by omega),
      Client.rd_toy_scratch_keys 32 (by omega), if_neg (by omega)]

/-- The client's `process_msg_01` with `toyLib`, on a reply whose ciphertext bytes are 0,
from any state whose scratch region has first nonce byte 1 and first `KBA` byte 0. -/
theorem Client.toy_process_msg_01 (c : Client.State) (reply : Bytes)
    (hct : slice reply 8 8 = zeros 8)
    (hn1 : rd c.temp_handshake_buf (3 * toyLib.sizeof_bigint + 96) = 1)
    (hk0 : rd c.temp_handshake_buf (3 * toyLib.sizeof_bigint + 32) = 0) :
    (Client.process_msg_01 toyLib c reply).2 = 1
    ∧ (Client.process_msg_01 toyLib c reply).1.own_ix = 0x0101010101010101 := by
  have hauth : Client.authenticate_server toyLib c reply
      Client.SMALL_FIELD_LEN (2 * Client.SMALL_FIELD_LEN) = 1 := by
    simp only [Client.authenticate_server, toyLib_Signature_VALIDATE]
    rfl
  have hn : rd (slice c.temp_handshake_buf
      (3 * toyLib.sizeof_bigint + 2 * Client.SESSION_KEY_LEN + Client.INIT_AUTH_LEN)
      Client.SHORT_NONCE_LEN) 0 = 1 := by
    rw [rd_slice, if_pos (by decide)]
    exact hn1
  have hk : rd (slice c.temp_handshake_buf
      (3 * toyLib.sizeof_bigint + 1 * Client.SESSION_KEY_LEN) Client.SESSION_KEY_LEN) 0
      = 0 := by
    rw [rd_slice, if_pos (by decide)]
    exact hk0
  have hs : slice reply Client.SMALL_FIELD_LEN Client.SMALL_FIELD_LEN = zeros 8 := hct
  have h11 : ¬ ((1 : Nat) ≠ 1) := by decide
  constructor
  · unfold Client.process_msg_01
    simp only [hauth, if_neg h11]
  · unfold Client.process_msg_01
    simp only [hauth, if_neg h11, toyLib_CHACHA20, hn, hk, hs,
      Client.release_handshake_memory_region]
    decide

theorem Server.process_msg_01_mask_ok (L : CryptoLib) (s : Server.State)
    (msg_buf after_ix : Bytes) (send_ret : Int)
    (hmac : Server.hmac_mismatch L s.temp_handshake_buf msg_buf = false)
    (hfree : s.next_free_user_ix ≠ MAX_CLIENTS)
    (hnew : Server.check_pubkey_exists s
      (Server.client_pubkey_buf L s.temp_handshake_buf msg_buf) PUBKEY_LEN = 0) :
    (Server.process_msg_01 L s msg_buf after_ix send_ret).clients_status_bitmask
      = s.clients_status_bitmask ||| BITMASK_BIT_AT s.next_free_user_ix := by
  by_cases h : send_ret = -1 <;>
    simp [Server.process_msg_01, hmac, hfree, hnew, h, Server.cleanup_01, Server.allocate]

theorem Server.toy_login_registry :
    (Server.process_msg_01 toyLib Server.toyInFlight
          (Server.packet_01_of (Client.reply_01 toyLib Client.toySent (Client.reply_00 6)))
          (zeros 4) 0).sent
        = Server.toyInFlight.sent ++ [Server.reply_ok toyLib Server.toyInFlight (zeros 4)]
    ∧ (Server.process_msg_01 toyLib Server.toyInFlight
          (Server.packet_01_of (Client.reply_01 toyLib Client.toySent (Client.reply_00 6)))
          (zeros 4) 0).clients_status_bitmask = 2 ^ 63 := by
  have hreg := Server.process_msg_00_registry toyLib Server.sampleInit (Server.packet_00 6)
    [1] 0
  have hnfu : Server.toyInFlight.next_free_user_ix = 0 := hreg.2.1
  have hmask : Server.toyInFlight.clients_status_bitmask = 0 := hreg.1
  have hmac := hmac_mismatch_repacked toyLib Client.toySent (Client.reply_00 6)
    Server.toyInFlight.temp_handshake_buf toy_KAB_agree
  have hnew := Server.check_pubkey_exists_empty Server.toyInFlight
    (Server.client_pubkey_buf toyLib Server.toyInFlight.temp_handshake_buf
      (Server.packet_01_of (Client.reply_01 toyLib Client.toySent (Client.reply_00 6)))) hmask
  constructor
  · exact Server.process_msg_01_sent_ok toyLib _ _ _ 0 hmac (by rw [hnfu]; decide) hnew
  · rw [Server.process_msg_01_mask_ok toyLib _ _ _ 0 hmac (by rw [hnfu]; decide) hnew, hmask,
      hnfu]
    decide

/-- C14, as the code behaves. Server and client hold the same shared secret and
the server allocates slot 0 on an empty registry, encrypting the index under `KBA` and the
nonce `N` as stored. The client has incremented its copy of the nonce after encrypting
its long-term key, so it decrypts under `N + 1`: with a cipher whose keystream depends on
the nonce, `own_ix` ends as 0x0101010101010101 and not as the allocated index 0. -/
theorem own_ix_differs_from_allocated_slot :
    (Client.X_s toyLib Client.toySent (Client.reply_00 6)).bits
        = (Server.X_s toyLib Server.sampleInit (Server.packet_00 6) [1]).bits
    ∧ Server.toyInFlight.next_free_user_ix = 0
    ∧ (Server.process_msg_01 toyLib Server.toyInFlight
          (Server.packet_01_of (Client.reply_01 toyLib Client.toySent (Client.reply_00 6)))
          (zeros 4) 0).sent
        = Server.toyInFlight.sent ++ [Server.reply_ok toyLib Server.toyInFlight (zeros 4)]
    ∧ (Server.process_msg_01 toyLib Server.toyInFlight
          (Server.packet_01_of (Client.reply_01 toyLib Client.toySent (Client.reply_00 6)))
          (zeros 4) 0).clients_status_bitmask = 2 ^ 63
    ∧ slice (Server.reply_ok toyLib Server.toyInFlight (zeros 4)) 8 8 = zeros 8
    ∧ (Client.process_msg_01 toyLib
          (Client.process_msg_00 toyLib Client.toySent (Client.reply_00 6) 0).1
          (Server.reply_ok toyLib Server.toyInFlight (zeros 4))).2 = 1
    ∧ (Client.process_msg_01 toyLib
          (Client.process_msg_00 toyLib Client.toySent (Client.reply_00 6) 0).1
          (Server.reply_ok toyLib Server.toyInFlight (zeros 4))).1.own_ix
        = 0x0101010101010101 := by
  have hnfu : Server.toyInFlight.next_free_user_ix = 0 :=
    (Server.process_msg_00_registry toyLib Server.sampleInit (Server.packet_00 6) [1] 0).2.1
  have hct : slice (Server.reply_ok toyLib Server.toyInFlight (zeros 4)) 8 8 = zeros 8 := by
    apply bytes_ext
    · rw [length_slice, length_zeros]
    · intro i hi
      rw [length_slice] at hi
      rw [rd_slice, if_pos hi, Server.rd_toy_reply_ok i hi, rd_zeros]
  have hn1 : rd (Client.process_msg_00 toyLib Client.toySent (Client.reply_00 6)
      0).1.temp_handshake_buf (3 * toyLib.sizeof_bigint + 96) = 1 := by
    rw [Client.toy_replied_scratch]
    exact Client.rd_toy_replied_nonce_key.1
  have hk0 : rd (Client.process_msg_00 toyLib Client.toySent (Client.reply_00 6)
      0).1.temp_handshake_buf (3 * toyLib.sizeof_bigint + 32) = 0 := by
    rw [Client.toy_replied_scratch]
    exact Client.rd_toy_replied_nonce_key.2
  have hcl := Client.toy_process_msg_01
    (Client.process_msg_00 toyLib Client.toySent (Client.reply_00 6) 0).1
    (Server.reply_ok toyLib Server.toyInFlight (zeros 4)) hct hn1 hk0
  have hX : (Client.X_s toyLib Client.toySent (Client.reply_00 6)).bits
      = (Server.X_s toyLib Server.sampleInit (Server.packet_00 6) [1]).bits := by
    rw [Client.client_X_s_toy, Server.X_s_toy, Client.toySent_eq]
    exact sample_shared_secret
  exact ⟨hX, hnfu, Server.toy_login_registry.1, Server.toy_login_registry.2, hct, hcl.1,
    hcl.2⟩

/-! ### Room requests: packet layout, keys and nonces (C18, C19, C20) -/

namespace Client

theorem length_room_request (L : CryptoLib) (s : State) (id : Nat) (uid rid K : Bytes) :
    (room_request L s id uid rid K).length = 64 + SIGNATURE_LEN L.sizeof_bigint := by
  simp [room_request, send_bytes, length_memcpy, length_zeros, SMALL_FIELD_LEN,
    ONE_TIME_KEY_LEN]

/-- The packet id sits in bytes `[0, 8)` of the request. -/
theorem rd_room_request_id (L : CryptoLib) (s : State) (id : Nat) (uid rid K : Bytes)
    (i : Nat) (hi : i < 8) :
    rd (room_request L s id uid rid K) i = rd (le_bytes 8 id) i := by
  unfold room_request
  simp only [send_bytes, Server.rd_take, SMALL_FIELD_LEN, ONE_TIME_KEY_LEN]
  rw [if_pos (by omega), rd_memcpy_out _ _ _ _ (by left; omega),
    rd_memcpy_out _ _ _ _ (by left; omega),
    rd_memcpy_in _ _ _ _ (by omega) (by rw [length_le_bytes]; omega)
      (by simp only [length_memcpy, length_zeros]; omega)]
  rfl

/-- The index `own_ix` sits in bytes `[8, 16)` of the request. -/
theorem rd_room_request_ix (L : CryptoLib) (s : State) (id : Nat) (uid rid K : Bytes)
    (i : Nat) (hi : i < 8) :
    rd (room_request L s id uid rid K) (8 + i) = rd (le_bytes 8 s.own_ix) i := by
  unfold room_request
  simp only [send_bytes, Server.rd_take, SMALL_FIELD_LEN, ONE_TIME_KEY_LEN]
  rw [if_pos (by omega), rd_memcpy_out _ _ _ _ (by left; omega),
    rd_memcpy_in _ _ _ _ (by omega) (by rw [length_le_bytes]; omega)
      (by simp only [length_memcpy, length_zeros]; omega)]
  congr 1
  omega

/-- Bytes `[16, 48)` of the request: the one-time key under the nonce reached by the loop
and the session key `KAB`. -/
theorem rd_room_request_key (L : CryptoLib) (s : State) (id : Nat) (uid rid K : Bytes)
    (i : Nat) (hi : i < 32) :
    rd (room_request L s id uid rid K) (16 + i)
      = rd (L.CHACHA20 (memcpy (zeros 32) 0 (slice K 0 32)) 32
          (slice (nonce_loop s.server_nonce_counter s.nonce_bigint).bits 0 16) 4
          (KAB_bytes s) 8) i := by
  unfold room_request
  simp only [send_bytes, Server.rd_take, SMALL_FIELD_LEN, ONE_TIME_KEY_LEN, LONG_NONCE_LEN,
    SESSION_KEY_LEN]
  rw [if_pos (by omega), rd_memcpy_out _ _ _ _ (by left; omega),
    rd_memcpy_out _ _ _ _ (by right; rw [length_le_bytes]; omega),
    rd_memcpy_out _ _ _ _ (by right; rw [length_le_bytes]; omega),
    rd_memcpy_out _ _ _ _ (by left; omega),
    rd_memcpy_in _ _ _ _ (by omega) (by rw [length_slice]; omega)
      (by simp only [length_zeros]; omega),
    rd_slice, if_pos (by omega)]
  congr 1
  omega

/-- Bytes `[48, 64)` of the request: room id and user id under the next nonce and, again,
the session key `KAB`. -/
theorem rd_room_request_payload (L : CryptoLib) (s : State) (id : Nat) (uid rid K : Bytes)
    (i : Nat) (hi : i < 16) :
    rd (room_request L s id uid rid K) (48 + i)
      = rd (L.CHACHA20 (memcpy (memcpy (zeros 16) 0 (slice rid 0 8)) 8 (slice uid 0 8)) 16
          (slice (nonce_incr (nonce_loop s.server_nonce_counter s.nonce_bigint)).bits 0 16) 4
          (KAB_bytes s) 8) i := by
  unfold room_request
  simp only [send_bytes, Server.rd_take, SMALL_FIELD_LEN, ONE_TIME_KEY_LEN, LONG_NONCE_LEN,
    SESSION_KEY_LEN]
  rw [if_pos (by omega), rd_memcpy_out _ _ _ _ (by left; omega),
    rd_memcpy_out _ _ _ _ (by right; rw [length_le_bytes]; omega),
    rd_memcpy_out _ _ _ _ (by right; rw [length_le_bytes]; omega),
    rd_memcpy_in _ _ _ _ (by omega) (by rw [length_slice]; omega)
      (by simp only [length_memcpy, length_zeros]; omega),
    rd_slice, if_pos (by omega)]
  congr 1
  omega

end Client


theorem le_toNat_one : (bigint_create MAX_BIGINT_SIZ 1).toNat = 1 := by
  unfold bigint_create bigint.toNat
  simp only [le_toNat_le_bytes]
  exact Nat.mod_eq_of_lt (Nat.one_lt_pow (by decide) (by decide))

theorem mod_pow_of_lt_256 (v n : Nat) (hv : v < 256) (hn : 0 < n) : v % 256 ^ n = v := by
  apply Nat.mod_eq_of_lt
  calc v < 256 := hv
    _ = 256 ^ 1 := by norm_num
    _ ≤ 256 ^ n := Nat.pow_le_pow_right (by decide) hn

namespace Client

/-- One increment of a nonce that holds the value `v` in a 1600-byte buffer. -/
theorem nonce_incr_bits (n : bigint) (v : Nat) (hl : n.bits.length = 1600)
    (hr : ∀ i, rd n.bits i = rd (le_bytes 1600 v) i) (hv : v + 1 < 256) :
    (nonce_incr n).bits = le_bytes 1600 (v + 1) := by
  have hn : le_toNat n.bits = v := by
    rw [le_toNat_eq_of_rd _ _ hr, le_toNat_le_bytes, mod_pow_of_lt_256 v 1600 (by omega)
      (by decide)]
  have h1 : le_toNat (bigint_create MAX_BIGINT_SIZ 1).bits = 1 := le_toNat_one
  have hlen : (bigint_create MAX_BIGINT_SIZ 0).bits.length = MAX_BIGINT_SIZ := by
    simp [bigint_create, length_le_bytes]
  unfold nonce_incr bigint_equate2 bigint_add_fast
  simp only [bigint.toNat, hl, hn, h1, hlen, le_toNat_le_bytes]
  rw [mod_pow_of_lt_256 (v + 1) MAX_BIGINT_SIZ hv (by decide)]

theorem nonce_loop_bits (k : Nat) (n : bigint) (v : Nat) (hl : n.bits.length = 1600)
    (hr : ∀ i, rd n.bits i = rd (le_bytes 1600 v) i) (hv : v + k < 256) :
    (nonce_loop k n).bits.length = 1600
    ∧ ∀ i, rd (nonce_loop k n).bits i = rd (le_bytes 1600 (v + k)) i := by
  induction k generalizing n v with
  | zero => exact ⟨hl, hr⟩
  | succ k ih =>
    have hb := nonce_incr_bits n v hl hr (by omega)
    have h := ih (nonce_incr n) (v + 1) (by rw [hb, length_le_bytes])
      (fun i => by rw [hb]) (by omega)
    have e : v + 1 + k = v + (k + 1) := by omega
    rw [e] at h
    exact h

/-- The 16 nonce bytes the cipher is given, for a nonce holding `v`. -/
theorem slice_nonce (n : bigint) (v : Nat)
    (hr : ∀ i, rd n.bits i = rd (le_bytes 1600 v) i) :
    slice n.bits 0 16 = le_bytes 16 v := by
  apply bytes_ext
  · rw [length_slice, length_le_bytes]
  · intro i hi
    rw [length_slice] at hi
    rw [rd_slice, if_pos hi, Nat.zero_add, hr, rd_le_bytes, rd_le_bytes, if_pos hi,
      if_pos (by omega)]

end Client


theorem rd_zero_le_toNat (bs : Bytes) : rd bs 0 ≤ le_toNat bs := by
  cases bs with
  | nil => simp [rd, le_toNat]
  | cons b t => simp [rd, le_toNat]

theorem rd_sampleSecret (i : Nat) :
    rd sampleSecret.bits i
      = if i = 0 then 11 else if i = 32 then 22 else if i = 64 then 7 else 0 := by
  simp only [sampleSecret, rd_memcpy, length_memcpy, length_zeros, rd_zeros, List.length_cons,
    List.length_nil]
  by_cases h0 : i = 0
  · subst h0; simp [rd]
  · by_cases h32 : i = 32
    · subst h32; simp [rd]
    · by_cases h64 : i = 64
      · subst h64; simp [rd]
      · have a : ¬ (64 ≤ i ∧ i < 64 + (0 + 1)) := by omega
        have b : ¬ (32 ≤ i ∧ i < 32 + (0 + 1)) := by omega
        have c : ¬ (0 ≤ i ∧ i < 0 + (0 + 1)) := by omega
        simp [h0, h32, h64, a, b, c]

namespace Client

theorem sampleKeyed_fields :
    sampleKeyed.server_nonce_counter = 0 ∧ sampleKeyed.own_ix = 5 ∧ sampleKeyed.sent = []
    ∧ sampleKeyed.server_shared_secret = sampleSecret ∧ sampleKeyed.KAB = 32
    ∧ sampleKeyed.KBA = 0 := by
  have h3 : bigint_compare2 (small 6) sampleSecret = 3 := by
    rw [bigint_compare2_eq_three, toNat_small]
    have h := rd_zero_le_toNat sampleSecret.bits
    rw [rd_sampleSecret, if_pos rfl] at h
    unfold bigint.toNat
    omega
  simp [sampleKeyed, self_init_session_keys, sampleInit, h3, SESSION_KEY_LEN]
  rfl

theorem rd_KAB_sampleKeyed (i : Nat) :
    rd (KAB_bytes sampleKeyed) i = if i = 0 then 22 else 0 := by
  unfold KAB_bytes
  rw [sampleKeyed_fields.2.2.2.1, sampleKeyed_fields.2.2.2.2.1, rd_slice, rd_sampleSecret]
  unfold SESSION_KEY_LEN
  by_cases h0 : i = 0
  · subst h0; simp
  · by_cases h : i < 32
    · have a : ¬ (32 + i = 0) := by omega
      have b : ¬ (32 + i = 32) := by omega
      have c : ¬ (32 + i = 64) := by omega
      simp [h, h0, a, b, c]
    · simp [h, h0]

theorem rd_le_bytes_small (n v i : Nat) (hv : v < 256) :
    rd (le_bytes n v) i = if i = 0 ∧ 0 < n then v else 0 := by
  rw [rd_le_bytes]
  by_cases h0 : i = 0
  · subst h0
    by_cases hn : 0 < n
    · simp [hn, Nat.mod_eq_of_lt hv]
    · simp [hn]
  · have hp : v / 256 ^ i = 0 := by
      apply Nat.div_eq_of_lt
      calc v < 256 := hv
        _ = 256 ^ 1 := by norm_num
        _ ≤ 256 ^ i := Nat.pow_le_pow_right (by decide) (by omega)
    simp [h0, hp]

theorem nonce_sampleKeyed :
    sampleKeyed.nonce_bigint.bits.length = 1600
    ∧ ∀ i, rd sampleKeyed.nonce_bigint.bits i = rd (le_bytes 1600 7) i := by
  constructor
  · simp [sampleKeyed, self_init_session_keys, length_memcpy, length_zeros, MAX_BIGINT_SIZ]
  · intro i
    have hS : toyLib.MONT_POW_modM (toyLib.Get_Mont_Form sampleSecret (small 7)) (small 3)
        (small 7) = sampleSecret := rfl
    simp only [sampleKeyed, self_init_session_keys, sampleInit, hS, rd_memcpy, length_zeros,
      length_slice, rd_zeros, rd_slice, rd_sampleSecret, SESSION_KEY_LEN, LONG_NONCE_LEN,
      MAX_BIGINT_SIZ]
    rw [rd_le_bytes_small 1600 7 i (by decide)]
    by_cases h0 : i = 0
    · subst h0; simp
    · by_cases h : i < 16
      · have a : i < 12800 / 8 := by omega
        have b : ¬ (2 * 32 + i = 0) := by omega
        have c : ¬ (2 * 32 + i = 32) := by omega
        have d : ¬ (2 * 32 + i = 64) := by omega
        simp [h, h0, a, b, c, d]
      · simp [h, h0]

end Client


theorem Client.construct_msg_10_some (L : CryptoLib) (s : Client.State) (uid rid K : Bytes)
    (send_ret : Int) :
    (Client.construct_msg_10 L s uid rid (some K) send_ret).1
      = Client.room_request_state s
          (Client.room_request L s Client.PACKET_ID_10 uid rid K) := by
  by_cases h : send_ret = -1 <;> simp [Client.construct_msg_10, h]

theorem Client.construct_msg_20_some (L : CryptoLib) (s : Client.State) (uid rid K : Bytes)
    (send_ret : Int) :
    (Client.construct_msg_20 L s uid rid (some K) send_ret).1
      = Client.room_request_state s
          (Client.room_request L s Client.PACKET_ID_10 uid rid K) := by
  by_cases h : send_ret = -1 <;> simp [Client.construct_msg_20, h]

theorem Client.sampleAfter10_nonce :
    Client.sampleAfter10.server_nonce_counter = 2
    ∧ Client.sampleAfter10.nonce_bigint.bits = le_bytes 1600 8 := by
  have hc := Client.sampleKeyed_fields.1
  have hn := Client.nonce_sampleKeyed
  unfold Client.sampleAfter10
  rw [Client.construct_msg_10_some]
  simp only [Client.room_request_state, hc, Client.nonce_loop]
  exact ⟨by decide, Client.nonce_incr_bits _ 7 hn.1 hn.2 (by decide)⟩

/-- C18, as the code behaves. From counter 0 and base nonce `N0 = 7` the two
cipher calls of a first `construct_msg_10` use the nonces 7 and 8 and leave the counter at 2;
the loop and the increment have been applied to the global `nonce_bigint` itself, which now
holds 8. The next call (here `construct_msg_20`) runs the loop twice from there: its cipher
calls, the third and the fourth against the server, use the nonces 10 and 11, not
`N0 + 2 = 9` and `N0 + 3 = 10`. -/
theorem room_request_nonces_skip_on_second_call :
    Client.sampleKeyed.server_nonce_counter = 0
    ∧ slice Client.sampleKeyed.nonce_bigint.bits 0 16 = le_bytes 16 7
    ∧ slice (Client.nonce_loop Client.sampleKeyed.server_nonce_counter
        Client.sampleKeyed.nonce_bigint).bits 0 16 = le_bytes 16 7
    ∧ slice (Client.nonce_incr (Client.nonce_loop Client.sampleKeyed.server_nonce_counter
        Client.sampleKeyed.nonce_bigint)).bits 0 16 = le_bytes 16 8
    ∧ Client.sampleAfter10.server_nonce_counter = 2
    ∧ slice Client.sampleAfter10.nonce_bigint.bits 0 16 = le_bytes 16 8
    ∧ slice (Client.nonce_loop Client.sampleAfter10.server_nonce_counter
        Client.sampleAfter10.nonce_bigint).bits 0 16 = le_bytes 16 10
    ∧ slice (Client.nonce_incr (Client.nonce_loop Client.sampleAfter10.server_nonce_counter
        Client.sampleAfter10.nonce_bigint)).bits 0 16 = le_bytes 16 11
    ∧ slice (Client.room_request toyLib Client.sampleAfter10 Client.PACKET_ID_10 (zeros 8)
        (zeros 8) (le_bytes 32 5)) 16 32
        = slice (toyLib.CHACHA20 (le_bytes 32 5) 32 (le_bytes 16 10) 4
            (Client.KAB_bytes Client.sampleAfter10) 8) 0 32
    ∧ ((Client.construct_msg_20 toyLib Client.sampleAfter10 (zeros 8) (zeros 8)
          (some (le_bytes 32 5)) 0).1.sent).getLast?
        = some (Client.room_request toyLib Client.sampleAfter10 Client.PACKET_ID_10 (zeros 8)
            (zeros 8) (le_bytes 32 5)) := by
  have hc := Client.sampleKeyed_fields.1
  have hn := Client.nonce_sampleKeyed
  have ha := Client.sampleAfter10_nonce
  have hl8 : (Client.sampleAfter10.nonce_bigint.bits).length = 1600 := by
    rw [ha.2, length_le_bytes]
  have hr8 : ∀ i, rd Client.sampleAfter10.nonce_bigint.bits i = rd (le_bytes 1600 8) i :=
    fun i => by rw [ha.2]
  have h10 := Client.nonce_loop_bits 2 Client.sampleAfter10.nonce_bigint 8 hl8 hr8 (by decide)
  have h11 := Client.nonce_incr_bits _ 10 h10.1 h10.2 (by decide)
  have h7 := Client.nonce_incr_bits _ 7 hn.1 hn.2 (by decide)
  refine ⟨hc, Client.slice_nonce _ 7 hn.2, ?_, ?_, ha.1, Client.slice_nonce _ 8 hr8, ?_, ?_,
    ?_, ?_⟩
  · rw [hc]; exact Client.slice_nonce _ 7 hn.2
  · rw [hc]
    exact Client.slice_nonce _ 8 (fun i => by simp only [Client.nonce_loop]; rw [h7])
  · rw [ha.1]; exact Client.slice_nonce _ 10 h10.2
  · rw [ha.1]; exact Client.slice_nonce _ 11 (fun i => by rw [h11])
  · apply slice_ext
    intro i hi
    rw [Client.rd_room_request_key _ _ _ _ _ _ i hi, Nat.zero_add, ha.1,
      Client.slice_nonce _ 10 h10.2, Server.memcpy_zeros_slice_self]
    rw [length_le_bytes]
  · rw [Client.construct_msg_20_some]
    simp [Client.room_request_state]


/-- C20, as the code has it. For all inputs the packet `construct_msg_20` hands to `send`
has length `64 + SIGNATURE_LEN` and carries `own_ix` in bytes `[8, 16)`, but its first eight
bytes are the little-endian encoding of `PACKET_ID_10` (0x13C4A44F70842AC1), the magic of
the create-room packet, and not that of `PACKET_ID_20` (0x9FF4D1E0EAE100A5). -/
theorem construct_msg_20_sends_create_magic (L : CryptoLib) (s : Client.State)
    (requested_userid requested_roomid K : Bytes) (send_ret : Int) :
    (Client.construct_msg_20 L s requested_userid requested_roomid (some K) send_ret).1.sent
      = s.sent ++ [Client.room_request L s Client.PACKET_ID_10 requested_userid
          requested_roomid K]
    ∧ (Client.room_request L s Client.PACKET_ID_10 requested_userid requested_roomid
        K).length = 64 + SIGNATURE_LEN L.sizeof_bigint
    ∧ slice (Client.room_request L s Client.PACKET_ID_10 requested_userid requested_roomid K)
        0 8 = le_bytes 8 0x13C4A44F70842AC1
    ∧ le_bytes 8 0x13C4A44F70842AC1 ≠ le_bytes 8 Client.PACKET_ID_20
    ∧ slice (Client.room_request L s Client.PACKET_ID_10 requested_userid requested_roomid K)
        8 8 = le_bytes 8 s.own_ix := by
  refine ⟨?_, Client.length_room_request _ _ _ _ _ _, ?_, by decide, ?_⟩
  · rw [Client.construct_msg_20_some]
    simp [Client.room_request_state]
  · apply bytes_ext
    · rw [length_slice, length_le_bytes]
    · intro i hi
      rw [length_slice] at hi
      rw [rd_slice, if_pos hi, Nat.zero_add, Client.rd_room_request_id _ _ _ _ _ _ i hi]
      rfl
  · apply bytes_ext
    · rw [length_slice, length_le_bytes]
    · intro i hi
      rw [length_slice] at hi
      rw [rd_slice, if_pos hi, Client.rd_room_request_ix _ _ _ _ _ _ i hi]


theorem Client.nonce_loop_zero (n : bigint) : Client.nonce_loop 0 n = n := rfl

/-- C19, as the code behaves. In the packet `construct_msg_10` sends from
`sampleKeyed` with one-time key `K = 5`, bytes `[16, 48)` are `K` under the nonce 7 and the
session key `KAB`, as claimed; bytes `[48, 64)` are the payload under the nonce 8 and the
same session key `KAB` (first byte 22, giving 30), not under `K` (which would give 13). -/
theorem create_room_payload_under_session_key :
    (Client.construct_msg_10 toyLib Client.sampleKeyed (zeros 8) (zeros 8)
        (some (le_bytes 32 5)) 0).1.sent
      = [Client.room_request toyLib Client.sampleKeyed Client.PACKET_ID_10 (zeros 8)
          (zeros 8) (le_bytes 32 5)]
    ∧ slice (Client.room_request toyLib Client.sampleKeyed Client.PACKET_ID_10 (zeros 8)
          (zeros 8) (le_bytes 32 5)) 16 32
        = slice (toyLib.CHACHA20 (le_bytes 32 5) 32 (le_bytes 16 7) 4
            (Client.KAB_bytes Client.sampleKeyed) 8) 0 32
    ∧ slice (Client.room_request toyLib Client.sampleKeyed Client.PACKET_ID_10 (zeros 8)
          (zeros 8) (le_bytes 32 5)) 48 16
        = slice (toyLib.CHACHA20 (zeros 8 ++ zeros 8) 16 (le_bytes 16 8) 4
            (Client.KAB_bytes Client.sampleKeyed) 8) 0 16
    ∧ rd (Client.room_request toyLib Client.sampleKeyed Client.PACKET_ID_10 (zeros 8)
          (zeros 8) (le_bytes 32 5)) 48 = 30
    ∧ rd (toyLib.CHACHA20 (zeros 8 ++ zeros 8) 16 (le_bytes 16 8) 4 (le_bytes 32 5) 8) 0
        = 13 := by
  have hc := Client.sampleKeyed_fields.1
  have hn := Client.nonce_sampleKeyed
  have h7 := Client.slice_nonce _ 7 hn.2
  have h8 := Client.slice_nonce _ 8
    (fun i => by rw [Client.nonce_incr_bits _ 7 hn.1 hn.2 (by decide)])
  have hK := Server.memcpy_zeros_slice_self (le_bytes 32 5) 32 (length_le_bytes 32 5)
  have hpay : memcpy (memcpy (zeros 16) 0 (slice (zeros 8) 0 8)) 8 (slice (zeros 8) 0 8)
      = zeros 8 ++ zeros 8 := by decide
  have hblock : ∀ i, i < 16 →
      rd (Client.room_request toyLib Client.sampleKeyed Client.PACKET_ID_10
        (zeros 8) (zeros 8) (le_bytes 32 5)) (48 + i)
      = rd (toyLib.CHACHA20 (zeros 8 ++ zeros 8) 16 (le_bytes 16 8) 4
          (Client.KAB_bytes Client.sampleKeyed) 8) i := by
    intro i hi
    rw [Client.rd_room_request_payload _ _ _ _ _ _ i hi, hc, Client.nonce_loop_zero, h8, hpay]
  have h30 : rd (toyLib.CHACHA20 (zeros 8 ++ zeros 8) 16 (le_bytes 16 8) 4
      (Client.KAB_bytes Client.sampleKeyed) 8) 0 = 30 := by
    rw [toyLib_CHACHA20, Client.rd_KAB_sampleKeyed]
    decide
  refine ⟨?_, ?_, ?_, ?_, ?_⟩
  · rw [Client.construct_msg_10_some]
    unfold Client.room_request_state
    simp only
    rw [Client.sampleKeyed_fields.2.2.1]
    rfl
  · apply slice_ext
    intro i hi
    rw [Client.rd_room_request_key _ _ _ _ _ _ i hi, Nat.zero_add, hc,
      Client.nonce_loop_zero, h7, hK]
  · apply slice_ext
    intro i hi
    rw [hblock i hi, Nat.zero_add]
  · exact (hblock 0 (by decide)).trans h30
  · rw [toyLib_CHACHA20]
    decide


/-! ### The dispatcher's length test for MAGIC_01 (C27) -/

theorem Server.process_new_message_to_01 (L : CryptoLib) (s : Server.State)
    (data rnd after_ix : Bytes) (send_ret : Int) (h : data.length ≤ MAX_MSG_LEN)
    (h8 : ¬ data.length < 8) (hm : Server.read_u64 data 0 = MAGIC_01)
    (he : data.length = (16 + Server.read_u64 data 8 + 8) % 2 ^ 64) :
    Server.process_new_message L s (some data) rnd after_ix send_ret
      = Server.process_msg_01 L s (memcpy (zeros MAX_MSG_LEN) 0 data) after_ix send_ret := by
  have e : ∀ off, Server.read_u64 (memcpy (zeros MAX_MSG_LEN) 0 data) off
      = Server.read_u64 data off := by
    intro off
    have := Server.read_u64_recv_buf data h off
    rwa [List.take_of_length_le h] at this
  have hm0 : ¬ Server.read_u64 data 0 = MAGIC_00 := by
    rw [hm]; decide
  have hne : ¬ (data.length ≠ (16 + Server.read_u64 data 8 + 8) % 2 ^ 64) :=
    fun hc => hc he
  simp only [Server.process_new_message, List.take_of_length_le h, e, if_neg h8,
    if_neg hm0, if_pos hm, if_neg hne]

/-- C27, as the code behaves. The 16-byte packet made of the MAGIC_01 magic and
the length field `2^64 - 8` passes the dispatcher's test, because `16 + pubkey_len + 8` is
computed in 64 bits and wraps to 16: for every library, state and handler input the
dispatcher hands the receive buffer, of which only 16 bytes were received, to
`process_msg_01`. The packet is shorter than 24 bytes and the bytes `[16, 408)` the handler
reads were never received (they are the zeros of the `calloc`ed buffer). -/
theorem dispatcher_length_test_wraps (L : CryptoLib) (s : Server.State)
    (rnd after_ix : Bytes) (send_ret : Int) :
    Server.packet_01_short.length = 16
    ∧ Server.read_u64 Server.packet_01_short 8 = 2 ^ 64 - 8
    ∧ (16 + Server.read_u64 Server.packet_01_short 8 + 8) % 2 ^ 64 = 16
    ∧ Server.process_new_message L s (some Server.packet_01_short) rnd after_ix send_ret
        = Server.process_msg_01 L s (memcpy (zeros MAX_MSG_LEN) 0 Server.packet_01_short)
            after_ix send_ret
    ∧ ∀ i, 16 ≤ i → rd (memcpy (zeros MAX_MSG_LEN) 0 Server.packet_01_short) i = 0 := by
  have hl : Server.packet_01_short.length = 16 := by decide
  have h0 : Server.read_u64 Server.packet_01_short 0 = MAGIC_01 := by decide
  have h8 : Server.read_u64 Server.packet_01_short 8 = 2 ^ 64 - 8 := by decide
  refine ⟨hl, h8, by rw [h8]; decide, ?_, ?_⟩
  · apply Server.process_new_message_to_01
    · rw [hl]; decide
    · rw [hl]; decide
    · exact h0
    · rw [hl, h8]; decide
  · intro i hi
    rw [rd_memcpy_out _ _ _ _ (by right; rw [hl]; omega), rd_zeros]


/-! ### The key bytes `process_msg_00` copies (C28) -/

theorem le_toNat_ge_term (bs : Bytes) (i : Nat) : rd bs i * 256 ^ i ≤ le_toNat bs := by
  induction bs generalizing i with
  | nil => simp [rd, le_toNat]
  | cons b t ih =>
    cases i with
    | zero => simp [rd, le_toNat]
    | succ j =>
      have h := ih j
      rw [rd_cons_succ, le_toNat, pow_succ]
      calc rd t j * (256 ^ j * 256) = 256 * (rd t j * 256 ^ j) := by ring
        _ ≤ 256 * le_toNat t := Nat.mul_le_mul_left _ h
        _ ≤ b + 256 * le_toNat t := Nat.le_add_left _ _

theorem Server.process_new_message_to_00 (L : CryptoLib) (s : Server.State)
    (data rnd after_ix : Bytes) (send_ret : Int) (h : data.length ≤ MAX_MSG_LEN)
    (h8 : ¬ data.length < 8) (hm : Server.read_u64 data 0 = MAGIC_00)
    (he : data.length = (16 + Server.read_u64 data 8) % 2 ^ 64)
    (hne : data.length ≠ (16 + Server.read_u64 data 8 + 8) % 2 ^ 64) :
    Server.process_new_message L s (some data) rnd after_ix send_ret
      = Server.process_msg_00 L s (memcpy (zeros MAX_MSG_LEN) 0 data) rnd send_ret := by
  have e : ∀ off, Server.read_u64 (memcpy (zeros MAX_MSG_LEN) 0 data) off
      = Server.read_u64 data off := by
    intro off
    have := Server.read_u64_recv_buf data h off
    rwa [List.take_of_length_le h] at this
  have hee : ¬ (data.length ≠ (16 + Server.read_u64 data 8) % 2 ^ 64) := fun hc => hc he
  simp only [Server.process_new_message, List.take_of_length_le h, e, if_neg h8,
    if_pos hm, if_neg hee, if_pos hne]

theorem Server.rd_packet_00_long (i : Nat) :
    rd Server.packet_00_long i
      = if i < 8 then MAGIC_00 / 256 ^ i % 256
        else if i < 16 then 384 / 256 ^ (i - 8) % 256
        else if i = 16 then 6 else if i = 216 then 1 else 0 := by
  unfold Server.packet_00_long
  simp only [rd_memcpy, length_memcpy, length_zeros, rd_zeros, rd_le_bytes, length_le_bytes,
    List.length_cons, List.length_nil]
  by_cases h8 : i < 8
  · have a : ¬ (216 ≤ i ∧ i < 216 + (0 + 1)) := by omega
    have b : ¬ (16 ≤ i ∧ i < 16 + (0 + 1)) := by omega
    have c : ¬ (8 ≤ i ∧ i < 8 + 8) := by omega
    have d : i < 400 := by omega
    simp [h8, a, b, c, d]
  · by_cases h16 : i < 16
    · have a : ¬ (216 ≤ i ∧ i < 216 + (0 + 1)) := by omega
      have b : ¬ (16 ≤ i ∧ i < 16 + (0 + 1)) := by omega
      have c : (8 ≤ i ∧ i < 8 + 8) := by omega
      have d : i < 400 := by omega
      have e : i - 8 < 8 := by omega
      simp [h8, h16, a, b, c, d, e]
    · by_cases e16 : i = 16
      · subst e16; simp [rd]
      · by_cases e216 : i = 216
        · subst e216; simp [rd]
        · have a : ¬ (216 ≤ i ∧ i < 216 + (0 + 1)) := by omega
          have b : ¬ (16 ≤ i ∧ i < 16 + (0 + 1)) := by omega
          have c : ¬ (8 ≤ i ∧ i < 8 + 8) := by omega
          have c2 : ¬ (0 ≤ i ∧ i < 0 + 8) := by omega
          simp [h8, h16, e16, e216, a, b, c, c2]


/-- C28, as the code behaves. The 400-byte MAGIC_00 packet `packet_00_long` has
`pubkey_len = 384` and passes the dispatcher, which hands the receive buffer to
`process_msg_00` (for every library, state and handler input). The handler takes the
number of key bytes from the single byte at offset 8, here 0x80 = 128, so the integer
`A_s` it builds is 6, the value of the first 128 key bytes, although the 384 key bytes of
the packet have byte 200 set and a value of at least `256 ^ 200`. -/
theorem process_msg_00_copies_low_length_byte (L : CryptoLib) (s : Server.State)
    (rnd after_ix : Bytes) (send_ret : Int) :
    Server.packet_00_long.length = 400
    ∧ Server.read_u64 Server.packet_00_long 8 = 384
    ∧ Server.process_new_message L s (some Server.packet_00_long) rnd after_ix send_ret
        = Server.process_msg_00 L s (memcpy (zeros MAX_MSG_LEN) 0 Server.packet_00_long)
            rnd send_ret
    ∧ rd (memcpy (zeros MAX_MSG_LEN) 0 Server.packet_00_long) 8 = 128
    ∧ (Server.parse_A_s L (memcpy (zeros MAX_MSG_LEN) 0 Server.packet_00_long)).toNat = 6
    ∧ 256 ^ 200 ≤ le_toNat (slice Server.packet_00_long 16 384) := by
  have hl : Server.packet_00_long.length = 400 := by
    simp [Server.packet_00_long, length_memcpy, length_zeros]
  have hM : MAX_MSG_LEN = 1024 := rfl
  have h0 : Server.read_u64 Server.packet_00_long 0 = MAGIC_00 := by
    apply Server.read_u64_of_rd _ _ _ (by decide)
    intro i hi
    rw [Server.rd_packet_00_long, Nat.zero_add, if_pos hi]
  have h8 : Server.read_u64 Server.packet_00_long 8 = 384 := by
    apply Server.read_u64_of_rd _ _ _ (by decide)
    intro i hi
    rw [Server.rd_packet_00_long, if_neg (by omega), if_pos (by omega)]
    congr 3
    omega
  have hbuf : ∀ i, rd (memcpy (zeros MAX_MSG_LEN) 0 Server.packet_00_long) i
      = rd Server.packet_00_long i := by
    intro i
    have h := rd_recv_buf Server.packet_00_long (by rw [hl, hM]; omega) i
    rwa [List.take_of_length_le (by rw [hl, hM]; omega)] at h
  have hb8 : rd (memcpy (zeros MAX_MSG_LEN) 0 Server.packet_00_long) 8 = 128 := by
    rw [hbuf, Server.rd_packet_00_long]
    decide
  refine ⟨hl, h8, ?_, hb8, ?_, ?_⟩
  · apply Server.process_new_message_to_00
    · rw [hl, hM]; omega
    · rw [hl]; omega
    · exact h0
    · rw [hl, h8]; decide
    · rw [hl, h8]; decide
  · unfold bigint.toNat Server.parse_A_s
    simp only [hb8]
    apply le_toNat_of_rd
    · rw [rd_memcpy_in _ _ _ _ (by omega) (by rw [length_slice]; omega)
        (by rw [length_zeros]; decide), rd_slice, if_pos (by omega), hbuf,
        Server.rd_packet_00_long]
      decide
    · intro i hi
      rw [rd_memcpy, length_zeros, rd_zeros, length_slice, rd_slice]
      by_cases h128 : i < 128
      · have h1 : i - 0 < 128 := by omega
        have e : 16 + (i - 0) = 16 + i := by omega
        have hq : ¬ (16 + i < 8) := by omega
        have hq2 : ¬ (16 + i < 16) := by omega
        have hq3 : ¬ (16 + i = 16) := by omega
        have hq4 : ¬ (16 + i = 216) := by omega
        simp [h128, h1, e, hbuf, Server.rd_packet_00_long, hq, hq2, hq3, hq4]
      · have h2 : ¬ (0 ≤ i ∧ i < 0 + 128) := by omega
        simp only [if_neg h2, ite_self]
  · have h := le_toNat_ge_term (slice Server.packet_00_long 16 384) 200
    rw [rd_slice, if_pos (by omega), Server.rd_packet_00_long] at h
    simpa using h


/-! ### The room-closed notification wipes the roommate state (C25) -/

/-- C25. When the server signature of a MAGIC_51 packet verifies, `process_msg_51` returns 1
and leaves every entry of `roommates[]` zeroed, both bitmasks 0, `num_roommates = 0` and
`next_free_roommate_slot = 0`; when it does not verify, the routine returns 0 and the
client state is unchanged. -/
theorem process_msg_51_wipes_room (L : CryptoLib) (s : Client.State) (payload : Bytes) :
    (Client.authenticate_server L s payload Client.SMALL_FIELD_LEN Client.SMALL_FIELD_LEN = 1 →
      (Client.process_msg_51 L s payload).2 = 1
      ∧ (Client.process_msg_51 L s payload).1.roommates
          = List.replicate Client.roommates_arr_siz Client.roommate_zeroed
      ∧ (Client.process_msg_51 L s payload).1.roommate_slots_bitmask = 0
      ∧ (Client.process_msg_51 L s payload).1.roommate_key_usage_bitmask = 0
      ∧ (Client.process_msg_51 L s payload).1.num_roommates = 0
      ∧ (Client.process_msg_51 L s payload).1.next_free_roommate_slot = 0)
    ∧ (Client.authenticate_server L s payload Client.SMALL_FIELD_LEN Client.SMALL_FIELD_LEN
          ≠ 1 →
      (Client.process_msg_51 L s payload).2 = 0
      ∧ (Client.process_msg_51 L s payload).1 = s) := by
  constructor
  · intro h
    simp [Client.process_msg_51, h]
  · intro h
    simp [Client.process_msg_51, h]

/-- Instance of C25 at `sampleInRoom`, a room with one roommate: with a signature check
that accepts the room is wiped, with one that rejects nothing changes. -/
theorem process_msg_51_wipes_room_witness :
    Client.sampleInRoom.roommate_slots_bitmask = 2 ^ 63
    ∧ Client.authenticate_server sampleLib Client.sampleInRoom (zeros 136)
        Client.SMALL_FIELD_LEN Client.SMALL_FIELD_LEN = 1
    ∧ (Client.process_msg_51 sampleLib Client.sampleInRoom (zeros 136)).2 = 1
    ∧ (Client.process_msg_51 sampleLib Client.sampleInRoom (zeros 136)).1.roommates
        = List.replicate Client.roommates_arr_siz Client.roommate_zeroed
    ∧ (Client.process_msg_51 sampleLib Client.sampleInRoom (zeros 136)).1.roommate_slots_bitmask
        = 0
    ∧ Client.authenticate_server rejectLib Client.sampleInRoom (zeros 136)
        Client.SMALL_FIELD_LEN Client.SMALL_FIELD_LEN ≠ 1
    ∧ (Client.process_msg_51 rejectLib Client.sampleInRoom (zeros 136)).2 = 0
    ∧ (Client.process_msg_51 rejectLib Client.sampleInRoom (zeros 136)).1
        = Client.sampleInRoom :=
  ⟨rfl, rfl,
    ((process_msg_51_wipes_room sampleLib Client.sampleInRoom (zeros 136)).1 rfl).1,
    ((process_msg_51_wipes_room sampleLib Client.sampleInRoom (zeros 136)).1 rfl).2.1,
    ((process_msg_51_wipes_room sampleLib Client.sampleInRoom (zeros 136)).1 rfl).2.2.1,
    by decide,
    ((process_msg_51_wipes_room rejectLib Client.sampleInRoom (zeros 136)).2 (by decide)).1,
    ((process_msg_51_wipes_room rejectLib Client.sampleInRoom (zeros 136)).2 (by decide)).2⟩


/-! ### The join reply: guest count and the roommate table (C29, C21) -/

theorem u64_at_of_rd (buf : Bytes) (off v : Nat) (hv : v < 2 ^ 64)
    (h : ∀ i, i < 8 → rd buf (off + i) = v / 256 ^ i % 256) :
    u64_at buf off = v := by
  unfold u64_at
  rw [Server.slice_eq_le_bytes buf off v h, le_toNat_le_bytes]
  have : (256 : Nat) ^ 8 = 2 ^ 64 := by norm_num
  rw [this, Nat.mod_mod, Nat.mod_eq_of_lt hv]

theorem u64_at_memcpy_le_bytes (n off v : Nat) (hv : v < 2 ^ 64) (hn : off + 8 ≤ n) :
    u64_at (memcpy (zeros n) off (le_bytes 8 v)) off = v := by
  apply u64_at_of_rd _ _ _ hv
  intro i hi
  rw [rd_memcpy_in _ _ _ _ (by omega) (by rw [length_le_bytes]; omega)
    (by rw [length_zeros]; omega), rd_le_bytes]
  have e : off + i - off = i := by omega
  rw [e, if_pos hi]

namespace Client

/-- What `process_msg_20` does once the length test and the signature test have passed. -/
theorem process_msg_20_accepted (L : CryptoLib) (s : State) (msg : Bytes) (msg_len N : Nat)
    (hN : u64_at msg 40 = N)
    (hlen : N * 392 % 2 ^ 64 = sub_u64 msg_len (48 + SIGNATURE_LEN L.sizeof_bigint))
    (hauth : authenticate_server L s msg ((48 + N * 392 % 2 ^ 64) % 2 ^ 64)
      ((48 + N * 392 % 2 ^ 64) % 2 ^ 64) = 1) :
    process_msg_20 L s msg msg_len
      = (fill_guests L (decrypted_AD L s msg 48 (N * 392 % 2 ^ 64)) N 0
          { s with
            nonce_bigint := nonce_incr (nonce_loop s.server_nonce_counter s.nonce_bigint)
            server_nonce_counter := (s.server_nonce_counter + 2) % 2 ^ 64
            roommates := List.replicate roommates_arr_siz roommate_zeroed
            roommate_slots_bitmask := 0
            num_roommates := N
            next_free_roommate_slot := N }).map fun s2 => (s2, 1) := by
  have e1 : SMALL_FIELD_LEN + ONE_TIME_KEY_LEN = 40 := rfl
  have e2 : SMALL_FIELD_LEN + PUBKEY_LEN = 392 := rfl
  have e3 : 2 * SMALL_FIELD_LEN + SIGNATURE_LEN L.sizeof_bigint + ONE_TIME_KEY_LEN
      = 48 + SIGNATURE_LEN L.sizeof_bigint := by
    unfold SMALL_FIELD_LEN ONE_TIME_KEY_LEN; omega
  have e4 : 2 * SMALL_FIELD_LEN + ONE_TIME_KEY_LEN = 48 := rfl
  have h1 : ¬ (N * 392 % 2 ^ 64 ≠ sub_u64 msg_len (48 + SIGNATURE_LEN L.sizeof_bigint)) :=
    fun hc => hc hlen
  have h2 : ¬ (authenticate_server L s msg ((48 + N * 392 % 2 ^ 64) % 2 ^ 64)
      ((48 + N * 392 % 2 ^ 64) % 2 ^ 64) ≠ 1) := fun hc => hc hauth
  unfold process_msg_20
  simp only []
  rw [e3, e4, e1, e2, hN, if_neg h1, if_neg h2]

theorem fill_guests_undefined (L : CryptoLib) (AD : Bytes) (k i : Nat) (s : State)
    (h : 63 < s.next_free_roommate_slot) : fill_guests L AD (k + 1) i s = none := by
  simp [fill_guests, h]

end Client

/-- C29, as the code behaves. `process_msg_20` accepts (length test and server
signature pass) a 25264-byte join reply whose guest count is 64, with
`64 * 392 = 25264 - (48 + SIGNATURE_LEN)` over the integers and `msg_len ≤ MAX_MSG_LEN`, and
a 568-byte reply whose count field is `2^61 + 1`, for which the 64-bit product wraps to 392.
In both cases the descriptor loop leaves the defined range of the 63-slot table (the model
returns `none`): nothing bounds the count by 63. -/
theorem process_msg_20_guest_count_unbounded :
    u64_at Client.join_reply_64 40 = 64
    ∧ 64 * 392 = 25264 - (48 + SIGNATURE_LEN sampleLib.sizeof_bigint)
    ∧ Client.authenticate_server sampleLib Client.sampleKeyed Client.join_reply_64
        ((48 + 64 * 392 % 2 ^ 64) % 2 ^ 64) ((48 + 64 * 392 % 2 ^ 64) % 2 ^ 64) = 1
    ∧ Client.process_msg_20 sampleLib Client.sampleKeyed Client.join_reply_64 25264 = none
    ∧ u64_at Client.join_reply_wrap 40 = 2 ^ 61 + 1
    ∧ (2 ^ 61 + 1) * 392 % 2 ^ 64 = 568 - (48 + SIGNATURE_LEN sampleLib.sizeof_bigint)
    ∧ Client.process_msg_20 sampleLib Client.sampleKeyed Client.join_reply_wrap 568
        = none := by
  have hN : u64_at Client.join_reply_64 40 = 64 :=
    u64_at_memcpy_le_bytes 25264 40 64 (by decide) (by decide)
  have hW : u64_at Client.join_reply_wrap 40 = 2 ^ 61 + 1 :=
    u64_at_memcpy_le_bytes 568 40 (2 ^ 61 + 1) (by decide) (by decide)
  refine ⟨hN, by decide, rfl, ?_, hW, by decide, ?_⟩
  · rw [Client.process_msg_20_accepted sampleLib Client.sampleKeyed Client.join_reply_64 25264
        64 hN (by decide) rfl,
      Client.fill_guests_undefined _ _ 63 0 _ (by decide)]
    rfl
  · rw [Client.process_msg_20_accepted sampleLib Client.sampleKeyed Client.join_reply_wrap 568
        (2 ^ 61 + 1) hW (by decide) rfl]
    rw [Client.fill_guests_undefined _ _ (2 ^ 61) 0 _ (by decide)]
    rfl


theorem Client.rd_join_reply_one (i : Nat) (hi : 48 ≤ i) :
    rd Client.join_reply_one i = if i = 48 then 65 else if i = 56 then 5 else 0 := by
  unfold Client.join_reply_one
  simp only [rd_memcpy, length_memcpy, length_zeros, rd_zeros, rd_le_bytes, length_le_bytes,
    List.length_cons, List.length_nil]
  by_cases e48 : i = 48
  · subst e48; simp [rd]
  · by_cases e56 : i = 56
    · subst e56; simp [rd]
    · have a : ¬ (56 ≤ i ∧ i < 56 + (0 + 1)) := by omega
      have b : ¬ (48 ≤ i ∧ i < 48 + (0 + 1)) := by omega
      have c : ¬ (40 ≤ i ∧ i < 40 + 8) := by omega
      simp [e48, e56, a, b, c]

theorem Client.u64_at_join_reply_one : u64_at Client.join_reply_one 40 = 1 := by
  apply u64_at_of_rd _ _ _ (by decide)
  intro i hi
  unfold Client.join_reply_one
  rw [rd_memcpy_out _ _ _ _ (by left; omega), rd_memcpy_out _ _ _ _ (by left; omega),
    rd_memcpy_in _ _ _ _ (by omega) (by rw [length_le_bytes]; omega)
      (by rw [length_zeros]; omega), rd_le_bytes]
  have e : 40 + i - 40 = i := by omega
  rw [e, if_pos hi]

theorem sampleLib_CHACHA20 (t : Bytes) (n : Nat) (x : Bytes) (a : Nat) (k : Bytes)
    (b : Nat) : sampleLib.CHACHA20 t n x a k b = t := rfl

/-- With the identity cipher of `sampleLib` the decrypted buffer is the slice of the
message. -/
theorem Client.rd_decrypted_AD_sample (s : Client.State) (msg : Bytes) (off len i : Nat)
    (hi : i < len) :
    rd (Client.decrypted_AD sampleLib s msg off len) i = rd msg (off + i) := by
  simp only [Client.decrypted_AD, sampleLib_CHACHA20]
  rw [rd_memcpy_in _ _ _ _ (by omega) (by rw [length_slice]; omega)
    (by rw [length_zeros]; omega), rd_slice, if_pos (by omega), rd_slice, if_pos (by omega)]
  congr 1
  omega

/-- The user id `process_msg_20` stores for the first guest of `join_reply_one`. -/
theorem Client.guest_id_join_reply_one (s t : Client.State) (KBA KAB Nonce : Bytes) :
    (Client.guest_descriptor sampleLib s
        (slice (Client.decrypted_AD sampleLib t Client.join_reply_one 48 392)
          (0 * 392) 392) KBA KAB Nonce).guest_user_id
      = [65, 0, 0, 0, 0, 0, 0, 0] := by
  unfold Client.guest_descriptor
  simp only [Client.SMALL_FIELD_LEN]
  apply bytes_ext
  · rw [length_slice]; rfl
  · intro i hi
    rw [length_slice] at hi
    rw [rd_slice, if_pos hi, rd_slice, if_pos (by omega),
      Client.rd_decrypted_AD_sample _ _ _ _ _ (by omega),
      Client.rd_join_reply_one _ (by omega)]
    interval_cases i <;> rfl


theorem Client.fill_guests_one (L : CryptoLib) (AD : Bytes) (i : Nat) (s : Client.State)
    (h1 : ¬ 63 < s.next_free_roommate_slot) (h2 : ¬ Client.roommates_arr_siz ≤ i) :
    Client.fill_guests L AD 1 i s
      = some { s with
          roommate_slots_bitmask :=
            s.roommate_slots_bitmask ||| BITMASK_BIT_AT s.next_free_roommate_slot
          roommates := s.roommates.set i
            (Client.guest_descriptor L s (slice AD (i * 392) 392) (zeros 32) (zeros 32)
              (zeros 16)) } := by
  simp [Client.fill_guests, h1, h2, Client.SMALL_FIELD_LEN, Client.SESSION_KEY_LEN,
    Client.LONG_NONCE_LEN, PUBKEY_LEN]

theorem Client.getD_set_replicate (g z : Client.roommate) (n : Nat) (hn : 0 < n) :
    ((List.replicate n z).set 0 g).getD 0 z = g := by
  cases n with
  | zero => omega
  | succ k => simp [List.replicate_succ]

/-- C21, as the code behaves. On the accepted join reply `join_reply_one`, which
carries one guest (user id `A`), `process_msg_20` returns 1 with `num_roommates = 1` and
stores the guest in slot 0, but the only bit it sets in `roommate_slots_bitmask` is
`BITMASK_BIT_AT(1)`, the bit of slot 1: slot 0, which holds the guest, is not marked
occupied, and slot 1, which holds nothing, is. -/
theorem join_reply_marks_wrong_slot :
    u64_at Client.join_reply_one 40 = 1
    ∧ (Client.process_msg_20 sampleLib Client.sampleKeyed Client.join_reply_one 568).map
        (fun r => (r.2, r.1.num_roommates, r.1.roommate_slots_bitmask,
          (Client.roommate_at r.1 0).guest_user_id))
        = some (1, 1, 2 ^ 62, [65, 0, 0, 0, 0, 0, 0, 0])
    ∧ Client.bit_set (2 ^ 62) 0 = false
    ∧ Client.bit_set (2 ^ 62) 1 = true := by
  refine ⟨Client.u64_at_join_reply_one, ?_, by decide, by decide⟩
  rw [Client.process_msg_20_accepted sampleLib Client.sampleKeyed Client.join_reply_one 568 1
      Client.u64_at_join_reply_one (by decide) rfl,
    Client.fill_guests_one _ _ 0 _ (by decide) (by decide)]
  have e : 1 * 392 % 2 ^ 64 = 392 := by decide
  simp only [Option.map_some', Client.roommate_at]
  rw [Client.getD_set_replicate _ _ _ (by decide), e, Client.guest_id_join_reply_one]
  rfl


/-! ### Session keys between roommates (C17) -/

theorem dhLib_CHACHA20 (t : Bytes) (n : Nat) (x : Bytes) (a : Nat) (k : Bytes) (b : Nat) :
    dhLib.CHACHA20 t n x a k b = t := rfl

theorem dhLib_MONT_POW_modM (b e M : bigint) :
    (dhLib.MONT_POW_modM (dhLib.Get_Mont_Form b M) e M).bits
      = le_bytes (MAX_BIGINT_SIZ / 8) (b.toNat ^ e.toNat % M.toNat) := rfl

theorem Client.bits_this_pubkey (L : CryptoLib) (info : Bytes) :
    (Client.this_pubkey L info).bits
      = memcpy (zeros (MAX_BIGINT_SIZ / 8)) 0 (slice info 8 384) := rfl

theorem Client.guest_descriptor_keys (L : CryptoLib) (s : Client.State)
    (info KBA KAB Nonce : Bytes) :
    (Client.guest_descriptor L s info KBA KAB Nonce).guest_KBA
        = memcpy KBA 0 (slice (Client.temp_shared_secret L s info).bits 0 32)
    ∧ (Client.guest_descriptor L s info KBA KAB Nonce).guest_KAB
        = memcpy KAB 0 (slice (Client.temp_shared_secret L s info).bits 32 32)
    ∧ (Client.guest_descriptor L s info KBA KAB Nonce).guest_Nonce
        = memcpy Nonce 0 (slice (Client.temp_shared_secret L s info).bits 64 16)
    ∧ (Client.guest_descriptor L s info KBA KAB Nonce).guest_user_id = slice info 0 8
    ∧ (Client.guest_descriptor L s info KBA KAB Nonce).guest_nonce_counter = 0 :=
  ⟨rfl, rfl, rfl, rfl, rfl⟩

theorem Client.rd_decrypted_AD_dh (s : Client.State) (msg : Bytes) (off len i : Nat)
    (hi : i < len) :
    rd (Client.decrypted_AD dhLib s msg off len) i = rd msg (off + i) := by
  simp only [Client.decrypted_AD, dhLib_CHACHA20]
  rw [rd_memcpy_in _ _ _ _ (by omega) (by rw [length_slice]; omega)
    (by rw [length_zeros]; omega), rd_slice, if_pos (by omega), rd_slice, if_pos (by omega)]
  congr 1
  omega

/-- The shared secret and the two key buffers of the descriptor built with `dhLib` from
guest information whose key has the single non-zero byte `p` at its start. -/
theorem Client.guest_keys_dh (s : Client.State) (info KBA KAB Nonce : Bytes) (p v : Nat)
    (hp0 : rd info 8 = p) (hp : ∀ i, 0 < i → i < 384 → rd info (8 + i) = 0)
    (hv : p ^ s.own_privkey.toNat % s.M.toNat = v) (hv256 : v < 256)
    (hKBA : KBA.length = 32) (hKAB : KAB.length = 32) :
    (Client.guest_descriptor dhLib s info KBA KAB Nonce).guest_KBA = le_bytes 32 v
    ∧ (Client.guest_descriptor dhLib s info KBA KAB Nonce).guest_KAB = zeros 32 := by
  have hpub : le_toNat (memcpy (zeros (MAX_BIGINT_SIZ / 8)) 0 (slice info 8 384)) = p := by
    apply le_toNat_of_rd
    · rw [rd_memcpy_in _ _ _ _ (by omega) (by rw [length_slice]; omega)
        (by rw [length_zeros]; decide), rd_slice, if_pos (by omega)]
      exact hp0
    · intro i hi
      rw [rd_memcpy, length_zeros, rd_zeros, length_slice, rd_slice]
      by_cases h384 : i < 384
      · have h1 : i - 0 < 384 := by omega
        have e : 8 + (i - 0) = 8 + i := by omega
        simp only [h1, e, if_true, hp i hi h384, ite_self]
      · have h2 : ¬ (0 ≤ i ∧ i < 0 + 384) := by omega
        simp only [if_neg h2, ite_self]
  have h1600 : MAX_BIGINT_SIZ / 8 = 1600 := by decide
  have hS : (Client.temp_shared_secret dhLib s info).bits = le_bytes 1600 v := by
    unfold Client.temp_shared_secret
    rw [dhLib_MONT_POW_modM, h1600]
    unfold bigint.toNat at hv ⊢
    rw [Client.bits_this_pubkey, hpub, hv]
  rw [(Client.guest_descriptor_keys dhLib s info KBA KAB Nonce).1,
    (Client.guest_descriptor_keys dhLib s info KBA KAB Nonce).2.1, hS]
  constructor
  · apply bytes_ext
    · rw [length_memcpy, hKBA, length_le_bytes]
    · intro i hi
      rw [length_memcpy, hKBA] at hi
      rw [rd_memcpy_in _ _ _ _ (by omega) (by rw [length_slice]; omega) (by omega),
        rd_slice, if_pos (by omega), Nat.zero_add, Nat.sub_zero, rd_le_bytes, rd_le_bytes,
        if_pos hi, if_pos (by omega)]
  · apply bytes_ext
    · rw [length_memcpy, hKAB, length_zeros]
    · intro i hi
      rw [length_memcpy, hKAB] at hi
      rw [rd_memcpy_in _ _ _ _ (by omega) (by rw [length_slice]; omega) (by omega),
        rd_slice, if_pos (by omega), Client.rd_le_bytes_small _ _ _ hv256, rd_zeros]
      exact if_neg (by omega)


namespace Client

theorem process_msg_21_null (L : CryptoLib) (s : State) (msg : Bytes)
    (hauth : authenticate_server L s msg 432 432 = 1)
    (hix : s.next_free_roommate_slot < 63)
    (hnull : (roommate_at s s.next_free_roommate_slot).guest_KBA = []) :
    process_msg_21 L s msg = none := by
  have e1 : 2 * SMALL_FIELD_LEN + ONE_TIME_KEY_LEN + PUBKEY_LEN = 432 := rfl
  have h1 : ¬ (authenticate_server L s msg 432 432 ≠ 1) := fun hc => hc hauth
  have h2 : ¬ (63 < s.next_free_roommate_slot ∨ roommates_arr_siz ≤ s.next_free_roommate_slot) := by
    unfold roommates_arr_siz; omega
  unfold process_msg_21
  simp only []
  rw [e1, if_neg h1, if_neg h2, if_pos (Or.inl hnull)]

theorem process_msg_21_accepted (L : CryptoLib) (s : State) (msg : Bytes)
    (hauth : authenticate_server L s msg 432 432 = 1)
    (hix : s.next_free_roommate_slot < 63)
    (h1 : (roommate_at s s.next_free_roommate_slot).guest_KBA ≠ [])
    (h2 : (roommate_at s s.next_free_roommate_slot).guest_KAB ≠ [])
    (h3 : (roommate_at s s.next_free_roommate_slot).guest_Nonce ≠ []) :
    process_msg_21 L s msg
      = some ({ s with
          nonce_bigint := nonce_incr (nonce_loop s.server_nonce_counter s.nonce_bigint)
          server_nonce_counter := (s.server_nonce_counter + 2) % 2 ^ 64
          roommate_slots_bitmask :=
            s.roommate_slots_bitmask ||| BITMASK_BIT_AT s.next_free_roommate_slot
          roommate_key_usage_bitmask :=
            s.roommate_key_usage_bitmask ||| BITMASK_BIT_AT s.next_free_roommate_slot
          roommates := s.roommates.set s.next_free_roommate_slot
            (guest_descriptor L s (decrypted_AD L s msg 40 392)
              (roommate_at s s.next_free_roommate_slot).guest_KBA
              (roommate_at s s.next_free_roommate_slot).guest_KAB
              (roommate_at s s.next_free_roommate_slot).guest_Nonce) }, 1) := by
  have e1 : 2 * SMALL_FIELD_LEN + ONE_TIME_KEY_LEN + PUBKEY_LEN = 432 := rfl
  have e2 : ONE_TIME_KEY_LEN + SMALL_FIELD_LEN = 40 := rfl
  have e3 : SMALL_FIELD_LEN + PUBKEY_LEN = 392 := rfl
  have ha : ¬ (authenticate_server L s msg 432 432 ≠ 1) := fun hc => hc hauth
  have hb : ¬ (63 < s.next_free_roommate_slot ∨ roommates_arr_siz ≤ s.next_free_roommate_slot) := by
    unfold roommates_arr_siz; omega
  have hc : ¬ ((roommate_at s s.next_free_roommate_slot).guest_KBA = []
      ∨ (roommate_at s s.next_free_roommate_slot).guest_KAB = []
      ∨ (roommate_at s s.next_free_roommate_slot).guest_Nonce = []) := by
    rintro (h | h | h)
    · exact h1 h
    · exact h2 h
    · exact h3 h
  unfold process_msg_21
  simp only []
  rw [e1, e2, e3, if_neg ha, if_neg hb, if_neg hc]

end Client


theorem Client.getD_set_zero (l : List Client.roommate) (g z : Client.roommate)
    (h : 0 < l.length) : (l.set 0 g).getD 0 z = g := by
  cases l with
  | nil => simp at h
  | cons a t => simp

theorem Client.rd_join_notification_J (i : Nat) (hi : 40 ≤ i) :
    rd Client.join_notification_J i = if i = 40 then 74 else if i = 48 then 2 else 0 := by
  unfold Client.join_notification_J
  simp only [rd_memcpy, length_memcpy, length_zeros, rd_zeros, List.length_cons,
    List.length_nil]
  by_cases e40 : i = 40
  · subst e40; simp [rd]
  · by_cases e48 : i = 48
    · subst e48; simp [rd]
    · have a : ¬ (48 ≤ i ∧ i < 48 + (0 + 1)) := by omega
      have b : ¬ (40 ≤ i ∧ i < 40 + (0 + 1)) := by omega
      simp [e40, e48, a, b]

/-- C17, as the code behaves. With the toy Diffie-Hellman of `dhLib` (`M = 7`,
generator 3) the joiner `J` (private key 2) and the room member `A` (private key 5, public
key 5) compute the same shared secret 4. `J` learns `A` through `process_msg_20` and, its
usage bit being 0, selects `guest_KBA = S[0..32)` (value 4) both to encrypt to `A` and to
decrypt from `A`. `A` learns `J` through `process_msg_21`, which sets the usage bit, so `A`
selects `guest_KAB = S[32..64)` (all zero) in both directions: the key one side encrypts
with is not the key the other side decrypts with. This is with key buffers already behind
the pointers of the slot of `A`; from the zeroed slot the code has, `process_msg_21` writes
through null pointers (the model returns `none`). -/
theorem roommate_session_keys_differ :
    5 ^ (small 2).toNat % (small 7).toNat = 2 ^ (small 5).toNat % (small 7).toNat
    ∧ (Client.process_msg_20 dhLib Client.sampleJ Client.join_reply_one 568).map
        (fun r => (r.2, Client.chacha_key r.1 0)) = some (1, le_bytes 32 4)
    ∧ Client.process_msg_21 dhLib Client.sampleA Client.join_notification_J = none
    ∧ (Client.process_msg_21 dhLib Client.sampleA_allocated Client.join_notification_J).map
        (fun r => (r.2, Client.chacha_key r.1 0)) = some (1, zeros 32) := by
  have e392 : 1 * 392 % 2 ^ 64 = 392 := by decide
  have hJ := Client.guest_keys_dh
    { Client.sampleJ with
      nonce_bigint := Client.nonce_incr
        (Client.nonce_loop Client.sampleJ.server_nonce_counter Client.sampleJ.nonce_bigint)
      server_nonce_counter := (Client.sampleJ.server_nonce_counter + 2) % 2 ^ 64
      roommates := List.replicate Client.roommates_arr_siz Client.roommate_zeroed
      roommate_slots_bitmask := 0
      num_roommates := 1
      next_free_roommate_slot := 1 }
    (slice (Client.decrypted_AD dhLib Client.sampleJ Client.join_reply_one 48 392) (0 * 392)
      392) (zeros 32) (zeros 32) (zeros 16) 5 4
    (by rw [rd_slice, if_pos (by decide), Client.rd_decrypted_AD_dh _ _ _ _ _ (by decide),
          Client.rd_join_reply_one _ (by decide)]; rfl)
    (by intro i h0 h384
        rw [rd_slice, if_pos (by omega), Client.rd_decrypted_AD_dh _ _ _ _ _ (by omega),
          Client.rd_join_reply_one _ (by omega), if_neg (by omega), if_neg (by omega)])
    (by decide) (by decide) (length_zeros 32) (length_zeros 32)
  have hA := Client.guest_keys_dh Client.sampleA_allocated
    (Client.decrypted_AD dhLib Client.sampleA_allocated Client.join_notification_J 40 392)
    (zeros 32) (zeros 32) (zeros 16) 2 4
    (by rw [Client.rd_decrypted_AD_dh _ _ _ _ _ (by decide),
          Client.rd_join_notification_J _ (by decide)]; rfl)
    (by intro i h0 h384
        rw [Client.rd_decrypted_AD_dh _ _ _ _ _ (by omega),
          Client.rd_join_notification_J _ (by omega), if_neg (by omega), if_neg (by omega)])
    (by decide) (by decide) (length_zeros 32) (length_zeros 32)
  refine ⟨by decide, ?_, ?_, ?_⟩
  · rw [Client.process_msg_20_accepted dhLib Client.sampleJ Client.join_reply_one 568 1
        Client.u64_at_join_reply_one (by decide) rfl,
      Client.fill_guests_one _ _ 0 _ (by decide) (by decide)]
    simp only [Option.map_some', Client.chacha_key, Client.roommate_at]
    rw [Client.getD_set_replicate _ _ _ (by decide), e392, hJ.1]
    decide
  · exact Client.process_msg_21_null dhLib Client.sampleA Client.join_notification_J rfl
      (by decide) rfl
  · rw [Client.process_msg_21_accepted dhLib Client.sampleA_allocated
        Client.join_notification_J rfl (by decide) (by decide) (by decide) (by decide)]
    have hix : Client.sampleA_allocated.next_free_roommate_slot = 0 := rfl
    have hKBA : (Client.roommate_at Client.sampleA_allocated 0).guest_KBA = zeros 32 := rfl
    have hKAB : (Client.roommate_at Client.sampleA_allocated 0).guest_KAB = zeros 32 := rfl
    have hNon : (Client.roommate_at Client.sampleA_allocated 0).guest_Nonce = zeros 16 := rfl
    have hlen : 0 < Client.sampleA_allocated.roommates.length := by decide
    have hbit : Client.bit_set
        (Client.sampleA_allocated.roommate_key_usage_bitmask ||| BITMASK_BIT_AT 0) 0
        = true := by decide
    rw [hix, hKBA, hKAB, hNon]
    simp only [Option.map_some', Client.chacha_key, hbit, if_true]
    unfold Client.roommate_at
    simp only []
    rw [Client.getD_set_zero _ _ _ hlen, hA.2]
    decide

theorem Client.add_only_loop_fst (k : Nat) (n a : bigint) :
    (Client.add_only_loop k n a).1 = n := by
  induction k generalizing a with
  | zero => rfl
  | succ k ih => exact ih _

theorem Client.add_only_loop_snd (k : Nat) (n a : bigint) :
    bigint_add_fast n (bigint_create MAX_BIGINT_SIZ 1) (Client.add_only_loop k n a).2
      = bigint_add_fast n (bigint_create MAX_BIGINT_SIZ 1) a := by
  induction k generalizing a with
  | zero => rfl
  | succ k ih =>
    have h := ih (bigint_add_fast n (bigint_create MAX_BIGINT_SIZ 1) a)
    have e : Client.add_only_loop (k + 1) n a
        = Client.add_only_loop k n (bigint_add_fast n (bigint_create MAX_BIGINT_SIZ 1) a) := rfl
    rw [e, h]
    simp [bigint_add_fast, length_le_bytes]

/-- The nonce `construct_msg_30` uses is one increment of the stored base nonce. -/
theorem Client.msg_30_nonce_eq (L : CryptoLib) (r : Client.roommate) :
    Client.msg_30_nonce L r = Client.nonce_incr (Client.guest_nonce_bigint L r) := by
  unfold Client.msg_30_nonce Client.nonce_incr
  simp only [Client.add_only_loop_fst, Client.add_only_loop_snd]

theorem Client.rd_guest_nonce_bigint (L : CryptoLib) (r : Client.roommate) (v : Nat)
    (hv : v < 256) (hN : r.guest_Nonce = le_bytes 16 v) (i : Nat) :
    rd (Client.guest_nonce_bigint L r).bits i = rd (le_bytes 1600 v) i := by
  unfold Client.guest_nonce_bigint
  simp only [hN]
  rw [rd_memcpy, length_zeros, length_slice, rd_slice, rd_zeros, Client.rd_le_bytes_small _ _ _ hv,
    Client.rd_le_bytes_small _ _ _ hv]
  unfold MAX_BIGINT_SIZ LONG_NONCE_LEN
  by_cases h0 : i = 0
  · subst h0; simp
  · have e : ¬ (i - 0 = 0) := by omega
    have e2 : ¬ (0 + (i - 0) = 0 ∧ 0 < 16) := by omega
    simp [h0, e, e2]

theorem Client.length_guest_nonce_bigint (L : CryptoLib) (r : Client.roommate) :
    (Client.guest_nonce_bigint L r).bits.length = 1600 := by
  simp [Client.guest_nonce_bigint, length_memcpy, length_zeros, MAX_BIGINT_SIZ]

theorem Client.roommate_at_sampleInRoom :
    Client.roommate_at Client.sampleInRoom 0 = { Client.roommate_zeroed with
        guest_user_id := [66, 0, 0, 0, 0, 0, 0, 0], guest_KBA := le_bytes 32 11,
        guest_KAB := le_bytes 32 22, guest_Nonce := le_bytes 16 7,
        guest_nonce_counter := 4 } := by
  unfold Client.roommate_at Client.sampleInRoom
  simp only []
  rw [Client.getD_set_replicate _ _ _ (by decide)]

/-- The 12 nonce bytes `construct_msg_30` gives the cipher for the roommate of
`sampleInRoom`: the base nonce 7 incremented once, although the counter is 4. -/
theorem Client.msg_30_nonce_sampleInRoom :
    slice (Client.msg_30_nonce sampleLib (Client.roommate_at Client.sampleInRoom 0)).bits 0 12
      = le_bytes 12 8 := by
  rw [Client.msg_30_nonce_eq, Client.roommate_at_sampleInRoom]
  have hb := Client.nonce_incr_bits
    (Client.guest_nonce_bigint sampleLib { Client.roommate_zeroed with
        guest_user_id := [66, 0, 0, 0, 0, 0, 0, 0], guest_KBA := le_bytes 32 11,
        guest_KAB := le_bytes 32 22, guest_Nonce := le_bytes 16 7,
        guest_nonce_counter := 4 }) 7
    (Client.length_guest_nonce_bigint _ _)
    (Client.rd_guest_nonce_bigint _ _ 7 (by decide) rfl) (by decide)
  rw [hb]
  apply bytes_ext
  · rw [length_slice, length_le_bytes]
  · intro i hi
    rw [length_slice] at hi
    rw [rd_slice, if_pos hi, Nat.zero_add, rd_le_bytes, rd_le_bytes, if_pos hi,
      if_pos (by omega)]

/-! ### `construct_msg_30`: when it is defined and what it leaves -/

theorem Client.occupied_below_succ (s : Client.State) (i : Nat) :
    Client.occupied_below s (i + 1)
      = Client.occupied_below s i
        + if Client.bit_set s.roommate_slots_bitmask i = true then 1 else 0 := by
  unfold Client.occupied_below
  rw [List.range_succ, List.filter_append, List.length_append]
  by_cases hb : Client.bit_set s.roommate_slots_bitmask i = true
  · simp [hb]
  · simp [hb]

theorem Client.occupied_below_mono (s : Client.State) (i k : Nat) :
    Client.occupied_below s i ≤ Client.occupied_below s (i + k) := by
  induction k with
  | zero => exact Nat.le_refl _
  | succ k ih =>
    have e : i + (k + 1) = (i + k) + 1 := by omega
    rw [e, Client.occupied_below_succ]
    omega

theorem Client.AD_loop_defined (L : CryptoLib) (s : Client.State) (text_msg : Bytes)
    (len k : Nat) :
    ∀ (i : Nat) (ad : Bytes × Nat),
      ad.2 = Client.occupied_below s i
        * (Client.SMALL_FIELD_LEN + Client.ONE_TIME_KEY_LEN + len) →
      Client.occupied_below s (i + k)
        * (Client.SMALL_FIELD_LEN + Client.ONE_TIME_KEY_LEN + len) ≤ ad.1.length →
      (∀ j, i ≤ j → j < i + k → Client.bit_set s.roommate_slots_bitmask j = true →
        Client.reads_null s j = false) →
      ∃ ad1, Client.AD_loop L s text_msg len k i ad = some ad1 := by
  induction k with
  | zero => exact fun i ad _ _ _ => ⟨ad, rfl⟩
  | succ k ih =>
    intro i ad hoff hroom h
    have e1 : i + (k + 1) = (i + 1) + k := by omega
    rw [e1] at hroom
    have hmono := Client.occupied_below_mono s (i + 1) k
    have hsucc := Client.occupied_below_succ s i
    have hle := Nat.mul_le_mul_right
      (Client.SMALL_FIELD_LEN + Client.ONE_TIME_KEY_LEN + len) hmono
    have hstep : ∃ a, Client.AD_step L s text_msg len ad i = some a
        ∧ a.2 = Client.occupied_below s (i + 1)
          * (Client.SMALL_FIELD_LEN + Client.ONE_TIME_KEY_LEN + len)
        ∧ a.1.length = ad.1.length := by
      unfold Client.AD_step
      by_cases hb : Client.bit_set s.roommate_slots_bitmask i = true
      · rw [if_pos hb] at hsucc
        have hw : Client.occupied_below s (i + 1)
            * (Client.SMALL_FIELD_LEN + Client.ONE_TIME_KEY_LEN + len)
            = ad.2 + Client.SMALL_FIELD_LEN + Client.ONE_TIME_KEY_LEN + len := by
          rw [hsucc, Nat.add_mul, Nat.one_mul, hoff]
          omega
        have hn : ¬ (Client.reads_null s i = true) := by
          rw [h i (Nat.le_refl i) (by omega) hb]; decide
        rw [if_pos hb, if_neg (by omega), if_neg hn, if_neg (by omega)]
        refine ⟨_, rfl, ?_, ?_⟩
        · exact hw.symm
        · simp only [length_memcpy]
      · rw [if_neg hb] at hsucc
        rw [if_neg hb]
        refine ⟨ad, rfl, ?_, rfl⟩
        rw [hsucc, Nat.add_zero]
        exact hoff
    obtain ⟨a, ha, ha2, hal⟩ := hstep
    obtain ⟨b, hb⟩ := ih (i + 1) a ha2 (by rw [hal]; exact hroom)
      (fun j h1 h2 => h j (by omega) (by omega))
    refine ⟨b, ?_⟩
    have e : Client.AD_loop L s text_msg len (k + 1) i ad
        = (Client.AD_step L s text_msg len ad i).bind fun ad1 =>
            Client.AD_loop L s text_msg len k (i + 1) ad1 := rfl
    rw [e, ha]
    exact hb

theorem Client.AD_loop_valid (L : CryptoLib) (s : Client.State) (text_msg : Bytes)
    (len k : Nat) :
    ∀ (i : Nat) (ad ad1 : Bytes × Nat),
      Client.AD_loop L s text_msg len k i ad = some ad1 →
      ∀ j, i ≤ j → j < i + k → Client.bit_set s.roommate_slots_bitmask j = true →
        Client.reads_null s j = false := by
  induction k with
  | zero => exact fun i ad ad1 _ j h1 h2 => absurd h2 (by omega)
  | succ k ih =>
    intro i ad ad1 h j h1 h2 hb
    have e : Client.AD_loop L s text_msg len (k + 1) i ad
        = (Client.AD_step L s text_msg len ad i).bind fun ad1 =>
            Client.AD_loop L s text_msg len k (i + 1) ad1 := rfl
    rw [e, Option.bind_eq_some] at h
    obtain ⟨a, ha, hrest⟩ := h
    by_cases hji : j = i
    · subst hji
      unfold Client.AD_step at ha
      rw [if_pos hb] at ha
      by_cases h0 : ad.1.length < ad.2 + Client.SMALL_FIELD_LEN
      · rw [if_pos h0] at ha
        exact absurd ha (by simp)
      · rw [if_neg h0] at ha
        cases hn : Client.reads_null s j with
        | false => rfl
        | true =>
          rw [hn, if_pos rfl] at ha
          exact absurd ha (by simp)
    · exact ih (i + 1) a ad1 hrest j (by omega) (by omega) hb

/-- What `construct_msg_30` leaves when it returns: the counters of the occupied slots raised
by 2, both bitmasks as they were, one packet sent; and no occupied slot had a null nonce or
key pointer. -/
theorem Client.construct_msg_30_some (L : CryptoLib) (s : Client.State) (text_msg : Bytes)
    (len : Nat) (K : Bytes) (send_ret : Int) (r : Client.State × Nat)
    (h : Client.construct_msg_30 L s text_msg len (some K) send_ret = some r) :
    r.1.roommates = (List.range Client.roommates_arr_siz).map (fun i =>
        if Client.bit_set s.roommate_slots_bitmask i then
          { Client.roommate_at s i with
            guest_nonce_counter :=
              ((Client.roommate_at s i).guest_nonce_counter + 2) % 2 ^ 64 }
        else Client.roommate_at s i)
    ∧ r.1.roommate_key_usage_bitmask = s.roommate_key_usage_bitmask
    ∧ r.1.roommate_slots_bitmask = s.roommate_slots_bitmask
    ∧ r.1.sent = s.sent ++ [Client.msg_30 L s len]
    ∧ ∀ j, j < MAX_CLIENTS - 1 → Client.bit_set s.roommate_slots_bitmask j = true →
        Client.reads_null s j = false := by
  unfold Client.construct_msg_30 at h
  rw [if_neg (by simp), Option.map_eq_some'] at h
  obtain ⟨a, ha, hr⟩ := h
  have hv : ∀ j, j < MAX_CLIENTS - 1 → Client.bit_set s.roommate_slots_bitmask j = true →
      Client.reads_null s j = false := by
    unfold Client.associated_data at ha
    rw [Option.map_eq_some'] at ha
    obtain ⟨ad1, had, _⟩ := ha
    intro j hj hb
    exact Client.AD_loop_valid L s text_msg len _ 0 _ ad1 had j (Nat.zero_le j) (by omega) hb
  by_cases h1 : send_ret = -1
  · rw [if_pos h1] at hr
    rw [← hr]
    exact ⟨rfl, rfl, rfl, rfl, hv⟩
  · rw [if_neg h1] at hr
    rw [← hr]
    exact ⟨rfl, rfl, rfl, rfl, hv⟩

/-- The function `construct_msg_30` returns when the `L` bytes of `associated_data` have room
for every occupied slot and no occupied slot has a null nonce or key pointer. -/
theorem Client.construct_msg_30_defined (L : CryptoLib) (s : Client.State) (text_msg : Bytes)
    (len : Nat) (K : Bytes) (send_ret : Int)
    (hroom : Client.occupied_below s (MAX_CLIENTS - 1)
        * (Client.SMALL_FIELD_LEN + Client.ONE_TIME_KEY_LEN + len)
      ≤ s.num_roommates * (Client.SMALL_FIELD_LEN + Client.ONE_TIME_KEY_LEN + len) % 2 ^ 64)
    (hv : ∀ j, j < MAX_CLIENTS - 1 → Client.bit_set s.roommate_slots_bitmask j = true →
      Client.reads_null s j = false) :
    ∃ r, Client.construct_msg_30 L s text_msg len (some K) send_ret = some r := by
  obtain ⟨ad1, had⟩ := Client.AD_loop_defined L s text_msg len (MAX_CLIENTS - 1) 0
    (zeros (s.num_roommates * (Client.SMALL_FIELD_LEN + Client.ONE_TIME_KEY_LEN + len)
      % 2 ^ 64), 0)
    (by simp [Client.occupied_below])
    (by rw [Nat.zero_add]; simp only [length_zeros]; exact hroom)
    (fun j _ h2 hb => hv j (by omega) hb)
  unfold Client.construct_msg_30 Client.associated_data
  rw [if_neg (by simp), had]
  exact ⟨_, rfl⟩

theorem Client.roommate_at_construct_msg_30 (L : CryptoLib) (s : Client.State)
    (text_msg : Bytes) (len : Nat) (K : Bytes) (send_ret : Int) (r : Client.State × Nat)
    (h : Client.construct_msg_30 L s text_msg len (some K) send_ret = some r) (i : Nat)
    (hi : i < Client.roommates_arr_siz) :
    Client.roommate_at r.1 i
      = if Client.bit_set s.roommate_slots_bitmask i then
          { Client.roommate_at s i with
            guest_nonce_counter :=
              ((Client.roommate_at s i).guest_nonce_counter + 2) % 2 ^ 64 }
        else Client.roommate_at s i := by
  have hr := (Client.construct_msg_30_some L s text_msg len K send_ret r h).1
  unfold Client.roommate_at
  rw [hr, List.getD_eq_getElem?_getD, List.getElem?_map, List.getElem?_range hi]
  rfl

/-- The only slot the mask `2^63` marks is slot 0. -/
theorem Client.bit_set_top (j : Nat) (h : Client.bit_set (2 ^ 63) j = true) : j = 0 := by
  unfold Client.bit_set BITMASK_BIT_AT at h
  rw [Nat.one_shiftLeft] at h
  by_cases h0 : j = 0
  · exact h0
  · have hz : 2 ^ 63 &&& 2 ^ (63 - j) = 0 := by
      rw [and_two_pow_eq_zero_iff, Nat.testBit_two_pow]
      simp
      omega
    rw [hz] at h
    exact absurd h (by decide)

/-- With the mask `2^63` one slot is occupied. -/
theorem Client.occupied_below_top (s : Client.State) (hm : s.roommate_slots_bitmask = 2 ^ 63)
    (i : Nat) : Client.occupied_below s (i + 1) = 1 := by
  induction i with
  | zero =>
    rw [Client.occupied_below_succ, hm, if_pos (by decide)]
    rfl
  | succ i ih =>
    rw [Client.occupied_below_succ, ih, hm,
      if_neg (fun hb => absurd (Client.bit_set_top (i + 1) hb) (by omega))]

theorem Client.sampleInRoom_valid (j : Nat) (_hj : j < MAX_CLIENTS - 1)
    (hb : Client.bit_set Client.sampleInRoom.roommate_slots_bitmask j = true) :
    Client.reads_null Client.sampleInRoom j = false := by
  have h0 : j = 0 := Client.bit_set_top j hb
  subst h0
  unfold Client.reads_null Client.key_buffer
  rw [Client.roommate_at_sampleInRoom, if_pos (by decide)]
  rfl

theorem Client.sampleInRoom_room :
    Client.occupied_below Client.sampleInRoom (MAX_CLIENTS - 1)
        * (Client.SMALL_FIELD_LEN + Client.ONE_TIME_KEY_LEN + 2)
      ≤ Client.sampleInRoom.num_roommates
        * (Client.SMALL_FIELD_LEN + Client.ONE_TIME_KEY_LEN + 2) % 2 ^ 64 := by
  have e : MAX_CLIENTS - 1 = 62 + 1 := rfl
  rw [e, Client.occupied_below_top Client.sampleInRoom rfl 62]
  decide
/-- C30, as the code behaves. Whenever `construct_msg_30` returns (randomness read), for an
occupied slot `i` it has raised the counter by 2 and kept the selected session key, and the
nonce it gives the cipher for that roommate is the same before and after the call: it is one
increment of the stored base nonce whatever the counter is, because the loop over the
counter stores each sum in `aux1` and never assigns `guest_nonce_bigint`. Two successive
calls therefore encrypt under the same (session key, nonce) pair. -/
theorem construct_msg_30_nonce_ignores_counter (L : CryptoLib) (s : Client.State)
    (text_msg : Bytes) (len : Nat) (K : Bytes) (send_ret : Int) (r : Client.State × Nat)
    (i : Nat)
    (hr : Client.construct_msg_30 L s text_msg len (some K) send_ret = some r)
    (hi : i < Client.roommates_arr_siz)
    (hocc : Client.bit_set s.roommate_slots_bitmask i = true) :
    (Client.roommate_at r.1 i).guest_nonce_counter
        = ((Client.roommate_at s i).guest_nonce_counter + 2) % 2 ^ 64
    ∧ Client.chacha_key r.1 i = Client.chacha_key s i
    ∧ Client.msg_30_nonce L (Client.roommate_at r.1 i)
        = Client.msg_30_nonce L (Client.roommate_at s i)
    ∧ Client.msg_30_nonce L (Client.roommate_at s i)
        = Client.nonce_incr (Client.guest_nonce_bigint L (Client.roommate_at s i)) := by
  have hro := Client.roommate_at_construct_msg_30 L s text_msg len K send_ret r hr i hi
  rw [if_pos hocc] at hro
  have hm := (Client.construct_msg_30_some L s text_msg len K send_ret r hr).2.1
  refine ⟨?_, ?_, ?_, Client.msg_30_nonce_eq L _⟩
  · rw [hro]
  · unfold Client.chacha_key
    rw [hro, hm]
  · rw [hro, Client.msg_30_nonce_eq, Client.msg_30_nonce_eq]
    rfl

theorem construct_msg_30_nonce_ignores_counter_witness :
    (Client.roommate_at Client.sampleInRoom 0).guest_nonce_counter = 4
    ∧ slice (Client.msg_30_nonce sampleLib (Client.roommate_at Client.sampleInRoom 0)).bits
        0 12 = le_bytes 12 8
    ∧ ∃ r, Client.construct_msg_30 sampleLib Client.sampleInRoom [104, 105] 2
          (some (zeros 32)) 0 = some r
        ∧ (Client.roommate_at r.1 0).guest_nonce_counter = (4 + 2) % 2 ^ 64
        ∧ Client.msg_30_nonce sampleLib (Client.roommate_at r.1 0)
            = Client.msg_30_nonce sampleLib (Client.roommate_at Client.sampleInRoom 0) := by
  have hc : (Client.roommate_at Client.sampleInRoom 0).guest_nonce_counter = 4 := by
    rw [Client.roommate_at_sampleInRoom]
  obtain ⟨r, hr⟩ := Client.construct_msg_30_defined sampleLib Client.sampleInRoom [104, 105] 2
    (zeros 32) 0 Client.sampleInRoom_room Client.sampleInRoom_valid
  have h := construct_msg_30_nonce_ignores_counter sampleLib Client.sampleInRoom [104, 105] 2
    (zeros 32) 0 r 0 hr (by decide) (by decide)
  refine ⟨hc, Client.msg_30_nonce_sampleInRoom, r, hr, ?_, h.2.2.1⟩
  have h1 := h.1
  rw [hc] at h1
  exact h1
/-! ### `process_msg_30`: its return paths -/

theorem Client.rd_sample_30 (i : Nat) (hi : 8 ≤ i) :
    rd Client.sample_30 i
      = if i = 8 then 66 else if i = 16 then 2 else if i = 64 then 104
        else if i = 65 then 105 else 0 := by
  unfold Client.sample_30
  simp only [rd_memcpy, length_memcpy, length_zeros, rd_zeros, List.length_cons,
    List.length_nil, length_le_bytes]
  by_cases e8 : i = 8
  · subst e8; simp [rd]
  · by_cases e16 : i = 16
    · subst e16; simp [rd]
    · by_cases e64 : i = 64
      · subst e64; simp [rd]
      · by_cases e65 : i = 65
        · subst e65; simp [rd]
        · have a : ¬ (64 ≤ i ∧ i < 64 + (0 + 1 + 1)) := by omega
          have b : ¬ (16 ≤ i ∧ i < 16 + (0 + 1)) := by omega
          have c : ¬ (8 ≤ i ∧ i < 8 + (0 + 1)) := by omega
          have d : ¬ i < 8 := by omega
          simp [e8, e16, e64, e65, a, b, c, d]

theorem Client.msg_30_sampleSender :
    Client.msg_30 sampleLib Client.sampleSender 2
      = send_bytes (memcpy (memcpy (memcpy (memcpy (zeros 194) 0 (le_bytes 8 PACKET_ID_30)) 8
          (le_bytes 8 65)) 16 (le_bytes 8 2)) 66 (List.replicate 128 1)) 194 := by
  unfold Client.msg_30
  have e1 : Client.sampleSender.num_roommates = 1 := rfl
  have e2 : Client.sampleSender.own_ix = 65 := rfl
  have e3 : sampleLib.sizeof_bigint = 24 := rfl
  have e4 : ∀ a b c d e f g, sampleLib.Signature_GENERATE a b c d e f g = List.replicate 128 1 :=
    fun _ _ _ _ _ _ _ => rfl
  simp only [e1, e2, e3, e4]
  have n1 : (1 * (SMALL_FIELD_LEN + ONE_TIME_KEY_LEN + 2) % 2 ^ 64 + 3 * SMALL_FIELD_LEN
      + SIGNATURE_LEN 24) % 2 ^ 64 = 194 := by decide
  have n2 : sub_u64 194 (SIGNATURE_LEN 24) = 66 := by decide
  have n3 : 2 * SMALL_FIELD_LEN = 16 := rfl
  have n4 : SMALL_FIELD_LEN = 8 := rfl
  rw [n1, n2, n3, n4]
theorem Client.rd_forwarded_30 (i : Nat) (h8 : 8 ≤ i) (h66 : i < 66) :
    rd Client.forwarded_30 i = if i = 8 then 65 else if i = 16 then 2 else 0 := by
  have hl : (Client.msg_30 sampleLib Client.sampleSender 2).length = 194 := by
    rw [Client.msg_30_sampleSender]
    simp [send_bytes, length_memcpy, length_zeros]
  unfold Client.forwarded_30
  unfold rd
  rw [List.getD_append _ _ _ _ (by rw [hl]; omega)]
  change rd (Client.msg_30 sampleLib Client.sampleSender 2) i = _
  rw [Client.msg_30_sampleSender]
  unfold send_bytes
  rw [Server.rd_take, if_pos (by omega)]
  rw [rd_memcpy_out _ _ _ _ (Or.inl h66)]
  by_cases h16 : 16 ≤ i
  · by_cases h24 : i < 24
    · rw [rd_memcpy_in _ _ _ _ h16 (by rw [length_le_bytes]; omega)
        (by simp [length_memcpy, length_zeros]; omega), Client.rd_le_bytes_small _ _ _ (by decide)]
      by_cases e : i = 16
      · subst e; rfl
      · rw [if_neg (by omega), if_neg (by omega), if_neg e]
    · rw [rd_memcpy_out _ _ _ _ (Or.inr (by rw [length_le_bytes]; omega)),
        rd_memcpy_out _ _ _ _ (Or.inr (by rw [length_le_bytes]; omega)),
        rd_memcpy_out _ _ _ _ (Or.inr (by rw [length_le_bytes]; omega)), rd_zeros,
        if_neg (by omega), if_neg (by omega)]
  · rw [rd_memcpy_out _ _ _ _ (Or.inl (by omega)),
      rd_memcpy_in _ _ _ _ h8 (by rw [length_le_bytes]; omega)
        (by simp [length_memcpy, length_zeros]; omega), Client.rd_le_bytes_small _ _ _ (by decide)]
    by_cases e : i = 8
    · subst e; rfl
    · rw [if_neg (by omega), if_neg e, if_neg (by omega)]

theorem Client.u64_at_forwarded_30 : u64_at Client.forwarded_30 (2 * SMALL_FIELD_LEN) = 2 := by
  apply u64_at_of_rd _ _ _ (by decide)
  intro i hi
  rw [Client.rd_forwarded_30 _ (by unfold SMALL_FIELD_LEN; omega)
    (by unfold SMALL_FIELD_LEN; omega)]
  unfold SMALL_FIELD_LEN
  by_cases h0 : i = 0
  · subst h0; rfl
  · have e : 2 / 256 ^ i = 0 := Nat.div_eq_of_lt (by
      calc 2 < 256 ^ 1 := by decide
        _ ≤ 256 ^ i := Nat.pow_le_pow_right (by decide) (by omega))
    rw [e, if_neg (by omega), if_neg (by omega)]

theorem Client.roommate_at_sampleReceiver :
    Client.roommate_at Client.sampleReceiver 0 = { Client.roommate_zeroed with
        guest_user_id := [65, 0, 0, 0, 0, 0, 0, 0], guest_KBA := le_bytes 32 22,
        guest_KAB := le_bytes 32 11, guest_Nonce := le_bytes 16 7,
        guest_nonce_counter := 0 } := by
  unfold Client.roommate_at Client.sampleReceiver
  simp only []
  rw [Client.getD_set_replicate _ _ _ (by decide)]

theorem Client.roommate_at_sampleSender :
    Client.roommate_at Client.sampleSender 0 = { Client.roommate_zeroed with
        guest_user_id := [66, 0, 0, 0, 0, 0, 0, 0], guest_KBA := le_bytes 32 11,
        guest_KAB := le_bytes 32 22, guest_Nonce := le_bytes 16 7,
        guest_nonce_counter := 0 } := by
  unfold Client.roommate_at Client.sampleSender
  simp only []
  rw [Client.getD_set_replicate _ _ _ (by decide)]

theorem Client.process_msg_30_no_slot (L : CryptoLib) (s : Client.State) (payload : Bytes)
    (ix : Nat)
    (h1 : ¬ (u64_at payload (2 * SMALL_FIELD_LEN) < 1
      ∨ Client.MAX_TXT_LEN < u64_at payload (2 * SMALL_FIELD_LEN)))
    (h2 : Client.find_sender s payload (sub_u64 s.num_roommates 2 + 1) 0 = some (some ix))
    (h5 : Client.find_own_slot s payload
      (SMALL_FIELD_LEN + ONE_TIME_KEY_LEN + u64_at payload (2 * SMALL_FIELD_LEN))
      s.num_roommates 0 = none) :
    Client.process_msg_30 L s payload = some (s, 0, []) := by
  have hc : Client.msg_30_checks L s payload ix = some (s, 0, []) := by
    unfold Client.msg_30_checks
    simp only []
    split
    · rfl
    · split
      · rfl
      · rw [h5]; rfl
  unfold Client.process_msg_30
  simp only []
  rw [if_neg h1, h2]
  by_cases h65 : ix = MAX_CLIENTS + 1
  · exact if_pos h65
  · exact (if_neg h65).trans hc

theorem Client.sampleSender_valid (j : Nat) (_hj : j < MAX_CLIENTS - 1)
    (hb : Client.bit_set Client.sampleSender.roommate_slots_bitmask j = true) :
    Client.reads_null Client.sampleSender j = false := by
  have h0 : j = 0 := Client.bit_set_top j hb
  subst h0
  unfold Client.reads_null Client.key_buffer
  rw [Client.roommate_at_sampleSender, if_pos (by decide)]
  rfl

theorem Client.sampleSender_room :
    Client.occupied_below Client.sampleSender (MAX_CLIENTS - 1)
        * (Client.SMALL_FIELD_LEN + Client.ONE_TIME_KEY_LEN + 2)
      ≤ Client.sampleSender.num_roommates
        * (Client.SMALL_FIELD_LEN + Client.ONE_TIME_KEY_LEN + 2) % 2 ^ 64 := by
  have e : MAX_CLIENTS - 1 = 62 + 1 := rfl
  rw [e, Client.occupied_below_top Client.sampleSender rfl 62]
  decide

/-- C22, as the code behaves. The roommates `sampleSender` (user id `A`) and
`sampleReceiver` (user id `B`) hold the same selected session key 22, base nonce 7 and
counter 0 for each other. `construct_msg_30` at the sender, for a two-byte text, sends a
packet whose associated-data section, bytes `[24, 66)`, is all zero: the user ids and the
ciphertext are written to the local buffer `associated_data`, which is never copied into
`payload`, and the one-time key slot is skipped. At the receiver, with signature checks that
accept, `process_msg_30` on that packet (a server signature appended) finds the sender but
not its own user id in the associated data and returns 0 with nothing decrypted. -/
theorem text_message_not_delivered :
    (Client.construct_msg_30 sampleLib Client.sampleSender [104, 105] 2 (some (zeros 32))
        0).map (fun r => r.1.sent) = some [Client.msg_30 sampleLib Client.sampleSender 2]
    ∧ Client.chacha_key Client.sampleSender 0 = le_bytes 32 22
    ∧ Client.chacha_key Client.sampleReceiver 0 = le_bytes 32 22
    ∧ slice Client.forwarded_30 24 42 = zeros 42
    ∧ Client.process_msg_30 sampleLib Client.sampleReceiver Client.forwarded_30
        = some (Client.sampleReceiver, 0, []) := by
  have hs : slice Client.forwarded_30 Client.SMALL_FIELD_LEN Client.SMALL_FIELD_LEN
      = [65, 0, 0, 0, 0, 0, 0, 0] := by
    apply bytes_ext
    · rw [length_slice]; rfl
    · intro i hi
      rw [length_slice] at hi
      rw [rd_slice, if_pos hi]
      unfold Client.SMALL_FIELD_LEN at hi
      rw [Client.rd_forwarded_30 _ (by unfold Client.SMALL_FIELD_LEN; omega)
        (by unfold Client.SMALL_FIELD_LEN; omega)]
      unfold Client.SMALL_FIELD_LEN
      by_cases h0 : i = 0
      · subst h0; rfl
      · rw [if_neg (by omega), if_neg (by omega)]
        have : ∃ k, i = k + 1 := ⟨i - 1, by omega⟩
        obtain ⟨k, rfl⟩ := this
        have hk : k < 7 := by omega
        interval_cases k <;> rfl
  have hkS : Client.chacha_key Client.sampleSender 0 = le_bytes 32 22 := by
    unfold Client.chacha_key
    rw [if_pos (by decide), Client.roommate_at_sampleSender]
    decide
  have hkR : Client.chacha_key Client.sampleReceiver 0 = le_bytes 32 22 := by
    unfold Client.chacha_key
    rw [if_neg (by decide), Client.roommate_at_sampleReceiver]
    decide
  have hsent : (Client.construct_msg_30 sampleLib Client.sampleSender [104, 105] 2
      (some (zeros 32)) 0).map (fun r => r.1.sent)
      = some [Client.msg_30 sampleLib Client.sampleSender 2] := by
    obtain ⟨r, hr⟩ := Client.construct_msg_30_defined sampleLib Client.sampleSender
      [104, 105] 2 (zeros 32) 0 Client.sampleSender_room Client.sampleSender_valid
    rw [hr, Option.map_some',
      (Client.construct_msg_30_some sampleLib Client.sampleSender [104, 105] 2 (zeros 32) 0 r
        hr).2.2.2.1]
    rfl
  refine ⟨hsent, hkS, hkR, ?_, ?_⟩
  · apply bytes_ext
    · rw [length_slice, length_zeros]
    · intro i hi
      rw [length_slice] at hi
      rw [rd_slice, if_pos hi, Client.rd_forwarded_30 _ (by omega) (by omega), rd_zeros,
        if_neg (by omega), if_neg (by omega)]
  · apply Client.process_msg_30_no_slot _ _ _ 0
    · rw [Client.u64_at_forwarded_30]; decide
    · have e : Client.sampleReceiver.num_roommates = 1 := rfl
      rw [e]
      unfold Client.find_sender
      have hb : Client.bit_set Client.sampleReceiver.roommate_slots_bitmask 0 = true := by
        decide
      rw [if_neg (by decide), if_pos hb, if_neg (by decide), Client.roommate_at_sampleReceiver,
        hs]
      simp only []
      rw [if_pos (by decide)]
    · rw [Client.u64_at_forwarded_30]
      have e : Client.sampleReceiver.num_roommates = 0 + 1 := rfl
      rw [e]
      unfold Client.find_own_slot
      have h0 : rd (slice Client.forwarded_30 (3 * Client.SMALL_FIELD_LEN
          + 0 * (Client.SMALL_FIELD_LEN + Client.ONE_TIME_KEY_LEN + 2))
          Client.SMALL_FIELD_LEN) 0 = 0 := by
        rw [rd_slice, if_pos (by decide), Client.rd_forwarded_30 _
          (by unfold Client.SMALL_FIELD_LEN; omega)
          (by unfold Client.SMALL_FIELD_LEN Client.ONE_TIME_KEY_LEN; omega)]
        unfold Client.SMALL_FIELD_LEN Client.ONE_TIME_KEY_LEN
        decide
      have hc : Client.strncmp_eq (slice Client.forwarded_30 (3 * Client.SMALL_FIELD_LEN
          + 0 * (Client.SMALL_FIELD_LEN + Client.ONE_TIME_KEY_LEN + 2))
          Client.SMALL_FIELD_LEN)
          Client.sampleReceiver.own_user_id Client.SMALL_FIELD_LEN 0 = false := by
        have e8 : Client.SMALL_FIELD_LEN = 7 + 1 := rfl
        rw [e8]
        unfold Client.strncmp_eq
        rw [← e8, h0]
        rfl
      rw [hc]
      rfl

theorem magicLib_Signature_VALIDATE (a b c d e f : bigint) (data : Bytes) (n : Nat) :
    magicLib.Signature_VALIDATE a b c d e f data n = if rd data 0 = 28 then 1 else 0 := rfl

/-- C24, as the code behaves. The check of the sending client's signature in
`process_msg_30` gives the same status for any two packets that agree from `sign1_offset`
on: the bytes `payload[0 .. sign1_offset)` are not read, since the data pointer handed to
`Signature_VALIDATE` is `payload + sign1_offset`. With a check that accepts exactly the data
starting with the low byte of `PACKET_ID_30`, on the packet `sample_30` (which starts with
`PACKET_ID_30`, `sign1_offset = 66`, `sign2_offset = 194`) the server signature check, which
passes the start of the packet, accepts and the sender signature check rejects. -/
theorem sender_signature_skips_preceding_bytes :
    (∀ (L : CryptoLib) (s : Client.State) (p q : Bytes) (ix off : Nat),
      (∀ i, off ≤ i → rd p i = rd q i) →
      Client.sender_signature_status L s p ix off = Client.sender_signature_status L s q ix off)
    ∧ Client.authenticate_server magicLib Client.sampleInRoom Client.sample_30 194 194 = 1
    ∧ Client.sender_signature_status magicLib Client.sampleInRoom Client.sample_30 0 66 = 0 := by
  refine ⟨?_, ?_, ?_⟩
  · intro L s p q ix off h
    unfold Client.sender_signature_status
    simp only []
    rw [slice_ext p q off off L.sizeof_bigint (fun i _ => h _ (by omega)),
      slice_ext p q (off + L.sizeof_bigint) (off + L.sizeof_bigint) Client.PRIVKEY_LEN
        (fun i _ => h _ (by omega)),
      slice_ext p q (off + L.sizeof_bigint + Client.PRIVKEY_LEN)
        (off + L.sizeof_bigint + Client.PRIVKEY_LEN) L.sizeof_bigint
        (fun i _ => h _ (by omega)),
      slice_ext p q (off + 2 * L.sizeof_bigint + Client.PRIVKEY_LEN)
        (off + 2 * L.sizeof_bigint + Client.PRIVKEY_LEN) Client.PRIVKEY_LEN
        (fun i _ => h _ (by omega)),
      slice_ext p q off off off (fun i _ => h _ (by omega))]
  · have h0 : rd (slice Client.sample_30 0 194) 0 = 28 := by
      rw [rd_slice, if_pos (by decide)]
      decide
    unfold Client.authenticate_server
    simp only []
    rw [magicLib_Signature_VALIDATE, if_pos h0]
  · have h0 : rd (slice Client.sample_30 66 66) 0 = 0 := by
      rw [rd_slice, if_pos (by decide), Client.rd_sample_30 _ (by decide)]
      decide
    unfold Client.sender_signature_status
    simp only []
    rw [magicLib_Signature_VALIDATE, h0]
    rfl

theorem sender_signature_skips_preceding_bytes_witness :
    (∀ i, 1 ≤ i → rd [1, 2, 3] i = rd [9, 2, 3] i)
    ∧ Client.sender_signature_status magicLib Client.sampleInRoom [1, 2, 3] 0 1
      = Client.sender_signature_status magicLib Client.sampleInRoom [9, 2, 3] 0 1 := by
  have h : ∀ i, 1 ≤ i → rd [1, 2, 3] i = rd [9, 2, 3] i := by
    intro i hi
    cases i with
    | zero => omega
    | succ n => rfl
  exact ⟨h, sender_signature_skips_preceding_bytes.1 magicLib Client.sampleInRoom
    [1, 2, 3] [9, 2, 3] 0 1 h⟩

theorem Client.reg_success (L : CryptoLib) (argon2 : Bytes → Bytes → Bytes)
    (fs : Client.FileSystem) (password : Bytes) (password_len : Nat) (rnd a b : Bytes) :
    ∃ d, Client.reg L argon2 fs password password_len rnd (some a) (some b) true
      = (Client.remove_file (Client.write_file fs "../bin/user_save.dat"
          (Client.user_save_buf b d
            (L.gen_pub_key Client.PRIVKEY_LEN
              { bits := memcpy (zeros MAX_BIGINT_SIZ) 0 (slice rnd 0 Client.PRIVKEY_LEN),
                bits_size := MAX_BIGINT_SIZ,
                used_bits := L.get_used_bits (slice rnd 0 Client.PRIVKEY_LEN) Client.PRIVKEY_LEN,
                free_bits := MAX_BIGINT_SIZ
                  - L.get_used_bits (slice rnd 0 Client.PRIVKEY_LEN) Client.PRIVKEY_LEN }
              MAX_BIGINT_SIZ).bits a)) "temp_privkey_DAT", 1) :=
  ⟨_, rfl⟩

theorem Client.reg_saved_unchanged (L : CryptoLib) (argon2 : Bytes → Bytes → Bytes)
    (fs : Client.FileSystem) (password : Bytes) (password_len : Nat) (rnd : Bytes)
    (salt_rnd nonce_rnd : Option Bytes) (open_ok : Bool) :
    (Client.reg L argon2 fs password password_len rnd salt_rnd nonce_rnd open_ok).1
        "../bin/saved.dat" = fs "../bin/saved.dat" := by
  have e1 : ∀ f : Client.FileSystem,
      Client.remove_file f "temp_privkey_DAT" "../bin/saved.dat" = f "../bin/saved.dat" :=
    fun f => if_neg (by decide)
  have e2 : ∀ (f : Client.FileSystem) (d : Bytes),
      Client.write_file f "../bin/user_save.dat" d "../bin/saved.dat" = f "../bin/saved.dat" :=
    fun f d => if_neg (by decide)
  cases salt_rnd with
  | none => exact e1 fs
  | some a =>
    cases nonce_rnd with
    | none => exact e1 fs
    | some b =>
      cases open_ok with
      | false => exact e1 fs
      | true =>
        have e3 : ∀ d : Bytes,
            Client.remove_file (Client.write_file fs "../bin/user_save.dat" d)
              "temp_privkey_DAT" "../bin/saved.dat" = fs "../bin/saved.dat" :=
          fun d => (e1 _).trans (e2 fs d)
        obtain ⟨d, hd⟩ := Client.reg_success L argon2 fs password password_len rnd a b
        rw [hd]
        dsimp only
        exact e3 _

theorem Client.length_user_save_buf (a b c d : Bytes) :
    (Client.user_save_buf a b c d).length = 448 := by
  simp [Client.user_save_buf, length_memcpy, length_zeros, PUBKEY_LEN, Client.PRIVKEY_LEN,
    Client.LONG_NONCE_LEN]

theorem Client.reg_written (L : CryptoLib) (argon2 : Bytes → Bytes → Bytes)
    (fs : Client.FileSystem) (password : Bytes) (password_len : Nat) (rnd a b : Bytes) :
    (Client.reg L argon2 fs password password_len rnd (some a) (some b) true).2 = 1
    ∧ ∃ d, d.length = 448
      ∧ (Client.reg L argon2 fs password password_len rnd (some a) (some b) true).1
          "../bin/user_save.dat" = some d := by
  have e1 : ∀ f : Client.FileSystem,
      Client.remove_file f "temp_privkey_DAT" "../bin/user_save.dat"
        = f "../bin/user_save.dat" :=
    fun f => if_neg (by decide)
  have e2 : ∀ (f : Client.FileSystem) (d : Bytes),
      Client.write_file f "../bin/user_save.dat" d "../bin/user_save.dat" = some d :=
    fun f d => if_pos rfl
  constructor
  · rfl
  · have e3 : ∀ d : Bytes,
        Client.remove_file (Client.write_file fs "../bin/user_save.dat" d)
          "temp_privkey_DAT" "../bin/user_save.dat" = some d :=
      fun d => (e1 _).trans (e2 fs d)
    obtain ⟨d, hd⟩ := Client.reg_success L argon2 fs password password_len rnd a b
    rw [hd]
    dsimp only
    exact ⟨_, Client.length_user_save_buf _ _ _ _, e3 _⟩

/-- C26, as the code behaves. The routine `reg` writes the save data to
`../bin/user_save.dat` and leaves the file `../bin/saved.dat`, the one `self_init` opens, as
it was, so the key loading of `self_init` gives the same result after `reg` as before it.
When both reads of random bytes and the open succeed, `reg` returns 1 with its 448 bytes in
`../bin/user_save.dat`; on a file system with no other file `self_init` then fails to open
its save file and ends with status 0, without any key. -/
theorem reg_writes_file_self_init_never_reads (L : CryptoLib)
    (argon2 : Bytes → Bytes → Bytes) (password : Bytes) (password_len : Nat) (rnd a b : Bytes) :
    (∀ (fs : Client.FileSystem) (salt_rnd nonce_rnd : Option Bytes) (open_ok : Bool),
      (Client.reg L argon2 fs password password_len rnd salt_rnd nonce_rnd open_ok).1
          "../bin/saved.dat" = fs "../bin/saved.dat"
      ∧ Client.self_init_own_keys L argon2
          (Client.reg L argon2 fs password password_len rnd salt_rnd nonce_rnd open_ok).1
          password password_len
        = Client.self_init_own_keys L argon2 fs password password_len)
    ∧ (Client.reg L argon2 Client.no_files password password_len rnd (some a) (some b)
        true).2 = 1
    ∧ (∃ d, d.length = 448
        ∧ (Client.reg L argon2 Client.no_files password password_len rnd (some a) (some b)
            true).1 "../bin/user_save.dat" = some d)
    ∧ Client.self_init_own_keys L argon2
        (Client.reg L argon2 Client.no_files password password_len rnd (some a) (some b)
          true).1 password password_len = none := by
  have hw := Client.reg_written L argon2 Client.no_files password password_len rnd a b
  refine ⟨fun fs salt_rnd nonce_rnd open_ok =>
    ⟨Client.reg_saved_unchanged L argon2 fs password password_len rnd salt_rnd nonce_rnd
      open_ok, ?_⟩, hw.1, hw.2, ?_⟩
  · unfold Client.self_init_own_keys
    rw [Client.reg_saved_unchanged]
  · unfold Client.self_init_own_keys
    rw [Client.reg_saved_unchanged]
    rfl

end Rosetta
